import Mathlib

/-!
# Live match scoring engine (`src/controllers/matchController.js`)

A shallow embedding of the match aggregate (`src/models/Match.js`), the
per-player statistics records (`src/models/PlayerStats.js`) and of the
controllers that mutate them: `updateMatchStatus` (with its statistics pass
`updateInningsStats`), `updateToss`, `updateCurrentPlayers`, `addBall`,
`undoBall`, `updateBall`; of the events the ball handlers broadcast; and of
the derived views `calculateBattingStats`, `calculateFallOfWickets` and
`getBattingStatus`.

Conventions of the embedding.

* Document identifiers (`ObjectId`) and instants (`Date`) are natural numbers.
* Run, ball and wicket counters are integers.  Quantities that the source
  computes with fractions (overs, rates) are rationals: the arithmetic of the
  JavaScript doubles is idealised to exact arithmetic.
* A controller returns `Except Response σ`: `.error r` is the HTTP failure the
  handler answers with (every failure path aborts the transaction, so nothing
  is stored), `.ok s` is the state written by the committed transaction.
* `createdAt` / `updatedAt` bookkeeping of the persistence layer is left out.
* `calculateBattingStats` reads a populated ledger: it takes the lookup
  `users` of the user collection, and a reference whose user does not resolve
  reads `null`.
-/

namespace Zinga

/-! ## Data model -/

abbrev ObjectId := Nat

abbrev Date := Nat

/-- The failure answered by a handler: the HTTP status code and the `message`
of the JSON body.  `message = none` stands for the text of a runtime
exception (`error.message` in the `catch` block). -/
structure Response where
  code : Nat
  message : Option String
  deriving DecidableEq, Repr

/-- The `status` enum of `matchSchema`. -/
inductive MatchStatus where
  | scheduled | live | paused | completed | abandoned | delayed
  deriving DecidableEq, Repr

/-- The `ballType` enum of `ballSchema`. -/
inductive BallType where
  | regular | wide | noball | legbye | bye
  deriving DecidableEq, Repr

/-- The `wicketType` enum of `ballSchema`. -/
inductive WicketType where
  | bowled | caught | lbw | runOut | stumped | hitWicket
  deriving DecidableEq, Repr

/-- The `ballType` enum of the tournament (cricket ball classification). -/
inductive CricketBallType where
  | white | red | pink
  deriving DecidableEq, Repr

/-- The two innings keys of a match document. -/
inductive InningsKey where
  | firstInnings | secondInnings
  deriving DecidableEq, Repr

/-- One entry of the ball ledger (`ballSchema`). -/
structure Ball where
  id : ObjectId
  overNumber : Int
  ballNumber : Int
  runs : Int
  isWicket : Bool
  wicketType : Option WicketType
  playerOut : Option ObjectId
  commentary : String
  timestamp : Date
  striker : ObjectId
  bowler : ObjectId
  ballType : BallType
  isBoundary : Bool
  isExtra : Bool
  isOver : Bool
  catchMissed : Bool
  fielder : Option ObjectId
  runSaved : Int
  runMissed : Int
  bonusRuns : Int
  isNegativeRuns : Bool
  fieldingHighlight : Option String
  deriving DecidableEq, Repr

/-- One entry of `historyLogs` (`historyLogsSchema`). -/
structure HistoryLog where
  timestamp : Date
  runs : Int
  isBonusRun : Bool
  isNegativeRun : Bool
  reason : String
  deriving DecidableEq, Repr

/-- One entry of `playerReplacements`. -/
structure PlayerReplacement where
  originalPlayer : ObjectId
  replacementPlayer : ObjectId
  playerRole : String
  timestamp : Date
  reason : String
  description : Option String
  deriving DecidableEq, Repr

/-- The nested `declarationInfo` block of an innings. -/
structure DeclarationInfo where
  isDeclared : Bool := false
  reason : Option String := none
  time : Option Date := none
  commentary : Option String := none
  deriving DecidableEq, Repr

/-- The nested `oversReductionInfo` block of an innings. -/
structure OversReductionInfo where
  isReduced : Bool := false
  reason : Option String := none
  time : Option Date := none
  commentary : Option String := none
  deriving DecidableEq, Repr

/-- An innings sub-document (`inningsSchema`). -/
structure Innings where
  battingTeam : Option ObjectId := none
  bowlingTeam : Option ObjectId := none
  totalRuns : Int := 0
  wickets : Int := 0
  overs : ℚ := 0
  currentStriker : Option ObjectId := none
  currentNonStriker : Option ObjectId := none
  currentBowler : Option ObjectId := none
  currentKeeper : Option ObjectId := none
  playerReplacements : List PlayerReplacement := []
  balls : List Ball := []
  historyLogs : List HistoryLog := []
  isComplete : Bool := false
  declarationInfo : DeclarationInfo := {}
  oversReductionInfo : OversReductionInfo := {}
  deriving DecidableEq, Repr

/-- The nested `result` block of a match. -/
structure MatchResult where
  winner : Option ObjectId := none
  margin : Option String := none
  deriving DecidableEq, Repr

/-- The nested `dls` block of a match. -/
structure Dls where
  isApplied : Bool := false
  originalTarget : Option Int := none
  revisedTarget : Option Int := none
  originalOvers : Option ℚ := none
  revisedOvers : Option ℚ := none
  reason : Option String := none
  appliedAt : Option Date := none
  commentary : Option String := none
  deriving DecidableEq, Repr

/-- One entry of `oversChangeHistory`. -/
structure OversChange where
  previousOvers : ℚ
  newOvers : ℚ
  reason : String
  timestamp : Date
  commentary : Option String
  deriving DecidableEq, Repr

/-- The nested `abandonInfo` block of a match. -/
structure AbandonInfo where
  reason : Option String := none
  time : Option Date := none
  commentary : Option String := none
  deriving DecidableEq, Repr

/-- A match document (`matchSchema`). -/
structure Match where
  id : ObjectId
  tournament : ObjectId
  matchNumber : Int
  teamA : Option ObjectId
  teamB : Option ObjectId
  venue : ObjectId
  matchDate : Date
  matchStartTime : String
  matchEndTime : String
  status : MatchStatus := .scheduled
  tossWinner : Option ObjectId := none
  tossDecision : Option String := none
  firstInnings : Option Innings := none
  secondInnings : Option Innings := none
  umpires : List ObjectId := []
  result : MatchResult := {}
  dls : Dls := {}
  currentOversPerInnings : Option ℚ := none
  oversChangeHistory : List OversChange := []
  abandonInfo : AbandonInfo := {}
  matchType : String := "group"
  groupName : Option String := none
  deriving DecidableEq, Repr

/-- The tournament fields the engine reads (`src/models/Tournament.js`: both
are `required`). -/
structure Tournament where
  ballType : CricketBallType
  oversPerInnings : ℚ
  deriving DecidableEq, Repr

/-- The read `match[innings]`. -/
def Match.innings (m : Match) : InningsKey → Option Innings
  | .firstInnings => m.firstInnings
  | .secondInnings => m.secondInnings

/-- The write `match[innings] = inn`. -/
def Match.setInnings (m : Match) (k : InningsKey) (inn : Innings) : Match :=
  match k with
  | .firstInnings => { m with firstInnings := some inn }
  | .secondInnings => { m with secondInnings := some inn }

/-! ## JavaScript helpers -/

/-- Truthiness of an optional string: `undefined` and `''` are falsy. -/
def truthyStr : Option String → Bool
  | some s => s != ""
  | none => false

/-- The expression `s || d` for an optional string. -/
def strOr (s : Option String) (d : String) : String :=
  match s with
  | some v => if v != "" then v else d
  | none => d

/-- The membership test
`['scheduled', 'live', 'paused', 'completed', 'abandoned', 'delayed'].includes(s)`,
returning the enum value. -/
def parseStatus (s : String) : Option MatchStatus :=
  if s = "scheduled" then some .scheduled
  else if s = "live" then some .live
  else if s = "paused" then some .paused
  else if s = "completed" then some .completed
  else if s = "abandoned" then some .abandoned
  else if s = "delayed" then some .delayed
  else none

/-- The membership test `['firstInnings', 'secondInnings'].includes(s)`. -/
def parseInningsKey (s : String) : Option InningsKey :=
  if s = "firstInnings" then some .firstInnings
  else if s = "secondInnings" then some .secondInnings
  else none

/-- The text `inn === 'firstInnings' ? 'First' : 'Second'`. -/
def InningsKey.label : InningsKey → String
  | .firstInnings => "First"
  | .secondInnings => "Second"

/-! ## `updateMatchStatus` -/

/-- The body of an `updateMatchStatus` request.  The four action flags are
the truthiness of `reviseTarget`, `endMatch`, `endInnings`, `changeOvers`. -/
structure StatusRequest where
  status : Option String := none
  reviseTarget : Bool := false
  endMatch : Bool := false
  endInnings : Bool := false
  changeOvers : Bool := false
  reason : Option String := none
  targetRuns : Option Int := none
  targetOvers : Option ℚ := none
  inningsToEnd : Option String := none
  newTotalOvers : Option ℚ := none
  commentary : Option String := none
  deriving DecidableEq

/-- What a request handler reads besides the match document: the tournament
the match refers to (`none` when the reference does not resolve, so that the
populated `match.tournament` is `null`), the clock, the conversion of a
number to text used by template strings, and the identifier given to a new
sub-document. -/
structure Env where
  tournament : Option Tournament
  now : Date
  numToString : ℚ → String
  freshId : ObjectId := 0

/-- The working state of `updateMatchStatus`: the loaded document and the
`actionTaken` array. -/
structure StatusState where
  doc : Match
  actionTaken : List String
  deriving DecidableEq

/-- The 400 answer with a message. -/
def badRequest (msg : String) : Response := ⟨400, some msg⟩

/-- The 404 answer of a failed `Match.findById`. -/
def matchNotFound : Response := ⟨404, some "Match not found"⟩

/-- The 500 answer of the `catch` block. -/
def internalError : Response := ⟨500, none⟩

/-- Lines 163-170: a truthy `status` must be one of the six enum names. -/
def validStatus (req : StatusRequest) : Except Response (Option MatchStatus) :=
  match req.status with
  | none => .ok none
  | some s =>
    if s = "" then .ok none
    else match parseStatus s with
      | some st => .ok (some st)
      | none => .error (badRequest
          "Invalid status. Must be one of: scheduled, live, paused, completed, abandoned, delayed")

/-- Step 1 (lines 193-219): the standard status update. -/
def stepStatus (status : Option MatchStatus) (s : StatusState) : Except Response StatusState :=
  match status with
  | none => .ok s
  | some st =>
    if st = .live ∧ s.doc.status ≠ .scheduled ∧ s.doc.status ≠ .paused ∧ s.doc.status ≠ .delayed then
      .error (badRequest "Can only start a scheduled, paused, or delayed match")
    else if st = .completed then
      match s.doc.firstInnings with
      | none => .error internalError
      | some fi =>
        if !fi.isComplete then
          .error (badRequest "Cannot complete match before first innings is complete")
        else .ok { doc := { s.doc with status := st }, actionTaken := s.actionTaken ++ ["Status updated"] }
    else .ok { doc := { s.doc with status := st }, actionTaken := s.actionTaken ++ ["Status updated"] }

/-- Step 2 (lines 221-250): the DLS revision.  The tournament is populated
with the `ballType` field only, so `match.tournament.oversPerInnings` reads
`undefined`; the read throws when the populated tournament is `null`. -/
def stepReviseTarget (env : Env) (req : StatusRequest) (s : StatusState) :
    Except Response StatusState :=
  if !req.reviseTarget then .ok s
  else
    match req.targetRuns, req.targetOvers with
    | some tr, some tov =>
      if tr = 0 ∨ tov = 0 then
        .error (badRequest "Target runs and overs are required for revising target")
      else
        match s.doc.firstInnings, env.tournament with
        | some fi, some _ =>
          .ok { doc := { s.doc with dls :=
                  { isApplied := true
                    originalTarget := some (fi.totalRuns + 1)
                    revisedTarget := some tr
                    originalOvers := none
                    revisedOvers := some tov
                    reason := some (strOr req.reason "Weather interruption")
                    appliedAt := some env.now
                    commentary := some (strOr req.commentary
                      ("Target revised to " ++ toString tr ++ " runs in " ++
                        env.numToString tov ++ " overs using DLS method")) } }
                actionTaken := s.actionTaken ++ ["Target revised using DLS method"] }
        | _, _ => .error internalError
    | _, _ => .error (badRequest "Target runs and overs are required for revising target")

/-- Step 3 (lines 252-285): end or declare an innings. -/
def stepEndInnings (env : Env) (req : StatusRequest) (s : StatusState) :
    Except Response StatusState :=
  if !req.endInnings then .ok s
  else
    match req.inningsToEnd.bind parseInningsKey with
    | none => .error (badRequest
        "Valid innings to end (firstInnings or secondInnings) is required")
    | some k =>
      match s.doc.innings k with
      | none => .error internalError
      | some inn =>
        if inn.isComplete then
          .error (badRequest (k.label ++ " innings is already complete"))
        else
          .ok { doc := s.doc.setInnings k
                  { inn with
                    isComplete := true
                    declarationInfo :=
                      { isDeclared := true
                        reason := some (strOr req.reason "Tactical declaration")
                        time := some env.now
                        commentary := some (strOr req.commentary (k.label ++ " innings declared")) } }
                actionTaken := s.actionTaken ++ [k.label ++ " innings ended/declared"] }

/-- The `forEach` body of lines 347-357 for one innings. -/
def reduceInnings (env : Env) (req : StatusRequest) (newOvers : ℚ) (k : InningsKey)
    (m : Match) : Match :=
  match m.innings k with
  | none => m
  | some inn =>
    if !inn.isComplete ∧ inn.overs ≥ newOvers then
      m.setInnings k
        { inn with
          isComplete := true
          oversReductionInfo :=
            { isReduced := true
              reason := some (strOr req.reason "Match overs reduced")
              time := some env.now
              commentary := some (strOr req.commentary
                (k.label ++ " innings completed due to reduction in overs")) } }
    else m

/-- Step 4 (lines 287-360): change of the match overs.  A populated tournament
carries no `oversPerInnings`, so the fallback for the previous value is 20. -/
def stepChangeOvers (env : Env) (req : StatusRequest) (s : StatusState) :
    Except Response StatusState :=
  if !req.changeOvers then .ok s
  else
    match req.newTotalOvers with
    | none => .error (badRequest "Valid new total overs is required to change match overs")
    | some n =>
      if n ≤ 0 then
        .error (badRequest "Valid new total overs is required to change match overs")
      else
        let previousOversValue : ℚ :=
          match s.doc.currentOversPerInnings with
          | some c => if c ≠ 0 then c else 20
          | none => 20
        let entry : OversChange :=
          { previousOvers := previousOversValue
            newOvers := n
            reason := strOr req.reason "Match overs adjusted"
            timestamp := env.now
            commentary := some (strOr req.commentary
              ("Match overs changed from " ++ env.numToString previousOversValue ++ " to " ++
                env.numToString n)) }
        let entry : OversChange :=
          match s.doc.oversChangeHistory.getLast? with
          | none => entry
          | some last =>
            if last.newOvers ≠ 0 then
              { entry with
                previousOvers := last.newOvers
                commentary := some (strOr req.commentary
                  ("Match overs changed from " ++ env.numToString last.newOvers ++ " to " ++
                    env.numToString n)) }
            else entry
        let m1 : Match :=
          { s.doc with
            oversChangeHistory := s.doc.oversChangeHistory ++ [entry]
            currentOversPerInnings := some n }
        let m2 := reduceInnings env req n .secondInnings (reduceInnings env req n .firstInnings m1)
        .ok { doc := m2, actionTaken := s.actionTaken ++ ["Match overs changed"] }

/-- Step 5 (lines 362-382): end the match prematurely. -/
def stepEndMatch (env : Env) (req : StatusRequest) (s : StatusState) :
    Except Response StatusState :=
  if !req.endMatch then .ok s
  else
    match req.reason with
    | none => .error (badRequest "Reason is required to end match prematurely")
    | some r =>
      if r = "" then .error (badRequest "Reason is required to end match prematurely")
      else
        .ok { doc := { s.doc with
                status := .abandoned
                abandonInfo :=
                  { reason := some r
                    time := some env.now
                    commentary := some (strOr req.commentary ("Match abandoned due to " ++ r)) } }
              actionTaken := s.actionTaken ++ ["Match ended prematurely"] }

/-- The value of `targetToWin` (line 389); `none` when the DLS block is applied
without a revised target (`undefined`). -/
def targetToWin (m : Match) (firstInningsScore : Int) : Option Int :=
  if m.dls.isApplied then m.dls.revisedTarget else some (firstInningsScore + 1)

/-- The result block of lines 391-406.  A comparison with an `undefined`
target is false, which leads to the last branch. -/
def computeResult (m : Match) (fi si : Innings) : MatchResult :=
  match targetToWin m fi.totalRuns with
  | some t =>
    if si.totalRuns ≥ t then
      { winner := si.battingTeam, margin := some (toString si.wickets ++ " wickets") }
    else if si.totalRuns < t - 1 then
      { winner := fi.battingTeam, margin := some (toString (t - 1 - si.totalRuns) ++ " runs") }
    else
      { winner := none, margin := some "Match tied" }
  | none => { winner := none, margin := some "Match tied" }

/-- Lines 384-418 on the match document: the result of a completed match.
The reads of `match.firstInnings.totalRuns`, `match.secondInnings.totalRuns`
and `match.tournament.ballType` throw on a missing innings or tournament.  The
statistics pass `updateInningsStats` that follows writes `PlayerStats` records
only. -/
def stepResult (env : Env) (status : Option MatchStatus) (req : StatusRequest)
    (s : StatusState) : Except Response StatusState :=
  if (status = some .completed ∨ req.endMatch) ∧ s.doc.status = .completed then
    match s.doc.firstInnings, s.doc.secondInnings, env.tournament with
    | some fi, some si, some _ =>
      .ok { s with doc := { s.doc with result := computeResult s.doc fi si } }
    | _, _, _ => .error internalError
  else .ok s

/-- Lines 420-429: at least one action must have been taken. -/
def stepRequireAction (s : StatusState) : Except Response StatusState :=
  if s.actionTaken.length = 0 then
    .error (badRequest
      "No action specified. Please provide at least one valid action to perform.")
  else .ok s

/-- The handler `updateMatchStatus` (lines 142-431) on the match document:
`found` is the result of `Match.findById`.  It answers the failure, or the
document that is saved together with the list of performed actions.  The copy
of the status and result into the tournament's embedded match entry (lines
433-449) does not touch the match document. -/
def updateMatchStatus (env : Env) (found : Option Match) (req : StatusRequest) :
    Except Response StatusState :=
  match validStatus req with
  | .error r => .error r
  | .ok status =>
    match found with
    | none => .error matchNotFound
    | some m =>
      (stepStatus status { doc := m, actionTaken := [] })
        |>.bind (stepReviseTarget env req)
        |>.bind (stepEndInnings env req)
        |>.bind (stepChangeOvers env req)
        |>.bind (stepEndMatch env req)
        |>.bind (stepResult env status req)
        |>.bind stepRequireAction

/-- The match document stored after a request on the stored document `m`:
the saved document when the request succeeds, `m` itself when it fails. -/
def storedAfter (m : Match) (r : Except Response StatusState) : Match :=
  match r with
  | .ok s => s.doc
  | .error _ => m

/-! ## The ball ledger: `addBall` and `undoBall` on the match document -/

/-- The body of an `addBall` request.  `none` is `undefined`; the boolean
fields are the truthiness of the sent value. -/
structure BallRequest where
  innings : Option String := none
  overNumber : Option Int := none
  ballNumber : Option Int := none
  runs : Option Int := none
  isWicket : Bool := false
  wicketType : Option String := none
  playerOut : Option ObjectId := none
  commentary : Option String := none
  striker : Option ObjectId := none
  bowler : Option ObjectId := none
  ballType : Option String := none
  extraRuns : Option Int := none
  isBoundary : Bool := false
  isOver : Bool := false
  catchMissed : Bool := false
  fielder : Option ObjectId := none
  runSaved : Option Int := none
  runMissed : Option Int := none
  bonusRuns : Option Int := none
  isNegativeRuns : Bool := false
  fieldingHighlight : Option String := none
  deriving DecidableEq

/-- The `ballType` enum of `ballSchema` read from its name. -/
def parseBallType (s : String) : Option BallType :=
  if s = "regular" then some .regular
  else if s = "wide" then some .wide
  else if s = "noball" then some .noball
  else if s = "legbye" then some .legbye
  else if s = "bye" then some .bye
  else none

/-- The `wicketType` enum of `ballSchema` read from its name. -/
def parseWicketType (s : String) : Option WicketType :=
  if s = "bowled" then some .bowled
  else if s = "caught" then some .caught
  else if s = "lbw" then some .lbw
  else if s = "run out" then some .runOut
  else if s = "stumped" then some .stumped
  else if s = "hit wicket" then some .hitWicket
  else none

/-- The filter predicate of lines 1125-1126 and 2177-2178: the ball counts
towards the over. -/
def isLegalDelivery (b : Ball) : Bool :=
  b.ballType = .regular || b.ballType = .legbye || b.ballType = .bye

/-- The local `legalDeliveries`: the length of the filtered ledger. -/
def legalDeliveries (balls : List Ball) : Nat :=
  (balls.filter isLegalDelivery).length

/-- The expression `Math.floor(legalDeliveries / 6) + (legalDeliveries % 6) / 10`. -/
def currentOvers (legal : Nat) : ℚ :=
  ((legal / 6 : Nat) : ℚ) + ((legal % 6 : Nat) : ℚ) / 10

/-- Lines 1084-1088: the run total of a delivery. -/
def ballTotalRuns (runs : Int) (req : BallRequest) : Int :=
  let totalRuns := runs + req.extraRuns.getD 0 + req.bonusRuns.getD 0
  if req.isNegativeRuns then -|totalRuns| else totalRuns

/-- The required fields of an `addBall` request once the checks of lines
1018-1067 have passed. -/
structure CheckedBall where
  key : InningsKey
  overNumber : Int
  ballNumber : Int
  runs : Int
  commentary : String
  striker : ObjectId
  bowler : ObjectId
  deriving DecidableEq

/-- The input checks of `addBall` that precede the lookup of the match
(lines 1018-1067). -/
def checkBallRequest (req : BallRequest) : Except Response CheckedBall :=
  match req.innings.bind parseInningsKey with
  | none => .error (badRequest "Valid innings (firstInnings or secondInnings) is required")
  | some key =>
    match req.overNumber, req.ballNumber, req.runs, req.commentary with
    | some o, some b, some r, some c =>
      if c = "" then
        .error (badRequest "Over number, ball number, runs, and commentary are required")
      else if req.isWicket ∧ !truthyStr req.wicketType then
        .error (badRequest "Wicket type is required when recording a wicket")
      else if req.isWicket ∧ req.playerOut.isNone then
        .error (badRequest "Player out ID is required when recording a wicket")
      else
        match req.striker, req.bowler with
        | some st, some bw =>
          .ok { key := key, overNumber := o, ballNumber := b, runs := r, commentary := c,
                striker := st, bowler := bw }
        | _, _ => .error (badRequest "Striker and bowler information is required")
    | _, _, _, _ =>
      .error (badRequest "Over number, ball number, runs, and commentary are required")

/-- The enum casts of `ballSchema` applied when the document is saved: a
`ballType` or `wicketType` outside its enum makes the save throw. -/
def castBallEnums (req : BallRequest) : Except Response (Option BallType × Option WicketType) :=
  let bt : Except Response (Option BallType) :=
    match req.ballType with
    | none => .ok none
    | some s => match parseBallType s with
      | some t => .ok (some t)
      | none => .error internalError
  let wt : Except Response (Option WicketType) :=
    match req.wicketType with
    | none => .ok none
    | some s => match parseWicketType s with
      | some t => .ok (some t)
      | none => .error internalError
  match bt, wt with
  | .ok b, .ok w => .ok (b, w)
  | _, _ => .error internalError

/-- Lines 1090-1114: the ledger entry built from the request. -/
def makeBall (env : Env) (req : BallRequest) (c : CheckedBall) (ballType : Option BallType)
    (wicketType : Option WicketType) : Ball :=
  { id := env.freshId
    overNumber := c.overNumber
    ballNumber := c.ballNumber
    runs := ballTotalRuns c.runs req
    isWicket := req.isWicket
    wicketType := wicketType
    playerOut := req.playerOut
    commentary := c.commentary
    timestamp := env.now
    striker := c.striker
    bowler := c.bowler
    ballType := ballType.getD .regular
    isBoundary := req.isBoundary || (c.runs = 4 || c.runs = 6)
    isExtra := match ballType with
      | some t => t != .regular
      | none => false
    isOver := req.isOver
    catchMissed := req.catchMissed
    fielder := req.fielder
    runSaved := req.runSaved.getD 0
    runMissed := req.runMissed.getD 0
    bonusRuns := req.bonusRuns.getD 0
    isNegativeRuns := req.isNegativeRuns
    fieldingHighlight := req.fieldingHighlight }

/-- Lines 1116-1137: the innings after the ball is pushed.  `tournament` is
the result of `Tournament.findById`. -/
def addBallInnings (tournament : Option Tournament) (inn : Innings) (ball : Ball)
    (isWicket : Bool) : Innings :=
  let balls := inn.balls ++ [ball]
  let wickets := if isWicket then inn.wickets + 1 else inn.wickets
  let overs := currentOvers (legalDeliveries balls)
  let isComplete :=
    match tournament with
    | some t => if overs ≥ t.oversPerInnings ∨ wickets ≥ 10 then true else inn.isComplete
    | none => inn.isComplete
  { inn with
    balls := balls
    totalRuns := inn.totalRuns + ball.runs
    wickets := wickets
    overs := overs
    isComplete := isComplete }

/-- The condition of lines 1140-1141 under which `isFinalOver` is set; it is
evaluated after `overs` has been assigned (`storedOvers` is the innings'
`overs` at that point).  `isFinalOver` is not a path of `inningsSchema`. -/
def finalOverCondition (maxOvers : ℚ) (overs storedOvers : ℚ) : Bool :=
  ((⌊overs⌋ : ℚ) = maxOvers - 1) && (⌊storedOvers⌋ < ⌊overs⌋)

/-- Lines 2167-2192: the innings after the last ball is popped. -/
def undoBallInnings (tournament : Option Tournament) (inn : Innings) (lastBall : Ball) :
    Innings :=
  let balls := inn.balls.dropLast
  let wickets := if lastBall.isWicket then inn.wickets - 1 else inn.wickets
  let overs := currentOvers (legalDeliveries balls)
  let isComplete :=
    match tournament with
    | some t => if overs ≥ t.oversPerInnings ∨ wickets ≥ 10 then true else false
    | none => inn.isComplete
  { inn with
    balls := balls
    totalRuns := inn.totalRuns - lastBall.runs
    wickets := wickets
    overs := overs
    isComplete := isComplete }

/-! ## Player statistics (`src/models/PlayerStats.js`) -/

/-- A stored JavaScript number that is the value of a quotient: a finite
value or an infinity.  `NaN` is not storable (the `Number` cast of the schema
rejects it and the save throws). -/
inductive JsNumber where
  | finite (q : ℚ)
  | posInf
  | negInf
  deriving DecidableEq

/-- The quotient `a / b` of JavaScript; `none` is `NaN`. -/
def jsDiv (a b : ℚ) : Option JsNumber :=
  if b ≠ 0 then some (.finite (a / b))
  else if a > 0 then some .posInf
  else if a < 0 then some .negInf
  else none

/-- The product `x * 100` of line 1214 for a quotient `x`. -/
def JsNumber.times100 : JsNumber → JsNumber
  | .finite q => .finite (q * 100)
  | .posInf => .posInf
  | .negInf => .negInf

/-- The batting sub-record (`battingStatsSchema`); `matchCount` is the field
`matches`. -/
structure BattingStats where
  matchCount : Int := 0
  innings : Int := 0
  runs : Int := 0
  balls : Int := 0
  fours : Int := 0
  sixes : Int := 0
  fifties : Int := 0
  hundreds : Int := 0
  highestScore : Int := 0
  strikeRate : JsNumber := .finite 0
  average : JsNumber := .finite 0
  deriving DecidableEq

/-- The nested `bestBowling` block. -/
structure BestBowling where
  wickets : Int := 0
  runs : Int := 0
  deriving DecidableEq

/-- The bowling sub-record (`bowlingStatsSchema`); `matchCount` is the field
`matches`. -/
structure BowlingStats where
  matchCount : Int := 0
  innings : Int := 0
  wickets : Int := 0
  overs : ℚ := 0
  runs : Int := 0
  economy : JsNumber := .finite 0
  average : JsNumber := .finite 0
  fiveWickets : Int := 0
  tenWickets : Int := 0
  bestBowling : BestBowling := {}
  deriving DecidableEq

/-- The statistics of one cricket ball type; a sub-record that was never set
is `undefined`. -/
structure TypeStats where
  batting : Option BattingStats := none
  bowling : Option BowlingStats := none
  deriving DecidableEq

/-- The three partitions of the career record (`performanceByBallTypeSchema`). -/
structure CareerStats where
  white : TypeStats := {}
  red : TypeStats := {}
  pink : TypeStats := {}
  deriving DecidableEq

/-- The read `careerStats[cricketBallType]`. -/
def CareerStats.get (c : CareerStats) : CricketBallType → TypeStats
  | .white => c.white
  | .red => c.red
  | .pink => c.pink

/-- The write `careerStats[cricketBallType] = v`. -/
def CareerStats.set (c : CareerStats) (t : CricketBallType) (v : TypeStats) : CareerStats :=
  match t with
  | .white => { c with white := v }
  | .red => { c with red := v }
  | .pink => { c with pink := v }

/-- An entry of `battingInnings` as the controller writes it. -/
structure BattingInningsEntry where
  runs : Int
  balls : Int
  fours : Int
  sixes : Int
  deriving DecidableEq

/-- An entry of `bowlingInnings` as the controller writes it. -/
structure BowlingInningsEntry where
  overs : ℚ
  runs : Int
  wickets : Int
  deriving DecidableEq

/-- An entry of `matchesPlayed`. -/
structure MatchPlayed where
  matchId : ObjectId
  ballType : CricketBallType
  battingInnings : List BattingInningsEntry := []
  bowlingInnings : List BowlingInningsEntry := []
  deriving DecidableEq

/-- A `PlayerStats` document, keyed by `(player, team)`. -/
structure PlayerStats where
  player : ObjectId
  team : ObjectId
  totalMatches : Int := 0
  careerStats : CareerStats := {}
  matchesPlayed : List MatchPlayed := []
  deriving DecidableEq

/-- The collection of `PlayerStats` documents. -/
abbrev StatsStore := List PlayerStats

/-- The query `PlayerStats.findOne({ player, team })`. -/
def findStats (store : StatsStore) (player team : ObjectId) : Option PlayerStats :=
  store.find? (fun r => r.player = player && r.team = team)

/-- The call `playerStats.save()` of a document that was read by `findStats`:
the stored document with the same key is replaced. -/
def saveStats : StatsStore → PlayerStats → StatsStore
  | [], _ => []
  | x :: xs, r =>
    if x.player = r.player && x.team = r.team then r :: xs else x :: saveStats xs r

/-- Replace the first entry of `matchesPlayed` that `find` returns for the
match by `f` of it. -/
def updateMatchRecord (matchId : ObjectId) (f : MatchPlayed → MatchPlayed) :
    List MatchPlayed → List MatchPlayed
  | [] => []
  | x :: xs => if x.matchId = matchId then f x :: xs else x :: updateMatchRecord matchId f xs

/-! ## The statistics projection of `addBall` -/

/-- The `battingInnings` entry written for a first ball (lines 1184-1189,
1227-1232, 1238-1243). -/
def firstBattingEntry (runs : Int) : BattingInningsEntry :=
  { runs := runs, balls := 1, fours := if runs = 4 then 1 else 0,
    sixes := if runs = 6 then 1 else 0 }

/-- Lines 1157-1191: the record created for a striker without one. -/
def newStrikerStats (matchId : ObjectId) (bt : CricketBallType) (striker team : ObjectId)
    (runs : Int) : PlayerStats :=
  { player := striker
    team := team
    totalMatches := 1
    careerStats := ({} : CareerStats).set bt
      { batting := some
          { matchCount := 1, innings := 1, runs := runs, balls := 1
            fours := if runs = 4 then 1 else 0
            sixes := if runs = 6 then 1 else 0
            highestScore := runs }
        bowling := some { matchCount := 0, innings := 0, wickets := 0, overs := 0, runs := 0 } }
    matchesPlayed :=
      [{ matchId := matchId, ballType := bt, battingInnings := [firstBattingEntry runs] }] }

/-- Lines 1216-1245: the per-match batting breakdown after a ball. -/
def addBattingRecord (matchId : ObjectId) (bt : CricketBallType) (runs : Int)
    (played : List MatchPlayed) : List MatchPlayed :=
  match played.find? (fun r => r.matchId = matchId) with
  | some _ =>
    updateMatchRecord matchId
      (fun r =>
        match r.battingInnings with
        | e :: es =>
          { r with battingInnings :=
              { e with
                runs := e.runs + runs
                balls := e.balls + 1
                fours := if runs = 4 then e.fours + 1 else e.fours
                sixes := if runs = 6 then e.sixes + 1 else e.sixes } :: es }
        | [] => { r with battingInnings := [firstBattingEntry runs] })
      played
  | none =>
    played ++ [{ matchId := matchId, ballType := bt, battingInnings := [firstBattingEntry runs] }]

/-- Lines 1194-1247: the update of an existing striker record.  `runs` is
the `runs` field of the request.  Reading a batting sub-record that is
`undefined` throws, and a strike rate that is `NaN` makes the save throw. -/
def strikerAddExisting (matchId : ObjectId) (bt : CricketBallType) (runs : Int)
    (ps : PlayerStats) : Except Response PlayerStats :=
  match (ps.careerStats.get bt).batting with
  | none => .error internalError
  | some b =>
    let totalRuns := b.runs + runs
    let totalBalls := b.balls + 1
    match jsDiv totalRuns totalBalls with
    | none => .error internalError
    | some q =>
      let b1 : BattingStats :=
        { b with
          runs := totalRuns
          balls := totalBalls
          fours := if runs = 4 then b.fours + 1 else b.fours
          sixes := if runs = 6 then b.sixes + 1 else b.sixes
          highestScore := if runs > b.highestScore then runs else b.highestScore
          strikeRate := q.times100 }
      .ok { ps with
            careerStats := ps.careerStats.set bt { ps.careerStats.get bt with batting := some b1 }
            matchesPlayed := addBattingRecord matchId bt runs ps.matchesPlayed }

/-- Lines 1150-1249: the striker part of `addBall`.  `team` is the innings'
`battingTeam`; without it no record is found and the created one lacks its
required `team`, so the save throws. -/
def strikerStatsOnAdd (matchId : ObjectId) (bt : CricketBallType) (team : Option ObjectId)
    (striker : ObjectId) (runs : Int) (store : StatsStore) : Except Response StatsStore :=
  match team with
  | none => .error internalError
  | some tm =>
    match findStats store striker tm with
    | none => .ok (store ++ [newStrikerStats matchId bt striker tm runs])
    | some ps =>
      match strikerAddExisting matchId bt runs ps with
      | .ok ps1 => .ok (saveStats store ps1)
      | .error r => .error r

/-- The `bowlingInnings` entry written for a first ball (lines 1284-1288,
1352-1356, 1362-1366).  The test `ballType === 'regular'` is on the request
field. -/
def firstBowlingEntry (ballType : Option BallType) (totalRuns : Int) (isWicket : Bool) :
    BowlingInningsEntry :=
  { overs := if ballType = some .regular then 1 / 10 else 0
    runs := totalRuns
    wickets := if isWicket then 1 else 0 }

/-- Lines 1258-1290: the record created for a bowler without one. -/
def newBowlerStats (matchId : ObjectId) (bt : CricketBallType) (bowler team : ObjectId)
    (ballType : Option BallType) (totalRuns : Int) (isWicket : Bool) : PlayerStats :=
  { player := bowler
    team := team
    totalMatches := 1
    careerStats := ({} : CareerStats).set bt
      { batting := some { matchCount := 0, innings := 0, runs := 0, balls := 0 }
        bowling := some
          { matchCount := 1, innings := 1
            wickets := if isWicket then 1 else 0
            overs := if ballType = some .regular then 1 / 10 else 0
            runs := totalRuns
            economy := .finite ((totalRuns : ℚ) / (1 / 10))
            bestBowling :=
              if isWicket then { wickets := 1, runs := totalRuns } else { wickets := 0, runs := 0 } } }
    matchesPlayed :=
      [{ matchId := matchId, ballType := bt
         bowlingInnings := [firstBowlingEntry ballType totalRuns isWicket] }] }

/-- Lines 1340-1368: the per-match bowling breakdown after a ball. -/
def addBowlingRecord (matchId : ObjectId) (bt : CricketBallType) (ballType : Option BallType)
    (totalRuns : Int) (isWicket : Bool) (played : List MatchPlayed) : List MatchPlayed :=
  match played.find? (fun r => r.matchId = matchId) with
  | some _ =>
    updateMatchRecord matchId
      (fun r =>
        match r.bowlingInnings with
        | e :: es =>
          { r with bowlingInnings :=
              { e with
                overs := if ballType = some .regular then e.overs + 1 / 10 else e.overs
                runs := e.runs + totalRuns
                wickets := if isWicket then e.wickets + 1 else e.wickets } :: es }
        | [] => { r with bowlingInnings := [firstBowlingEntry ballType totalRuns isWicket] })
      played
  | none =>
    played ++ [{ matchId := matchId, ballType := bt
                 bowlingInnings := [firstBowlingEntry ballType totalRuns isWicket] }]

/-- Lines 1300-1325: wickets, best bowling and haul counts after a wicket
ball. -/
def bowlingAfterWicket (b : BowlingStats) (totalRuns : Int) : BowlingStats :=
  let currentWickets := b.wickets + 1
  let currentBest := b.bestBowling
  { b with
    wickets := currentWickets
    bestBowling :=
      if currentWickets > currentBest.wickets ∨
          (currentWickets = currentBest.wickets ∧ totalRuns < currentBest.runs) then
        { wickets := currentWickets, runs := totalRuns }
      else currentBest
    tenWickets := if currentWickets ≥ 10 then currentWickets / 10 else b.tenWickets
    fiveWickets := if currentWickets ≥ 5 then currentWickets / 5 else b.fiveWickets }

/-- Lines 1293-1370: the update of an existing bowler record.  `totalRuns` is
the run total of the delivery. -/
def bowlerAddExisting (matchId : ObjectId) (bt : CricketBallType) (ballType : Option BallType)
    (totalRuns : Int) (isWicket : Bool) (ps : PlayerStats) : Except Response PlayerStats :=
  match (ps.careerStats.get bt).bowling with
  | none => .error internalError
  | some b =>
    let b1 : BowlingStats :=
      { b with
        overs := if ballType = some .regular then b.overs + 1 / 10 else b.overs
        runs := b.runs + totalRuns }
    let b2 := if isWicket then bowlingAfterWicket b1 totalRuns else b1
    match jsDiv b2.runs b2.overs with
    | none => .error internalError
    | some economy =>
      let b3 : BowlingStats :=
        { b2 with
          economy := economy
          average := if b2.wickets > 0 then .finite ((b2.runs : ℚ) / b2.wickets) else b2.average }
      .ok { ps with
            careerStats := ps.careerStats.set bt { ps.careerStats.get bt with bowling := some b3 }
            matchesPlayed :=
              addBowlingRecord matchId bt ballType totalRuns isWicket ps.matchesPlayed }

/-- Lines 1251-1372: the bowler part of `addBall`; `team` is the innings'
`bowlingTeam`. -/
def bowlerStatsOnAdd (matchId : ObjectId) (bt : CricketBallType) (team : Option ObjectId)
    (bowler : ObjectId) (ballType : Option BallType) (totalRuns : Int) (isWicket : Bool)
    (store : StatsStore) : Except Response StatsStore :=
  match team with
  | none => .error internalError
  | some tm =>
    match findStats store bowler tm with
    | none => .ok (store ++ [newBowlerStats matchId bt bowler tm ballType totalRuns isWicket])
    | some ps =>
      match bowlerAddExisting matchId bt ballType totalRuns isWicket ps with
      | .ok ps1 => .ok (saveStats store ps1)
      | .error r => .error r

/-- The handler `addBall` (lines 987-1407): `found` is the result of
`Match.findById`, `store` the `PlayerStats` collection.  It answers the
failure, or the match document and the collection that are committed.  The
fielder block (lines 1374-1405) writes `careerStats[...].fielding`, which is
not a path of the schema, and stores nothing. -/
def addBall (env : Env) (found : Option Match) (store : StatsStore) (req : BallRequest) :
    Except Response (Match × StatsStore) :=
  match checkBallRequest req with
  | .error r => .error r
  | .ok c =>
    match found with
    | none => .error matchNotFound
    | some m =>
      match m.innings c.key, castBallEnums req, env.tournament with
      | some inn, .ok (ballType, wicketType), some t =>
        let ball := makeBall env req c ballType wicketType
        let inn1 := addBallInnings env.tournament inn ball req.isWicket
        let afterStriker :=
          if ballType ≠ some .wide then
            strikerStatsOnAdd m.id t.ballType inn1.battingTeam c.striker c.runs store
          else .ok store
        match afterStriker with
        | .error r => .error r
        | .ok store1 =>
          match bowlerStatsOnAdd m.id t.ballType inn1.bowlingTeam c.bowler ballType ball.runs
              req.isWicket store1 with
          | .error r => .error r
          | .ok store2 => .ok (m.setInnings c.key inn1, store2)
      | _, _, _ => .error internalError

/-! ## The statistics projection of `undoBall` -/

/-- Lines 2222-2231: the per-match batting breakdown after an undo. -/
def undoBattingRecord (matchId : ObjectId) (lastBall : Ball) (played : List MatchPlayed) :
    List MatchPlayed :=
  updateMatchRecord matchId
    (fun r =>
      match r.battingInnings with
      | e :: es =>
        { r with battingInnings :=
            { e with
              runs := e.runs - lastBall.runs
              balls := e.balls - 1
              fours := if lastBall.runs = 4 then e.fours - 1 else e.fours
              sixes := if lastBall.runs = 6 then e.sixes - 1 else e.sixes } :: es }
      | [] => r)
    played

/-- Lines 2204-2233: the update of the striker record on undo. -/
def strikerUndoExisting (matchId : ObjectId) (bt : CricketBallType) (lastBall : Ball)
    (ps : PlayerStats) : Except Response PlayerStats :=
  match (ps.careerStats.get bt).batting with
  | none => .error internalError
  | some b =>
    let totalRuns := b.runs - lastBall.runs
    let totalBalls := b.balls - 1
    let b1 : BattingStats :=
      { b with
        runs := totalRuns
        balls := totalBalls
        fours := if lastBall.runs = 4 then b.fours - 1 else b.fours
        sixes := if lastBall.runs = 6 then b.sixes - 1 else b.sixes
        strikeRate :=
          if totalBalls > 0 then .finite ((totalRuns : ℚ) / totalBalls * 100) else .finite 0 }
    .ok { ps with
          careerStats := ps.careerStats.set bt { ps.careerStats.get bt with batting := some b1 }
          matchesPlayed := undoBattingRecord matchId lastBall ps.matchesPlayed }

/-- Lines 2197-2235: the striker part of `undoBall`. -/
def strikerStatsOnUndo (matchId : ObjectId) (bt : CricketBallType) (team : Option ObjectId)
    (lastBall : Ball) (store : StatsStore) : Except Response StatsStore :=
  match team.bind (findStats store lastBall.striker) with
  | none => .ok store
  | some ps =>
    match strikerUndoExisting matchId bt lastBall ps with
    | .ok ps1 => .ok (saveStats store ps1)
    | .error r => .error r

/-- Lines 2286-2296: the per-match bowling breakdown after an undo. -/
def undoBowlingRecord (matchId : ObjectId) (lastBall : Ball) (played : List MatchPlayed) :
    List MatchPlayed :=
  updateMatchRecord matchId
    (fun r =>
      match r.bowlingInnings with
      | e :: es =>
        { r with bowlingInnings :=
            { e with
              overs := if lastBall.ballType = .regular then e.overs - 1 / 10 else e.overs
              runs := e.runs - lastBall.runs
              wickets := if lastBall.isWicket then e.wickets - 1 else e.wickets } :: es }
      | [] => r)
    played

/-- Lines 2252-2269: wickets and haul counts after the undo of a wicket
ball. -/
def bowlingAfterWicketUndo (b : BowlingStats) : BowlingStats :=
  let currentWickets := b.wickets - 1
  { b with
    wickets := currentWickets
    tenWickets := if currentWickets < 10 then 0 else currentWickets / 10
    fiveWickets := if currentWickets < 5 then 0 else currentWickets / 5 }

/-- Lines 2244-2298: the update of the bowler record on undo. -/
def bowlerUndoExisting (matchId : ObjectId) (bt : CricketBallType) (lastBall : Ball)
    (ps : PlayerStats) : Except Response PlayerStats :=
  match (ps.careerStats.get bt).bowling with
  | none => .error internalError
  | some b =>
    let b1 : BowlingStats :=
      { b with
        overs := if lastBall.ballType = .regular then b.overs - 1 / 10 else b.overs
        runs := b.runs - lastBall.runs }
    let b2 := if lastBall.isWicket then bowlingAfterWicketUndo b1 else b1
    let b3 : BowlingStats :=
      { b2 with
        economy := if b2.overs > 0 then .finite ((b2.runs : ℚ) / b2.overs) else .finite 0
        average := if b2.wickets > 0 then .finite ((b2.runs : ℚ) / b2.wickets) else .finite 0 }
    .ok { ps with
          careerStats := ps.careerStats.set bt { ps.careerStats.get bt with bowling := some b3 }
          matchesPlayed := undoBowlingRecord matchId lastBall ps.matchesPlayed }

/-- Lines 2237-2300: the bowler part of `undoBall`. -/
def bowlerStatsOnUndo (matchId : ObjectId) (bt : CricketBallType) (team : Option ObjectId)
    (lastBall : Ball) (store : StatsStore) : Except Response StatsStore :=
  match team.bind (findStats store lastBall.bowler) with
  | none => .ok store
  | some ps =>
    match bowlerUndoExisting matchId bt lastBall ps with
    | .ok ps1 => .ok (saveStats store ps1)
    | .error r => .error r

/-- The handler `undoBall` (lines 2122-2302): `innings` is the only field of
the request body. -/
def undoBall (env : Env) (found : Option Match) (store : StatsStore) (innings : Option String) :
    Except Response (Match × StatsStore) :=
  match innings.bind parseInningsKey with
  | none => .error (badRequest "Valid innings (firstInnings or secondInnings) is required")
  | some key =>
    match found with
    | none => .error matchNotFound
    | some m =>
      match m.innings key with
      | none => .error internalError
      | some inn =>
        match inn.balls.getLast? with
        | none => .error (badRequest "No balls to undo")
        | some lastBall =>
          let inn1 := undoBallInnings env.tournament inn lastBall
          match env.tournament with
          | none => .error internalError
          | some t =>
            let afterStriker :=
              if lastBall.ballType ≠ .wide then
                strikerStatsOnUndo m.id t.ballType inn1.battingTeam lastBall store
              else .ok store
            match afterStriker with
            | .error r => .error r
            | .ok store1 =>
              match bowlerStatsOnUndo m.id t.ballType inn1.bowlingTeam lastBall store1 with
              | .error r => .error r
              | .ok store2 => .ok (m.setInnings key inn1, store2)

/-! ## Sample data -/

/-- A twenty-over white-ball tournament. -/
def sampleTournament : Tournament := { ballType := .white, oversPerInnings := 20 }

/-- A request environment in which the tournament of the match resolves. -/
def sampleEnv : Env :=
  { tournament := some sampleTournament, now := 1000, numToString := fun q => toString q.num,
    freshId := 77 }

/-- A ledger entry with the given identifier, position, runs and wicket flag,
bowled as a regular delivery by player 200 to player 100. -/
def sampleBall (id : ObjectId) (ballNumber runs : Int) (isWicket : Bool) : Ball :=
  { id := id, overNumber := 0, ballNumber := ballNumber, runs := runs, isWicket := isWicket
    wicketType := if isWicket then some .bowled else none
    playerOut := if isWicket then some 100 else none
    commentary := "ball", timestamp := 900, striker := 100, bowler := 200
    ballType := .regular, isBoundary := runs = 4 || runs = 6, isExtra := false, isOver := false
    catchMissed := false, fielder := none, runSaved := 0, runMissed := 0, bonusRuns := 0
    isNegativeRuns := false, fieldingHighlight := none }

/-- A first innings of two balls (4 and 1) that was declared on 5 runs. -/
def declaredInnings : Innings :=
  { battingTeam := some 10, bowlingTeam := some 11, totalRuns := 5, wickets := 0, overs := 2 / 10
    balls := [sampleBall 1 1 4 false, sampleBall 2 2 1 false]
    isComplete := true
    declarationInfo :=
      { isDeclared := true, reason := some "Tactical declaration", time := some 950
        commentary := some "First innings declared" } }

/-- A second innings of four balls: three wickets, then a six. -/
def chaseInnings : Innings :=
  { battingTeam := some 11, bowlingTeam := some 10, totalRuns := 6, wickets := 3, overs := 4 / 10
    balls := [sampleBall 3 1 0 true, sampleBall 4 2 0 true, sampleBall 5 3 0 true,
      sampleBall 6 4 6 false] }

/-- A live match between teams 10 and 11 in which the side batting second has
passed the target of 6 with three wickets lost. -/
def chaseMatch : Match :=
  { id := 1, tournament := 2, matchNumber := 1, teamA := some 10, teamB := some 11, venue := 3
    matchDate := 900, matchStartTime := "10:00", matchEndTime := "18:00", status := .live
    tossWinner := some 10, tossDecision := some "batting"
    firstInnings := some declaredInnings, secondInnings := some chaseInnings }

/-- A scheduled match after the toss, no ball bowled. -/
def freshMatch : Match :=
  { id := 1, tournament := 2, matchNumber := 1, teamA := some 10, teamB := some 11, venue := 3
    matchDate := 900, matchStartTime := "10:00", matchEndTime := "18:00", status := .scheduled
    tossWinner := some 10, tossDecision := some "batting"
    firstInnings := some { battingTeam := some 10, bowlingTeam := some 11 }
    secondInnings := some { battingTeam := some 11, bowlingTeam := some 10 } }

/-- The chase match once it has been completed. -/
def completedMatch : Match := { chaseMatch with status := .completed }

/-- The fresh match once it has been abandoned through `endMatch`. -/
def abandonedMatch : Match :=
  { freshMatch with
    status := .abandoned
    abandonInfo :=
      { reason := some "rain", time := some 990, commentary := some "Match abandoned due to rain" } }

/-- A second innings of two singles, closed by declaration three runs short
of the target. -/
def shortInnings : Innings :=
  { battingTeam := some 11, bowlingTeam := some 10, totalRuns := 2, wickets := 0, overs := 2 / 10
    balls := [sampleBall 3 1 1 false, sampleBall 4 2 1 false]
    isComplete := true
    declarationInfo :=
      { isDeclared := true, reason := some "Tactical declaration", time := some 980
        commentary := some "Second innings declared" } }

/-- A live match in which the side batting second stopped on 2, chasing 6. -/
def defendedMatch : Match := { chaseMatch with secondInnings := some shortInnings }

/-- The live fresh match. -/
def liveMatch : Match := { freshMatch with status := .live }

/-- A request for a single off the first ball of the first innings. -/
def singleRequest : BallRequest :=
  { innings := some "firstInnings", overNumber := some 0, ballNumber := some 1, runs := some 1
    commentary := some "single", striker := some 100, bowler := some 200 }

/-- The ledger entry that `singleRequest` appends under `sampleEnv`. -/
def singleBall : Ball :=
  { id := 77, overNumber := 0, ballNumber := 1, runs := 1, isWicket := false, wicketType := none
    playerOut := none, commentary := "single", timestamp := 1000, striker := 100, bowler := 200
    ballType := .regular, isBoundary := false, isExtra := false, isOver := false
    catchMissed := false, fielder := none, runSaved := 0, runMissed := 0, bonusRuns := 0
    isNegativeRuns := false, fieldingHighlight := none }

/-- The fresh match after `singleRequest`. -/
def matchAfterSingle : Match :=
  { freshMatch with
    firstInnings := some
      { battingTeam := some 10, bowlingTeam := some 11, totalRuns := 1, wickets := 0
        overs := 1 / 10, balls := [singleBall] } }

/-- The statistics collection after `singleRequest` on an empty collection:
one record for the striker and one for the bowler. -/
def statsAfterSingle : StatsStore :=
  [ { player := 100, team := 10, totalMatches := 1
      careerStats :=
        { white :=
            { batting := some
                { matchCount := 1, innings := 1, runs := 1, balls := 1, highestScore := 1 }
              bowling := some {} } }
      matchesPlayed :=
        [{ matchId := 1, ballType := .white
           battingInnings := [{ runs := 1, balls := 1, fours := 0, sixes := 0 }] }] },
    { player := 200, team := 11, totalMatches := 1
      careerStats :=
        { white :=
            { batting := some {}
              bowling := some { matchCount := 1, innings := 1, runs := 1, economy := .finite 10 } } }
      matchesPlayed :=
        [{ matchId := 1, ballType := .white
           bowlingInnings := [{ overs := 0, runs := 1, wickets := 0 }] }] } ]

/-! ## Sequences of requests -/

/-- A scorer's sequence of `addBall` requests on one match, each with the
environment it is served in, applied in order to the stored match and
statistics; the sequence stops at the first request that fails. -/
def addBalls : List (Env × BallRequest) → Match × StatsStore → Except Response (Match × StatsStore)
  | [], state => .ok state
  | (env, req) :: rest, state =>
    (addBall env (some state.1) state.2 req).bind (addBalls rest)

/-- The number `n` of `undoBall` requests for `innings`, applied in order. -/
def undoBalls (env : Env) (innings : Option String) :
    Nat → Match × StatsStore → Except Response (Match × StatsStore)
  | 0, state => .ok state
  | n + 1, state =>
    (undoBall env (some state.1) state.2 innings).bind (undoBalls env innings n)

/-- A request for a single off the third ball of the first innings. -/
def thirdBallRequest : BallRequest := { singleRequest with ballNumber := some 3 }

/-! ## Predicates on the statistics collection -/

/-- The record carries a batting sub-record for the ball type. -/
def hasBatting (bt : CricketBallType) (ps : PlayerStats) : Prop :=
  (ps.careerStats.get bt).batting.isSome = true

/-- The record carries a bowling sub-record for the ball type. -/
def hasBowling (bt : CricketBallType) (ps : PlayerStats) : Prop :=
  (ps.careerStats.get bt).bowling.isSome = true

/-- Every key whose record (if any) satisfies `Q` in `store` still has that
property in `store1`. -/
def StoreKeeps (Q : PlayerStats → Prop) (store store1 : StatsStore) : Prop :=
  ∀ p tm, (∀ ps, findStats store p tm = some ps → Q ps) →
    ∀ ps1, findStats store1 p tm = some ps1 → Q ps1

/-- The records that `undoBall` would read for the ball `b` of an innings
with the given teams carry the sub-records it updates. -/
def BallReady (bt : CricketBallType) (battingTeam bowlingTeam : Option ObjectId) (b : Ball)
    (store : StatsStore) : Prop :=
  (b.ballType ≠ .wide → ∀ tm ps, battingTeam = some tm →
      findStats store b.striker tm = some ps → hasBatting bt ps) ∧
  (∀ tm ps, bowlingTeam = some tm → findStats store b.bowler tm = some ps → hasBowling bt ps)

/-- The single of `singleRequest`, sent with `ballType: 'regular'`. -/
def regularSingleRequest : BallRequest := { singleRequest with ballType := some "regular" }

/-- The fresh match after `regularSingleRequest`. -/
def matchAfterRegularSingle : Match := matchAfterSingle

/-- The statistics collection after `regularSingleRequest` on an empty
collection. -/
def statsAfterRegularSingle : StatsStore :=
  [ { player := 100, team := 10, totalMatches := 1
      careerStats :=
        { white :=
            { batting := some
                { matchCount := 1, innings := 1, runs := 1, balls := 1, highestScore := 1 }
              bowling := some {} } }
      matchesPlayed :=
        [{ matchId := 1, ballType := .white
           battingInnings := [{ runs := 1, balls := 1, fours := 0, sixes := 0 }] }] },
    { player := 200, team := 11, totalMatches := 1
      careerStats :=
        { white :=
            { batting := some {}
              bowling := some
                { matchCount := 1, innings := 1, overs := 1 / 10, runs := 1
                  economy := .finite 10 } } }
      matchesPlayed :=
        [{ matchId := 1, ballType := .white
           bowlingInnings := [{ overs := 1 / 10, runs := 1, wickets := 0 }] }] } ]

/-- A no-ball off which the striker runs a single: `runs: 1`, `extraRuns: 1`. -/
def noBallRequest : BallRequest :=
  { innings := some "firstInnings", overNumber := some 0, ballNumber := some 2, runs := some 1
    commentary := some "no ball, one run", striker := some 100, bowler := some 200
    ballType := some "noball", extraRuns := some 1 }

/-- The statistics collection after `noBallRequest` has been added to
`statsAfterRegularSingle` and undone: the striker's runs are 0. -/
def statsAfterNoBallUndo : StatsStore :=
  [ { player := 100, team := 10, totalMatches := 1
      careerStats :=
        { white :=
            { batting := some
                { matchCount := 1, innings := 1, runs := 0, balls := 1, highestScore := 1 }
              bowling := some {} } }
      matchesPlayed :=
        [{ matchId := 1, ballType := .white
           battingInnings := [{ runs := 0, balls := 1, fours := 0, sixes := 0 }] }] },
    { player := 200, team := 11, totalMatches := 1
      careerStats :=
        { white :=
            { batting := some {}
              bowling := some
                { matchCount := 1, innings := 1, overs := 1 / 10, runs := 1
                  economy := .finite 10 } } }
      matchesPlayed :=
        [{ matchId := 1, ballType := .white
           bowlingInnings := [{ overs := 1 / 10, runs := 1, wickets := 0 }] }] } ]

/-! ## `updateToss` -/

/-- The body of an `updateToss` request. -/
structure TossRequest where
  tossWinner : Option ObjectId := none
  tossDecision : Option String := none
  deriving DecidableEq

/-- The innings object that `updateToss` creates when the match has none
(lines 691-709). -/
def newInnings : Innings :=
  { totalRuns := 0, wickets := 0, overs := 0, balls := [], isComplete := false }

/-- Lines 711-724: the team assignment.  `other` is the value of
`tossWinner === teamA ? match.teamB : match.teamA`. -/
def assignTeams (m : Match) (decision : String) (tossWinner : ObjectId)
    (other : Option ObjectId) : Match :=
  let fi := m.firstInnings.getD newInnings
  let si := m.secondInnings.getD newInnings
  if decision = "batting" then
    { m with
      firstInnings := some { fi with battingTeam := some tossWinner, bowlingTeam := other }
      secondInnings := some { si with battingTeam := other, bowlingTeam := some tossWinner } }
  else
    { m with
      firstInnings := some { fi with bowlingTeam := some tossWinner, battingTeam := other }
      secondInnings := some { si with bowlingTeam := other, battingTeam := some tossWinner } }

/-- The handler `updateToss` (lines 634-726) on the match document.  The
teams are populated; reading `_id` of a team that is `null` throws. -/
def updateToss (found : Option Match) (req : TossRequest) : Except Response Match :=
  match req.tossWinner, req.tossDecision with
  | some w, some d =>
    if d = "" then .error (badRequest "Toss winner and decision are required")
    else if d ≠ "batting" ∧ d ≠ "bowling" then
      .error (badRequest "Invalid toss decision. Must be either batting or bowling")
    else
      match found with
      | none => .error matchNotFound
      | some m =>
        match m.teamA with
        | none => .error internalError
        | some a =>
          if w = a then
            .ok (assignTeams { m with tossWinner := some w, tossDecision := some d } d w m.teamB)
          else
            match m.teamB with
            | none => .error internalError
            | some b =>
              if w ≠ b then
                .error (badRequest "Toss winner must be one of the teams playing the match")
              else
                .ok (assignTeams { m with tossWinner := some w, tossDecision := some d } d w
                  m.teamA)
  | _, _ => .error (badRequest "Toss winner and decision are required")

/-! ## `updateCurrentPlayers` -/

/-- The body of an `updateCurrentPlayers` request (the fields that reach the
match document). -/
structure PlayersRequest where
  innings : Option String := none
  currentStriker : Option ObjectId := none
  currentNonStriker : Option ObjectId := none
  currentBowler : Option ObjectId := none
  currentKeeper : Option ObjectId := none
  replacementReason : Option String := none
  reasonDescription : Option String := none
  replacementPlayer : Option ObjectId := none
  replacementRole : Option String := none
  deriving DecidableEq

/-- The membership test of line 824 on a replacement reason. -/
def validReplacementReason (s : String) : Bool :=
  s = "injury" || s = "tactical" || s = "illness" || s = "cheating" || s = "other"

/-- The membership test of line 833 on a replacement role. -/
def validReplacementRole (s : String) : Bool :=
  s = "striker" || s = "non-striker" || s = "bowler" || s = "keeper"

/-- Lines 857-903: the replacement entry of the request, if it asks for one.
The four current players are present, so `replacementFor` is never empty. -/
def replacementEntry (env : Env) (req : PlayersRequest) (striker nonStriker bowler keeper : ObjectId) :
    List PlayerReplacement :=
  match req.replacementPlayer, req.replacementReason, req.replacementRole with
  | some p, some reason, some role =>
    if reason = "" ∨ role = "" then []
    else
      [{ originalPlayer := p
         replacementPlayer :=
           if role = "striker" then striker
           else if role = "non-striker" then nonStriker
           else if role = "bowler" then bowler
           else keeper
         playerRole := role
         timestamp := env.now
         reason := reason
         description := some (strOr req.reasonDescription
           (role ++ " replacement due to " ++ reason)) }]
  | _, _, _ => []

/-- The handler `updateCurrentPlayers` (lines 786-921) on the match
document. -/
def updateCurrentPlayers (env : Env) (found : Option Match) (req : PlayersRequest) :
    Except Response Match :=
  match req.innings.bind parseInningsKey with
  | none => .error (badRequest "Valid innings (firstInnings or secondInnings) is required")
  | some key =>
    match req.currentStriker, req.currentNonStriker, req.currentBowler, req.currentKeeper with
    | some striker, some nonStriker, some bowler, some keeper =>
      if truthyStr req.replacementReason ∧
          !(validReplacementReason (req.replacementReason.getD "")) then
        .error (badRequest
          "Invalid replacement reason. Must be one of: injury, tactical, illness, cheating, other")
      else if truthyStr req.replacementRole ∧
          !(validReplacementRole (req.replacementRole.getD "")) then
        .error (badRequest
          "Invalid replacement role. Must be one of: striker, non-striker, bowler, keeper")
      else
        match found with
        | none => .error matchNotFound
        | some m =>
          match m.innings key with
          | none => .error internalError
          | some inn =>
            .ok (m.setInnings key
              { inn with
                currentStriker := some striker
                currentNonStriker := some nonStriker
                currentBowler := some bowler
                currentKeeper := some keeper
                playerReplacements := inn.playerReplacements ++
                  replacementEntry env req striker nonStriker bowler keeper })
    | _, _, _, _ => .error (badRequest "All current players are required")

/-! ## `updateBall` -/

/-- The parameters and body of an `updateBall` request. -/
structure UpdateBallRequest where
  ballId : ObjectId
  innings : Option String := none
  catchMissed : Bool := false
  fielder : Option ObjectId := none
  runSaved : Option Int := none
  runMissed : Option Int := none
  fieldingHighlight : Option String := none
  negativeRuns : Option Int := none
  reason : Option String := none
  bonusRuns : Option Int := none
  deriving DecidableEq

/-- The expression `x || old || null` on a number; `null` reads back as 0. -/
def numOr (x : Option Int) (old : Int) : Int :=
  match x with
  | some v => if v ≠ 0 then v else old
  | none => old

/-- Lines 2683-2691: the annotations of the ball with the given identifier
are overwritten by the truthy fields of the request. -/
def annotateBall (req : UpdateBallRequest) (element : Ball) : Ball :=
  if element.id = req.ballId then
    { element with
      catchMissed := req.catchMissed || element.catchMissed
      fielder := match req.fielder with
        | some f => some f
        | none => element.fielder
      runSaved := numOr req.runSaved element.runSaved
      runMissed := numOr req.runMissed element.runMissed
      fieldingHighlight :=
        if truthyStr req.fieldingHighlight then req.fieldingHighlight
        else if truthyStr element.fieldingHighlight then element.fieldingHighlight
        else none }
  else element

/-- Lines 2697-2706: the correction for `negativeRuns`, applied when it is
above 0. -/
def negativeRunLog (env : Env) (req : UpdateBallRequest) : List HistoryLog :=
  match req.negativeRuns with
  | some n =>
    if n > 0 then
      [{ reason := strOr req.reason ("Minus run " ++ toString n), isNegativeRun := true
         isBonusRun := false, timestamp := env.now, runs := n }]
    else []
  | none => []

/-- Lines 2709-2718: the correction for `bonusRuns`, applied when it is
above 0. -/
def bonusRunLog (env : Env) (req : UpdateBallRequest) : List HistoryLog :=
  match req.bonusRuns with
  | some n =>
    if n > 0 then
      [{ reason := strOr req.reason ("Add bonus run " ++ toString n), isNegativeRun := false
         isBonusRun := true, timestamp := env.now, runs := n }]
    else []
  | none => []

/-- The signed runs of a correction entry as it was applied to `totalRuns`:
a negative-run entry counts negative, a bonus entry positive. -/
def signedHistoryRuns (l : HistoryLog) : Int :=
  if l.isNegativeRun then -l.runs else l.runs

/-- Lines 2651-2723 on one innings. -/
def updateBallInnings (env : Env) (req : UpdateBallRequest) (inn : Innings) : Innings :=
  let afterNegative :=
    match req.negativeRuns with
    | some n => if n > 0 then inn.totalRuns - n else inn.totalRuns
    | none => inn.totalRuns
  let afterBonus :=
    match req.bonusRuns with
    | some n => if n > 0 then afterNegative + n else afterNegative
    | none => afterNegative
  { inn with
    balls := inn.balls.map (annotateBall req)
    totalRuns := afterBonus
    historyLogs := inn.historyLogs ++ (negativeRunLog env req ++ bonusRunLog env req) }

/-- The handler `updateBall` (lines 2651-2731) on the match document. -/
def updateBall (env : Env) (found : Option Match) (req : UpdateBallRequest) :
    Except Response Match :=
  match req.innings.bind parseInningsKey with
  | none => .error (badRequest "Valid innings (firstInnings or secondInnings) is required")
  | some key =>
    match found with
    | none => .error matchNotFound
    | some m =>
      match m.innings key with
      | none => .error internalError
      | some inn => .ok (m.setInnings key (updateBallInnings env req inn))

/-! ## Reachable match states -/

/-- The state stored after an `addBall` or `undoBall` request on the stored
state `old`: the committed state when the request succeeds, `old` itself when
it fails (the transaction is aborted). -/
def storedState (old : Match × StatsStore) (r : Except Response (Match × StatsStore)) :
    Match × StatsStore :=
  match r with
  | .ok s => s
  | .error _ => old

/-- An innings on which nothing has happened yet. -/
def Innings.isFresh (inn : Innings) : Prop :=
  inn.totalRuns = 0 ∧ inn.wickets = 0 ∧ inn.overs = 0 ∧ inn.balls = [] ∧
    inn.historyLogs = [] ∧ inn.isComplete = false

/-- A match on which nothing has happened yet: scheduled, without result,
its innings (if the toss created them) fresh. -/
def Match.isFresh (m : Match) : Prop :=
  m.status = .scheduled ∧ m.result = {} ∧ ∀ k inn, m.innings k = some inn → inn.isFresh

/-- One accepted mutating request takes the stored match `m` to `m1`.  The
statistics collection that `addBall` and `undoBall` read is arbitrary.  With
`guarded`, `addBall` is only issued on an innings that is not complete. -/
inductive Step (guarded : Bool) : Match → Match → Prop where
  | toss (m m1 : Match) (req : TossRequest) :
      updateToss (some m) req = .ok m1 → Step guarded m m1
  | add (m m1 : Match) (env : Env) (store store1 : StatsStore) (req : BallRequest) :
      addBall env (some m) store req = .ok (m1, store1) →
      (guarded = true → ∀ k inn, req.innings.bind parseInningsKey = some k →
        m.innings k = some inn → inn.isComplete = false) →
      Step guarded m m1
  | undo (m m1 : Match) (env : Env) (store store1 : StatsStore) (innings : Option String) :
      undoBall env (some m) store innings = .ok (m1, store1) → Step guarded m m1
  | status (m : Match) (env : Env) (req : StatusRequest) (s : StatusState) :
      updateMatchStatus env (some m) req = .ok s → Step guarded m s.doc
  | ball (m m1 : Match) (env : Env) (req : UpdateBallRequest) :
      updateBall env (some m) req = .ok m1 → Step guarded m m1
  | players (m m1 : Match) (env : Env) (req : PlayersRequest) :
      updateCurrentPlayers env (some m) req = .ok m1 → Step guarded m m1

/-- The match states reachable from `m0` by accepted requests. -/
inductive Reachable (guarded : Bool) (m0 : Match) : Match → Prop where
  | start : Reachable guarded m0 m0
  | step (m m1 : Match) : Reachable guarded m0 m → Step guarded m m1 → Reachable guarded m0 m1

/-- The innings `b` has the ledger, totals and corrections of `a`, and is
complete if `a` was. -/
def Innings.Kept (a b : Innings) : Prop :=
  b.balls = a.balls ∧ b.totalRuns = a.totalRuns ∧ b.wickets = a.wickets ∧ b.overs = a.overs ∧
    b.historyLogs = a.historyLogs ∧ (a.isComplete = true → b.isComplete = true)

/-- How one accepted request changes an innings that existed before it. -/
inductive InningsMove (guarded : Bool) : Innings → Innings → Prop where
  | kept (a b : Innings) : a.Kept b → InningsMove guarded a b
  | added (a : Innings) (t : Tournament) (ball : Ball) :
      (guarded = true → a.isComplete = false) →
      InningsMove guarded a (addBallInnings (some t) a ball ball.isWicket)
  | undone (a : Innings) (t : Tournament) (last : Ball) :
      a.balls.getLast? = some last → InningsMove guarded a (undoBallInnings (some t) a last)
  | corrected (a : Innings) (env : Env) (req : UpdateBallRequest) :
      InningsMove guarded a (updateBallInnings env req a)

/-- The number of wicket entries of a ledger. -/
def wicketBalls (balls : List Ball) : Int :=
  ((balls.filter (fun b => b.isWicket)).length : Int)

/-- The ledger invariants of an innings: ten wickets imply completion, the
wicket counter counts the wicket entries, and `totalRuns` is the sum of the
ledger runs plus the signed corrections. -/
def Innings.Consistent (inn : Innings) : Prop :=
  (inn.wickets ≥ 10 → inn.isComplete = true) ∧
    inn.wickets = wicketBalls inn.balls ∧
    inn.totalRuns = (inn.balls.map (fun b => b.runs)).sum +
      (inn.historyLogs.map signedHistoryRuns).sum

/-! ## Sample data for the toss, the ledger and the corrections -/

/-- The match document stored after a request that answers with a document
on the stored document `m`: the saved one when the request succeeds, `m`
itself when it fails. -/
def storedDoc (m : Match) (r : Except Response Match) : Match :=
  match r with
  | .ok m1 => m1
  | .error _ => m

/-- The scheduled match between teams 10 and 11 before the toss. -/
def untossedMatch : Match :=
  { id := 1, tournament := 2, matchNumber := 1, teamA := some 10, teamB := some 11, venue := 3
    matchDate := 900, matchStartTime := "10:00", matchEndTime := "18:00", status := .scheduled }

/-- Team 10 wins the toss and bats. -/
def tossRequest : TossRequest := { tossWinner := some 10, tossDecision := some "batting" }

/-- A correction of a delivery sent with `runs: -2` and `isNegativeRuns`. -/
def negativeRunsRequest : BallRequest :=
  { singleRequest with runs := some (-2), isNegativeRuns := true }

/-- A wicket off the given ball of the first over: player 100 bowled by
player 200. -/
def wicketRequest (ballNumber : Int) : BallRequest :=
  { innings := some "firstInnings", overNumber := some 0, ballNumber := some ballNumber
    runs := some 0, isWicket := true, wicketType := some "bowled", playerOut := some 100
    commentary := some "bowled", striker := some 100, bowler := some 200
    ballType := some "regular" }

/-- A boundary four off the second ball. -/
def fourRequest : BallRequest :=
  { regularSingleRequest with ballNumber := some 2, runs := some 4, isBoundary := true
                              commentary := some "four" }

/-- The stored state after the three deliveries single, four, wicket on the
fresh match and an empty statistics collection. -/
def threeBallState : Match × StatsStore :=
  storedState (freshMatch, [])
    (addBalls
      [(sampleEnv, regularSingleRequest), (sampleEnv, fourRequest), (sampleEnv, wicketRequest 3)]
      (freshMatch, []))

/-- Eleven wicket deliveries in a row on the first innings. -/
def elevenWickets : List (Env × BallRequest) :=
  [1, 2, 3, 4, 5, 6, 7, 8, 9, 10, 11].map (fun i => (sampleEnv, wicketRequest i))

/-- A request that declares the first innings and changes the match overs to
10 at once. -/
def declareAndReduceRequest : StatusRequest :=
  { endInnings := true, inningsToEnd := some "firstInnings", changeOvers := true
    newTotalOvers := some 10 }

/-- A request that only changes the match overs to 10. -/
def reduceRequest : StatusRequest := { changeOvers := true, newTotalOvers := some 10 }

/-- A correction that grants two bonus runs on the ball 77 of the first
innings. -/
def bonusRequest : UpdateBallRequest :=
  { ballId := 77, innings := some "firstInnings", bonusRuns := some 2, reason := some "overthrow" }

/-- The match `matchAfterSingle` after `bonusRequest`. -/
def matchAfterBonus : Match :=
  { freshMatch with
    firstInnings := some
      { battingTeam := some 10, bowlingTeam := some 11, totalRuns := 3, wickets := 0
        overs := 1 / 10, balls := [singleBall]
        historyLogs :=
          [{ timestamp := 1000, runs := 2, isBonusRun := true, isNegativeRun := false
             reason := "overthrow" }] } }

/-! ## Events published by the ball handlers -/

/-- The event types that `addBall` and `undoBall` hand to
`broadcastMatchEvent`. -/
inductive MatchEvent where
  | ballAdded | overComplete | inningsComplete | finalOver | ballUndone | inningsStatusChanged
  deriving DecidableEq, Repr

/-- Lines 1139-1145: the value of `match[innings].isFinalOver` when `addBall`
reads it back at line 1627.  `inn1` is the innings after lines 1116-1137, so
its `overs` is the `currentOvers` of line 1128, already assigned at line 1129.
The property is not a path of `inningsSchema`: a loaded document never
carries it. -/
def finalOverFlag (tournament : Option Tournament) (inn1 : Innings) : Bool :=
  match tournament with
  | some t =>
    finalOverCondition t.oversPerInnings (currentOvers (legalDeliveries inn1.balls)) inn1.overs
  | none => false

/-- The events broadcast by an `addBall` request after its commit (lines
1532-1644), in order; none when the request fails.  The lookups of the
players' details are taken to succeed. -/
def addBallEvents (env : Env) (found : Option Match) (store : StatsStore) (req : BallRequest) :
    List MatchEvent :=
  match addBall env found store req, checkBallRequest req with
  | .ok (m1, _), .ok c =>
    match m1.innings c.key with
    | some inn1 =>
      [MatchEvent.ballAdded]
        ++ (if req.ballType = some "regular" ∧ c.ballNumber = 6 then [MatchEvent.overComplete]
            else [])
        ++ (if inn1.isComplete then [MatchEvent.inningsComplete] else [])
        ++ (if finalOverFlag env.tournament inn1 then [MatchEvent.finalOver] else [])
    | none => []
  | _, _ => []

/-- The events broadcast by an `undoBall` request after its commit (lines
2394-2454), in order; none when the request fails.  The condition of line
2444 reads the popped ball and the wickets of the innings after the undo. -/
def undoBallEvents (env : Env) (found : Option Match) (store : StatsStore)
    (innings : Option String) : List MatchEvent :=
  match undoBall env found store innings, innings.bind parseInningsKey, found with
  | .ok (m1, _), some key, some m =>
    match m.innings key, m1.innings key with
    | some inn, some inn1 =>
      match inn.balls.getLast? with
      | some lastBall =>
        [MatchEvent.ballUndone]
          ++ (if lastBall.isWicket ∧ inn1.wickets = 9 then [MatchEvent.inningsStatusChanged]
              else [])
      | none => []
    | _, _ => []
  | _, _, _ => []

/-- A white-ball tournament of one over per innings (the least the
tournament schema allows). -/
def oneOverTournament : Tournament := { ballType := .white, oversPerInnings := 1 }

/-- The request environment of a match of `oneOverTournament`. -/
def oneOverEnv : Env := { sampleEnv with tournament := some oneOverTournament }

/-- Ten wicket deliveries in a row on the first innings of a one-over
match. -/
def tenWickets : List (Env × BallRequest) :=
  [1, 2, 3, 4, 5, 6, 7, 8, 9, 10].map (fun i => (oneOverEnv, wicketRequest i))

/-- The stored state after `tenWickets` on the fresh match and an empty
statistics collection. -/
def tenWicketState : Match × StatsStore :=
  storedState (freshMatch, []) (addBalls tenWickets (freshMatch, []))

/-- A white-ball tournament of two overs per innings. -/
def twoOverTournament : Tournament := { ballType := .white, oversPerInnings := 2 }

/-- The request environment of a match of `twoOverTournament`. -/
def twoOverEnv : Env := { sampleEnv with tournament := some twoOverTournament }

/-- The regular single off the given ball of the first over. -/
def regularSingle (ballNumber : Int) : BallRequest :=
  { regularSingleRequest with ballNumber := some ballNumber }

/-- The stored state after five regular singles in a two-over match. -/
def fiveSinglesState : Match × StatsStore :=
  storedState (freshMatch, [])
    (addBalls ([1, 2, 3, 4, 5].map (fun i => (twoOverEnv, regularSingle i))) (freshMatch, []))

/-! ## Derived views of a ledger -/

/-- An entry of the fall-of-wickets list (lines 1945-1953); the player is
kept by identifier. -/
structure FallOfWicket where
  playerOut : ObjectId
  wicketType : Option WicketType
  overNumber : Int
  ballNumber : Int
  score : Int
  wicketNumber : Nat
  timestamp : Date
  deriving DecidableEq, Repr

/-- The helper `calculateFallOfWickets` (lines 1930-1958).  An absent innings
and an empty ledger give the empty list.  The dismissed players of the ledger
are taken to resolve (a wicket ball whose `playerOut` is missing is skipped by
line 1938). -/
def calculateFallOfWickets (innings : Option Innings) : List FallOfWicket :=
  match innings with
  | none => []
  | some inn =>
    inn.balls.foldl
      (fun fallOfWickets ball =>
        match ball.isWicket, ball.playerOut with
        | true, some p =>
          fallOfWickets ++
            [{ playerOut := p
               wicketType := ball.wicketType
               overNumber := ball.overNumber
               ballNumber := ball.ballNumber
               score := inn.totalRuns
               wicketNumber := fallOfWickets.length + 1
               timestamp := ball.timestamp }]
        | _, _ => fallOfWickets)
      []

/-- The `outAt` block of a batting line. -/
structure OutAt where
  overNumber : Int
  ballNumber : Int
  score : Int
  timestamp : Date
  deriving DecidableEq, Repr

/-- A line of the batting scorecard (lines 1844-1855); the player is kept by
identifier.  `strikeRate` is the value of `(runs / balls) * 100` (0 without
balls); its formatting to two decimals is left out. -/
structure BattingLine where
  playerId : ObjectId
  runs : Int
  balls : Int
  fours : Int
  sixes : Int
  isOut : Bool
  wicketType : Option WicketType
  outAt : Option OutAt
  strikeRate : ℚ
  deriving DecidableEq, Repr

/-- The line with which a player enters the scorecard. -/
def newBattingLine (p : ObjectId) : BattingLine :=
  { playerId := p, runs := 0, balls := 0, fours := 0, sixes := 0, isOut := false
    wicketType := none, outAt := none, strikeRate := 0 }

/-- The write `playerStats[p] = f playerStats[p]` on the scorecard, an object
keyed by player whose entries are kept in insertion order. -/
def updateLine (p : ObjectId) (f : BattingLine → BattingLine) (stats : List BattingLine) :
    List BattingLine :=
  stats.map (fun e => if e.playerId = p then f e else e)

/-- Lines 1858-1871: the line of the striker takes the ball. -/
def strikeLine (ball : Ball) (e : BattingLine) : BattingLine :=
  { e with
    balls := if ball.ballType ≠ .wide then e.balls + 1 else e.balls
    runs := e.runs + ball.runs
    fours := if ball.runs = 4 then e.fours + 1 else e.fours
    sixes := if ball.runs = 6 then e.sixes + 1 else e.sixes }

/-- Lines 1842-1871 of the loop of `calculateBattingStats`: the line of the
striker is created when the player has none, and takes the ball. -/
def battingStrike (stats : List BattingLine) (ball : Ball) : List BattingLine :=
  let stats1 :=
    if stats.any (fun e => e.playerId = ball.striker) then stats
    else stats ++ [newBattingLine ball.striker]
  updateLine ball.striker (strikeLine ball) stats1

/-- Lines 1887-1894 and 1904-1911: the dismissal written on a line;
`totalRuns` is `innings.totalRuns`. -/
def dismissLine (totalRuns : Int) (ball : Ball) (e : BattingLine) : BattingLine :=
  { e with
    isOut := true
    wicketType := ball.wicketType
    outAt := some
      { overNumber := ball.overNumber, ballNumber := ball.ballNumber, score := totalRuns
        timestamp := ball.timestamp } }

/-- The body of the loop of `calculateBattingStats` after the test of line
1829 (lines 1831-1915), for one ball whose striker is present; `ball.playerOut`
is the populated reference. -/
def battingStep (totalRuns : Int) (stats : List BattingLine) (ball : Ball) : List BattingLine :=
  let stats2 := battingStrike stats ball
  match ball.isWicket, ball.playerOut with
  | true, some out =>
    if stats2.any (fun e => e.playerId = out) then
      updateLine out (dismissLine totalRuns ball) stats2
    else if out ≠ ball.striker then
      stats2 ++ [dismissLine totalRuns ball (newBattingLine out)]
    else stats2
  | _, _ => stats2

/-- A ledger entry as `getMatchHighlights` hands it to its helpers (lines
1712-1737 populate `balls.striker`, `balls.bowler` and `balls.playerOut`):
a `playerOut` whose user does not resolve reads `null`.  `users` tells which
identifiers resolve to a user. -/
def populateBall (users : ObjectId → Bool) (ball : Ball) : Ball :=
  { ball with playerOut := ball.playerOut.bind (fun p => if users p then some p else none) }

/-- The helper `calculateBattingStats` (lines 1819-1925) on the ledger that
`getMatchHighlights` has populated; `users` tells which identifiers resolve
to a user.  A ball whose populated striker is `null` is skipped (line 1829,
`if (!ball.striker) continue;`). -/
def calculateBattingStats (users : ObjectId → Bool) (innings : Option Innings) :
    List BattingLine :=
  match innings with
  | none => []
  | some inn =>
    (inn.balls.foldl
      (fun stats ball =>
        if users ball.striker then battingStep inn.totalRuns stats (populateBall users ball)
        else stats)
      []).map
      (fun e =>
        { e with strikeRate := if e.balls > 0 then (e.runs : ℚ) / (e.balls : ℚ) * 100 else 0 })

/-- The balls of a ledger that the loop of `calculateBattingStats` does not
skip: those whose striker resolves. -/
def scoredBalls (users : ObjectId → Bool) (balls : List Ball) : List Ball :=
  balls.filter (fun b => users b.striker)

/-- The balls of a ledger that the player faced as striker. -/
def ballsFaced (balls : List Ball) (p : ObjectId) : List Ball :=
  balls.filter (fun b => b.striker = p)

/-- The player is named as `playerOut` on a wicket ball of the ledger. -/
def dismissedOn (balls : List Ball) (p : ObjectId) : Bool :=
  balls.any (fun b => b.isWicket && b.playerOut = some p)

/-- An entry of `dismissedPlayers` in `getBattingStatus` (lines 2575-2581). -/
structure Dismissal where
  id : ObjectId
  wicketType : Option WicketType
  overNumber : Int
  ballNumber : Int
  timestamp : Date
  deriving DecidableEq, Repr

/-- Lines 2569-2584: the dismissed players of a ledger, each once. -/
def dismissedPlayers (balls : List Ball) : List Dismissal :=
  balls.foldl
    (fun dismissed ball =>
      match ball.isWicket, ball.playerOut with
      | true, some p =>
        if dismissed.any (fun d => d.id = p) then dismissed
        else
          dismissed ++
            [{ id := p, wicketType := ball.wicketType, overNumber := ball.overNumber
               ballNumber := ball.ballNumber, timestamp := ball.timestamp }]
      | _, _ => dismissed)
    []

/-- The three values of `status` in `getBattingStatus`. -/
inductive BattingState where
  | out | batting | yetToBat
  deriving DecidableEq, Repr

/-- The `dismissalInfo` block of a roster entry. -/
structure DismissalInfo where
  wicketType : Option WicketType
  overNumber : Int
  ballNumber : Int
  deriving DecidableEq, Repr

/-- An entry of `teamPlayers` (lines 2605-2616); the profile fields of the
player are left out. -/
structure RosterEntry where
  id : ObjectId
  status : BattingState
  dismissalInfo : Option DismissalInfo
  deriving DecidableEq, Repr

/-- The `battingStatus` block answered by `getBattingStatus`. -/
structure BattingStatus where
  batting : List RosterEntry
  out : List RosterEntry
  yetToBat : List RosterEntry
  deriving DecidableEq, Repr

/-- Lines 2596-2617: the roster entry of a player. -/
def rosterEntry (dismissed : List Dismissal) (currentBatsmen : List ObjectId) (p : ObjectId) :
    RosterEntry :=
  let isOut := dismissed.any (fun d => d.id = p)
  let isBatting := currentBatsmen.contains p
  { id := p
    status := if isOut then .out else if isBatting then .batting else .yetToBat
    dismissalInfo :=
      if isOut then
        (dismissed.find? (fun d => d.id = p)).map
          (fun d => { wicketType := d.wicketType, overNumber := d.overNumber
                      ballNumber := d.ballNumber })
      else none }

/-- The handler `getBattingStatus` (lines 2524-2648).  `teams` resolves a team
to its `players` array, each entry with its populated `player` (`none` when
the team, respectively the player, does not resolve); the current striker and
non-striker are taken to resolve. -/
def getBattingStatus (teams : ObjectId → Option (List (Option ObjectId))) (found : Option Match)
    (innings : Option String) : Except Response BattingStatus :=
  match innings.bind parseInningsKey with
  | none => .error (badRequest "Valid innings (firstInnings or secondInnings) is required")
  | some key =>
    match found with
    | none => .error matchNotFound
    | some m =>
      match m.innings key with
      | none => .error internalError
      | some inn =>
        match inn.battingTeam.bind teams with
        | none => .error (badRequest "Batting team or players not found for this innings")
        | some players =>
          let dismissed := dismissedPlayers inn.balls
          let currentBatsmen := inn.currentStriker.toList ++ inn.currentNonStriker.toList
          let teamPlayers :=
            players.filterMap (fun player => player.map (rosterEntry dismissed currentBatsmen))
          .ok { batting := teamPlayers.filter (fun e => e.status = .batting)
                out := teamPlayers.filter (fun e => e.status = .out)
                yetToBat := teamPlayers.filter (fun e => e.status = .yetToBat) }

/-! ## The statistics pass of a completed match (`updateInningsStats`) -/

/-- The document that `findOneAndUpdate` with `upsert` and `new` returns for
a key: the stored record, or a new one with the schema defaults. -/
def findOrNew (store : StatsStore) (player team : ObjectId) : PlayerStats :=
  (findStats store player team).getD { player := player, team := team }

/-- The document is stored under its key: it replaces the stored record of
the key, or is inserted. -/
def upsertStats (store : StatsStore) (ps : PlayerStats) : StatsStore :=
  match findStats store ps.player ps.team with
  | some _ => saveStats store ps
  | none => store ++ [ps]

/-- Lines 514-556: the striker of one ledger ball.  A sub-record that the
`$inc` creates reads back with the schema defaults.  Without `team` the
record lacks its required `team` and the save throws; a strike rate that is
`NaN` makes the save throw. -/
def inningsStrikerStats (bt : CricketBallType) (team : Option ObjectId) (ball : Ball)
    (store : StatsStore) : Except Response StatsStore :=
  match team with
  | none => .error internalError
  | some tm =>
    let ps := findOrNew store ball.striker tm
    let b := ((ps.careerStats.get bt).batting).getD {}
    let totalRuns := b.runs + ball.runs
    let balls := b.balls + 1
    match jsDiv totalRuns balls with
    | none => .error internalError
    | some q =>
      let b1 : BattingStats :=
        { b with
          runs := totalRuns
          balls := balls
          fours := b.fours + (if ball.runs = 4 then 1 else 0)
          sixes := b.sixes + (if ball.runs = 6 then 1 else 0)
          highestScore := if ball.runs > b.highestScore then ball.runs else b.highestScore
          hundreds := if totalRuns ≥ 100 then totalRuns / 100 else b.hundreds
          fifties := if totalRuns ≥ 50 then totalRuns / 50 else b.fifties
          strikeRate := q.times100
          average := .finite ((totalRuns : ℚ) / (if b.innings ≠ 0 then (b.innings : ℚ) else 1)) }
      .ok (upsertStats store
        { ps with
          careerStats := ps.careerStats.set bt { ps.careerStats.get bt with batting := some b1 } })

/-- Lines 559-605: the bowler of one wicket ball of the ledger. -/
def inningsBowlerStats (bt : CricketBallType) (team : Option ObjectId) (ball : Ball)
    (store : StatsStore) : Except Response StatsStore :=
  match team with
  | none => .error internalError
  | some tm =>
    let ps := findOrNew store ball.bowler tm
    let b := ((ps.careerStats.get bt).bowling).getD {}
    let wickets := b.wickets + 1
    let runs := b.runs + ball.runs
    let overs := b.overs + 1 / 10
    match jsDiv runs overs, jsDiv runs wickets with
    | some economy, some average =>
      let b1 : BowlingStats :=
        { b with
          wickets := wickets
          runs := runs
          overs := overs
          tenWickets := if wickets ≥ 10 then wickets / 10 else b.tenWickets
          fiveWickets := if wickets ≥ 5 then wickets / 5 else b.fiveWickets
          bestBowling :=
            if wickets > b.bestBowling.wickets ∨
                (wickets = b.bestBowling.wickets ∧ ball.runs < b.bestBowling.runs) then
              { wickets := wickets, runs := ball.runs }
            else b.bestBowling
          economy := economy
          average := average }
      .ok (upsertStats store
        { ps with
          careerStats := ps.careerStats.set bt { ps.careerStats.get bt with bowling := some b1 } })
    | _, _ => .error internalError

/-- The `$inc` of lines 617-624 on one record. -/
def countMatch (bt : CricketBallType) (ps : PlayerStats) : PlayerStats :=
  let ts := ps.careerStats.get bt
  let b := ts.batting.getD {}
  let w := ts.bowling.getD {}
  { ps with
    totalMatches := ps.totalMatches + 1
    careerStats := ps.careerStats.set bt
      { batting := some { b with matchCount := b.matchCount + 1, innings := b.innings + 1 }
        bowling := some { w with matchCount := w.matchCount + 1, innings := w.innings + 1 } } }

/-- The call `findOneAndUpdate({ player }, { $inc })` of lines 615-627: the
first record of the player, whatever its team, is updated. -/
def countMatchFor (bt : CricketBallType) (player : ObjectId) : StatsStore → StatsStore
  | [] => []
  | x :: xs =>
    if x.player = player then countMatch bt x :: xs else x :: countMatchFor bt player xs

/-- The loop of lines 512-606 over the ledger. -/
def inningsBallStats (bt : CricketBallType) (inn : Innings) :
    List Ball → StatsStore → Except Response StatsStore
  | [], store => .ok store
  | ball :: rest, store =>
    match inningsStrikerStats bt inn.battingTeam ball store with
    | .error r => .error r
    | .ok store1 =>
      if ball.isWicket then
        match inningsBowlerStats bt inn.bowlingTeam ball store1 with
        | .error r => .error r
        | .ok store2 => inningsBallStats bt inn rest store2
      else inningsBallStats bt inn rest store1

/-- The helper `updateInningsStats` (lines 506-629).  The `Set` of line 609
holds the identifier objects of the ledger entries, which are distinct
objects, so that `allPlayers` lists the striker and the bowler of every
ball. -/
def updateInningsStats (bt : CricketBallType) (inn : Innings) (store : StatsStore) :
    Except Response StatsStore :=
  match inningsBallStats bt inn inn.balls store with
  | .error r => .error r
  | .ok store1 =>
    let allPlayers := inn.balls.map (fun b => b.striker) ++ inn.balls.map (fun b => b.bowler)
    .ok (allPlayers.foldl (fun s p => countMatchFor bt p s) store1)

/-- Lines 410-417: the statistics pass of the result block, on the document
`s.doc` that the request saves. -/
def completionStatsPass (env : Env) (req : StatusRequest) (s : StatusState) (store : StatsStore) :
    Except Response StatsStore :=
  if (req.status = some "completed" ∨ req.endMatch) ∧ s.doc.status = .completed then
    match s.doc.firstInnings, s.doc.secondInnings, env.tournament with
    | some fi, some si, some t =>
      (updateInningsStats t.ballType fi store).bind (updateInningsStats t.ballType si)
    | _, _, _ => .error internalError
  else .ok store

/-- The handler `updateMatchStatus` with the statistics collection: the saved
document, the performed actions and the collection that are committed.  The
pass runs inside the result block, before the check of lines 420-429; when
the block is entered the status action has been recorded, so that the check
passes. -/
def updateMatchStatusStats (env : Env) (found : Option Match) (store : StatsStore)
    (req : StatusRequest) : Except Response (StatusState × StatsStore) :=
  match updateMatchStatus env found req with
  | .error r => .error r
  | .ok s =>
    match completionStatsPass env req s store with
    | .error r => .error r
    | .ok store1 => .ok (s, store1)

/-- The read of the career batting sub-record of a player of a team. -/
def careerBatting (store : StatsStore) (player team : ObjectId) (bt : CricketBallType) :
    Option BattingStats :=
  (findStats store player team).bind (fun ps => (ps.careerStats.get bt).batting)

/-- The read of the career bowling sub-record of a player of a team. -/
def careerBowling (store : StatsStore) (player team : ObjectId) (bt : CricketBallType) :
    Option BowlingStats :=
  (findStats store player team).bind (fun ps => (ps.careerStats.get bt).bowling)

/-! ## Sample data for the statistics and the derived views -/

/-- The stored state after six regular singles of one bowler in a twenty-over
match. -/
def sixSinglesState : Match × StatsStore :=
  storedState (freshMatch, [])
    (addBalls ([1, 2, 3, 4, 5, 6].map (fun i => (sampleEnv, regularSingle i))) (freshMatch, []))

/-- A wide without a run off the bat: `ballType: 'wide'`, `extraRuns: 1`. -/
def wideRequest (ballNumber : Int) : BallRequest :=
  { innings := some "firstInnings", overNumber := some 0, ballNumber := some ballNumber
    runs := some 0, commentary := some "wide", striker := some 100, bowler := some 200
    ballType := some "wide", extraRuns := some 1 }

/-- The stored state after two wides of one bowler. -/
def twoWidesState : Match × StatsStore :=
  storedState (freshMatch, [])
    (addBalls [(sampleEnv, wideRequest 1), (sampleEnv, wideRequest 1)] (freshMatch, []))

/-- A run out on the second run: one run off the bat and a wicket. -/
def runOutRequest : BallRequest :=
  { innings := some "firstInnings", overNumber := some 0, ballNumber := some 1, runs := some 1
    isWicket := true, wicketType := some "run out", playerOut := some 100
    commentary := some "run out going for the second", striker := some 100, bowler := some 200
    ballType := some "regular" }

/-- A request that declares the first innings. -/
def declareRequest : StatusRequest := { endInnings := true, inningsToEnd := some "firstInnings" }

/-- A request that completes the match. -/
def completeRequest : StatusRequest := { status := some "completed" }

/-- The match after one regular single, with its first innings declared. -/
def declaredSingleMatch : Match :=
  storedAfter matchAfterRegularSingle
    (updateMatchStatus sampleEnv (some matchAfterRegularSingle) declareRequest)

/-- A request that changes the match overs to 1. -/
def oneOverRequest : StatusRequest := { changeOvers := true, newTotalOvers := some 1 }

/-- The match of `fiveSinglesState` (five singles in a two-over match) after
its overs have been changed to 1. -/
def reducedFiveMatch : Match :=
  storedAfter fiveSinglesState.1
    (updateMatchStatus twoOverEnv (some fiveSinglesState.1) oneOverRequest)

/-- The stored state after seven regular singles in a two-over match. -/
def sevenSinglesState : Match × StatsStore :=
  storedState (freshMatch, [])
    (addBalls ([1, 2, 3, 4, 5, 6, 7].map (fun i => (twoOverEnv, regularSingle i)))
      (freshMatch, []))

/-- The match of `sevenSinglesState` after its overs have been changed to
1. -/
def reducedSevenMatch : Match :=
  storedAfter sevenSinglesState.1
    (updateMatchStatus twoOverEnv (some sevenSinglesState.1) oneOverRequest)

/-- The current players of the first innings: striker 100, non-striker 101,
bowler 200, keeper 201. -/
def openersRequest : PlayersRequest :=
  { innings := some "firstInnings", currentStriker := some 100, currentNonStriker := some 101
    currentBowler := some 200, currentKeeper := some 201 }

/-- The fresh match once the current players are set and the striker has been
bowled by the first ball. -/
def strikerOutMatch : Match :=
  (storedState (storedDoc freshMatch (updateCurrentPlayers sampleEnv (some freshMatch)
      openersRequest), [])
    (addBall sampleEnv (some (storedDoc freshMatch (updateCurrentPlayers sampleEnv
      (some freshMatch) openersRequest))) [] (wicketRequest 1))).1

/-- The roster of team 10: the players 100, 101 and 102. -/
def sampleTeams (team : ObjectId) : Option (List (Option ObjectId)) :=
  if team = 10 then some [some 100, some 101, some 102] else none

/-- The line agrees with the ledger on what its player did as striker: the
runs of the balls faced, the number of those that are not wides, and the
number of those with 4 and with 6 runs. -/
def BattingLine.Scores (e : BattingLine) (balls : List Ball) : Prop :=
  e.runs = ((ballsFaced balls e.playerId).map (fun b => b.runs)).sum ∧
    e.balls = (((ballsFaced balls e.playerId).filter (fun b => b.ballType ≠ .wide)).length : Int) ∧
    e.fours = (((ballsFaced balls e.playerId).filter (fun b => b.runs = 4)).length : Int) ∧
    e.sixes = (((ballsFaced balls e.playerId).filter (fun b => b.runs = 6)).length : Int)

/-- The scorecard `stats` is the one of the ledger `balls`: one line per
player who was striker or was dismissed, each agreeing with the ledger, and
the runs of the lines add up to the runs of the ledger. -/
def Scorecard (balls : List Ball) (stats : List BattingLine) : Prop :=
  (stats.map (fun e => e.playerId)).Nodup ∧
    (∀ p, p ∈ stats.map (fun e => e.playerId) ↔
      (∃ b ∈ balls, b.striker = p) ∨ dismissedOn balls p = true) ∧
    (∀ e ∈ stats, e.Scores balls ∧ e.isOut = dismissedOn balls e.playerId) ∧
    (stats.map (fun e => e.runs)).sum = (balls.map (fun b => b.runs)).sum

/-- Ten wicket deliveries in a row on the first innings of a twenty-over
match, on the fresh match and an empty statistics collection. -/
def tenWicketsInTwenty : Match × StatsStore :=
  storedState (freshMatch, [])
    (addBalls ([1, 2, 3, 4, 5, 6, 7, 8, 9, 10].map (fun i => (sampleEnv, wicketRequest i)))
      (freshMatch, []))

/-- A dot ball sent with `runs: 0`, `overNumber: 0` and `ballNumber: 0`. -/
def zeroRequest : BallRequest :=
  { innings := some "firstInnings", overNumber := some 0, ballNumber := some 0, runs := some 0
    commentary := some "dot ball", striker := some 100, bowler := some 200
    ballType := some "regular" }

/-- The single of `singleRequest` sent without `runs`. -/
def noRunsRequest : BallRequest := { singleRequest with runs := none }

/-- The stored state after twelve regular singles, two full overs, in a
two-over match. -/
def twelveSinglesState : Match × StatsStore :=
  storedState (freshMatch, [])
    (addBalls
      ([1, 2, 3, 4, 5, 6].map (fun i => (twoOverEnv, regularSingle i)) ++
        [1, 2, 3, 4, 5, 6].map
          (fun i => (twoOverEnv, { regularSingle i with overNumber := some 1 })))
      (freshMatch, []))

/-- The regular single of `regularSingleRequest` sent with a `playerOut`,
player 101, although the ball is no wicket. -/
def strayOutRequest : BallRequest := { regularSingleRequest with playerOut := some 101 }

/-- The stored state after `strayOutRequest` on the fresh match and an empty
statistics collection. -/
def strayOutState : Match × StatsStore :=
  storedState (freshMatch, []) (addBall sampleEnv (some freshMatch) [] strayOutRequest)

/-- The stored state after the single of `regularSingleRequest` and the
wicket of `wicketRequest 2` on the fresh match. -/
def singleThenWicketState : Match × StatsStore :=
  storedState (freshMatch, [])
    (addBalls [(sampleEnv, regularSingleRequest), (sampleEnv, wicketRequest 2)] (freshMatch, []))

/-- The first innings of `singleThenWicketState`. -/
def singleThenWicketInnings : Innings := singleThenWicketState.1.firstInnings.getD {}

/-! # Properties -/

/-! ## Lemmas on `updateMatchStatus` -/

/-- A bind succeeds exactly when both of its parts do. -/
theorem bind_eq_ok {ε α β : Type} (x : Except ε α) (f : α → Except ε β) (b : β) :
    x.bind f = .ok b ↔ ∃ a, x = .ok a ∧ f a = .ok b := by
  cases x <;> simp [Except.bind]

/-- The status check accepts `'completed'`. -/
theorem validStatus_completed (req : StatusRequest) (h : req.status = some "completed") :
    validStatus req = .ok (some .completed) := by
  simp [validStatus, h, parseStatus]

/-- The status check accepts `'live'`. -/
theorem validStatus_live (req : StatusRequest) (h : req.status = some "live") :
    validStatus req = .ok (some .live) := by
  simp [validStatus, h, parseStatus]

/-- What an accepted status step has checked and written. -/
theorem stepStatus_ok (status : Option MatchStatus) (s s1 : StatusState)
    (h : stepStatus status s = .ok s1) :
    s1.doc = { s.doc with status := status.getD s.doc.status } ∧
    (status = some .live →
      s.doc.status = .scheduled ∨ s.doc.status = .paused ∨ s.doc.status = .delayed) ∧
    (status = some .completed → ∃ fi, s.doc.firstInnings = some fi ∧ fi.isComplete = true) ∧
    (status = none → s1 = s) ∧
    (status ≠ none → s1.actionTaken = s.actionTaken ++ ["Status updated"]) := by
  unfold stepStatus at h
  cases status with
  | none => simp at h; subst h; simp
  | some st =>
    simp only at h
    split at h
    · simp at h
    · rename_i hlive
      split at h
      · rename_i hc
        subst hc
        split at h
        · simp at h
        · rename_i fi hfi
          split at h
          · simp at h
          · rename_i hcomp
            simp at h
            subst h
            simp [hfi]
            simpa using hcomp
      · rename_i hc
        simp at h
        subst h
        simp [hc]
        intro hl
        subst hl
        by_contra hcon
        simp at hlive
        simp at hcon
        exact hcon.2.2 (hlive hcon.1 hcon.2.1)

/-- Writing an innings leaves the match status alone. -/
theorem setInnings_status (m : Match) (k : InningsKey) (inn : Innings) :
    (m.setInnings k inn).status = m.status := by
  cases k <;> rfl

/-- Frame of an accepted DLS step. -/
theorem stepReviseTarget_ok (env : Env) (req : StatusRequest) (s s1 : StatusState)
    (h : stepReviseTarget env req s = .ok s1) :
    s1.doc.status = s.doc.status ∧ s1.doc.firstInnings = s.doc.firstInnings ∧
    s1.doc.secondInnings = s.doc.secondInnings ∧ s1.doc.abandonInfo = s.doc.abandonInfo ∧
    (req.reviseTarget = false → s1 = s) ∧
    (req.reviseTarget = true → s1.actionTaken ≠ []) := by
  unfold stepReviseTarget at h
  split at h
  · rename_i hr
    simp at h hr
    subst h
    simp [hr]
  · rename_i hr
    simp at hr
    split at h
    · split at h
      · simp at h
      · split at h
        · simp at h
          subst h
          simp [hr]
        · simp at h
    · simp at h

/-- Frame of an accepted end-innings step. -/
theorem stepEndInnings_ok (env : Env) (req : StatusRequest) (s s1 : StatusState)
    (h : stepEndInnings env req s = .ok s1) :
    s1.doc.status = s.doc.status ∧ s1.doc.abandonInfo = s.doc.abandonInfo ∧
    (req.endInnings = false → s1 = s) ∧
    (req.endInnings = true → s1.actionTaken ≠ []) := by
  unfold stepEndInnings at h
  split at h
  · rename_i hr
    simp at h hr
    subst h
    simp [hr]
  · rename_i hr
    simp at hr
    split at h
    · simp at h
    · rename_i k hk
      split at h
      · simp at h
      · split at h
        · simp at h
        · simp at h
          subst h
          cases k <;> simp [hr, Match.setInnings]

/-- Frame of the overs-reduction loop body. -/
theorem reduceInnings_frame (env : Env) (req : StatusRequest) (n : ℚ) (k : InningsKey)
    (m : Match) :
    (reduceInnings env req n k m).status = m.status ∧
    (reduceInnings env req n k m).abandonInfo = m.abandonInfo := by
  unfold reduceInnings
  split
  · simp
  · split
    · cases k <;> simp [Match.setInnings]
    · simp

/-- Frame of an accepted overs-change step. -/
theorem stepChangeOvers_ok (env : Env) (req : StatusRequest) (s s1 : StatusState)
    (h : stepChangeOvers env req s = .ok s1) :
    s1.doc.status = s.doc.status ∧ s1.doc.abandonInfo = s.doc.abandonInfo ∧
    (req.changeOvers = false → s1 = s) ∧
    (req.changeOvers = true → s1.actionTaken ≠ []) := by
  unfold stepChangeOvers at h
  split at h
  · rename_i hr
    simp at h hr
    subst h
    simp [hr]
  · rename_i hr
    simp at hr
    split at h
    · simp at h
    · split at h
      · simp at h
      · simp at h
        subst h
        simp [hr, (reduceInnings_frame _ _ _ _ _).1, (reduceInnings_frame _ _ _ _ _).2]

/-- What an accepted end-match step has checked and written. -/
theorem stepEndMatch_ok (env : Env) (req : StatusRequest) (s s1 : StatusState)
    (h : stepEndMatch env req s = .ok s1) :
    (req.endMatch = false → s1 = s) ∧
    (req.endMatch = true → ∃ r, req.reason = some r ∧ r ≠ "" ∧
      s1.doc.status = .abandoned ∧
      s1.doc.abandonInfo = AbandonInfo.mk (some r) (some env.now)
        (some (strOr req.commentary ("Match abandoned due to " ++ r))) ∧
      s1.actionTaken ≠ []) := by
  unfold stepEndMatch at h
  split at h
  · rename_i hr
    simp at h hr
    subst h
    simp [hr]
  · rename_i hr
    simp at hr
    split at h
    · simp at h
    · rename_i r hreason
      split at h
      · simp at h
      · rename_i hne
        simp at h
        subst h
        simp [hr, hreason, hne]

/-- What the result step writes, and when. -/
theorem stepResult_ok (env : Env) (status : Option MatchStatus) (req : StatusRequest)
    (s s1 : StatusState) (h : stepResult env status req s = .ok s1) :
    s1.doc.status = s.doc.status ∧ s1.doc.abandonInfo = s.doc.abandonInfo ∧
    s1.actionTaken = s.actionTaken ∧
    s1.doc.firstInnings = s.doc.firstInnings ∧ s1.doc.secondInnings = s.doc.secondInnings ∧
    s1.doc.dls = s.doc.dls ∧
    (((status = some .completed ∨ req.endMatch = true) ∧ s.doc.status = .completed) →
      ∃ fi si, s.doc.firstInnings = some fi ∧ s.doc.secondInnings = some si ∧
        s1.doc.result = computeResult s.doc fi si) ∧
    (¬ ((status = some .completed ∨ req.endMatch = true) ∧ s.doc.status = .completed) →
      s1 = s) := by
  unfold stepResult at h
  split at h
  · rename_i hc
    split at h
    · rename_i fi si t hfi hsi ht
      simp at h
      subst h
      simp [hfi, hsi, hc]
    · simp at h
  · rename_i hc
    simp at h
    subst h
    simp [hc]

/-- The last check passes only with a non-empty action list. -/
theorem stepRequireAction_ok (s s1 : StatusState) (h : stepRequireAction s = .ok s1) :
    s1 = s ∧ s.actionTaken ≠ [] := by
  unfold stepRequireAction at h
  split at h
  · simp at h
  · rename_i hne
    simp at h
    subst h
    simpa using hne

/-- An accepted request went through every step. -/
theorem updateMatchStatus_ok (env : Env) (found : Option Match) (req : StatusRequest)
    (s : StatusState) (h : updateMatchStatus env found req = .ok s) :
    ∃ status m s1 s2 s3 s4 s5 s6, validStatus req = .ok status ∧ found = some m ∧
      stepStatus status { doc := m, actionTaken := [] } = .ok s1 ∧
      stepReviseTarget env req s1 = .ok s2 ∧
      stepEndInnings env req s2 = .ok s3 ∧
      stepChangeOvers env req s3 = .ok s4 ∧
      stepEndMatch env req s4 = .ok s5 ∧
      stepResult env status req s5 = .ok s6 ∧
      stepRequireAction s6 = .ok s := by
  unfold updateMatchStatus at h
  split at h
  · simp at h
  · rename_i status hst
    split at h
    · simp at h
    · rename_i m
      simp only [bind_eq_ok] at h
      obtain ⟨s6, ⟨s5, ⟨s4, ⟨s3, ⟨s2, ⟨s1, h1, h2⟩, h3⟩, h4⟩, h5⟩, h6⟩, h7⟩ := h
      exact ⟨status, m, s1, s2, s3, s4, s5, s6, hst, rfl, h1, h2, h3, h4, h5, h6, h7⟩

/-- A falsy `status` passes the status check as absent. -/
theorem validStatus_falsy (req : StatusRequest) (h : truthyStr req.status = false) :
    validStatus req = .ok none := by
  unfold validStatus
  cases hs : req.status with
  | none => rfl
  | some v =>
    simp [truthyStr, hs] at h
    simp [h]

/-- An accepted status is the enum value of the sent name. -/
theorem validStatus_some (req : StatusRequest) (st : MatchStatus)
    (h : validStatus req = .ok (some st)) :
    ∃ v, req.status = some v ∧ parseStatus v = some st := by
  unfold validStatus at h
  split at h
  · simp at h
  · rename_i v hv
    split at h
    · simp at h
    · split at h
      · rename_i st1 hp
        simp at h
        subst h
        exact ⟨v, hv, hp⟩
      · simp at h

/-- The status of the saved document: `abandoned` when `endMatch` is set,
else the requested status, else the previous one. -/
theorem updateMatchStatus_status (env : Env) (found : Option Match) (req : StatusRequest)
    (s : StatusState) (h : updateMatchStatus env found req = .ok s) :
    ∃ status m, validStatus req = .ok status ∧ found = some m ∧
      s.doc.status = (if req.endMatch then .abandoned else status.getD m.status) ∧
      (status = some .live →
        m.status = .scheduled ∨ m.status = .paused ∨ m.status = .delayed) ∧
      (status = some .completed → ∃ fi, m.firstInnings = some fi ∧ fi.isComplete = true) ∧
      (req.endMatch = true → ∃ r, req.reason = some r ∧ r ≠ "" ∧
        s.doc.abandonInfo = AbandonInfo.mk (some r) (some env.now)
          (some (strOr req.commentary ("Match abandoned due to " ++ r)))) ∧
      (req.endMatch = false → s.doc.abandonInfo = m.abandonInfo) := by
  obtain ⟨status, m, s1, s2, s3, s4, s5, s6, hv, hf, h1, h2, h3, h4, h5, h6, h7⟩ :=
    updateMatchStatus_ok env found req s h
  have e1 := stepStatus_ok _ _ _ h1
  have e2 := stepReviseTarget_ok _ _ _ _ h2
  have e3 := stepEndInnings_ok _ _ _ _ h3
  have e4 := stepChangeOvers_ok _ _ _ _ h4
  have e5 := stepEndMatch_ok _ _ _ _ h5
  have e6 := stepResult_ok _ _ _ _ _ h6
  have e7 := stepRequireAction_ok _ _ h7
  refine ⟨status, m, hv, hf, ?_, e1.2.1, e1.2.2.1, ?_, ?_⟩
  · rw [e7.1, e6.1]
    cases hem : req.endMatch with
    | true =>
      obtain ⟨r, _, _, hs, _⟩ := e5.2 hem
      simp [hs]
    | false =>
      rw [e5.1 hem, e4.1, e3.1, e2.1, e1.1]
      simp
  · intro hem
    obtain ⟨r, hr, hne, _, ha, _⟩ := e5.2 hem
    exact ⟨r, hr, hne, by rw [e7.1, e6.2.1, ha]⟩
  · intro hem
    rw [e7.1, e6.2.1, e5.1 hem, e4.2.1, e3.2.1, e2.2.2.2.1, e1.1]

/-- An accepted request has taken an action, hence specified one. -/
theorem updateMatchStatus_action (env : Env) (found : Option Match) (req : StatusRequest)
    (s : StatusState) (h : updateMatchStatus env found req = .ok s) :
    s.actionTaken ≠ [] ∧
    (truthyStr req.status = true ∨ req.reviseTarget = true ∨ req.endInnings = true ∨
      req.changeOvers = true ∨ req.endMatch = true) := by
  obtain ⟨status, m, s1, s2, s3, s4, s5, s6, hv, hf, h1, h2, h3, h4, h5, h6, h7⟩ :=
    updateMatchStatus_ok env found req s h
  have e1 := stepStatus_ok _ _ _ h1
  have e2 := stepReviseTarget_ok _ _ _ _ h2
  have e3 := stepEndInnings_ok _ _ _ _ h3
  have e4 := stepChangeOvers_ok _ _ _ _ h4
  have e5 := stepEndMatch_ok _ _ _ _ h5
  have e6 := stepResult_ok _ _ _ _ _ h6
  have e7 := stepRequireAction_ok _ _ h7
  refine ⟨by rw [e7.1]; exact e7.2, ?_⟩
  by_contra hcon
  simp only [not_or, Bool.not_eq_true] at hcon
  obtain ⟨c1, c2, c3, c4, c5⟩ := hcon
  rw [validStatus_falsy req c1] at hv
  have hst : status = none := by cases hv; rfl
  have : s6.actionTaken = [] := by
    rw [e6.2.2.1, e5.1 c5, e4.2.2.1 c4, e3.2.2.1 c3, e2.2.2.2.2.1 c2, e1.2.2.2.1 hst]
  exact e7.2 this

/-! ## Claims on `updateMatchStatus` -/

/-- Claim C4, evaluated on the code: completing `chaseMatch`, in which the
side batting second has reached the target of 6 (first innings 5) with three
wickets lost, names that side (team 11) the winner, but the stored margin is
"3 wickets", the wickets lost, where the claim requires "7 wickets"
(10 minus the wickets lost). -/
theorem chase_margin_is_wickets_lost :
    (updateMatchStatus sampleEnv (some chaseMatch) { status := some "completed" }).toOption.map
        (fun s => (s.doc.status, s.doc.result)) =
      some (.completed, { winner := some 11, margin := some "3 wickets" }) := by
  decide!

/-- Claim C5: on a transition to completed (a request with status completed
and no `endMatch` that succeeds), with the target being the DLS-revised
target when DLS is applied and the first-innings total plus one otherwise: if
the second-innings total is below target - 1, the winner is the first-innings
batting team and the margin is the text of target - 1 - secondRuns followed
by " runs", a number that is at least 1; if the second-innings total is
exactly target - 1 the result is a tie without winner. -/
theorem defending_win_or_tie (env : Env) (m : Match) (req : StatusRequest) (s : StatusState)
    (h : updateMatchStatus env (some m) req = .ok s)
    (hstatus : req.status = some "completed") (hend : req.endMatch = false) :
    s.doc.status = .completed ∧
    ∃ fi si, s.doc.firstInnings = some fi ∧ s.doc.secondInnings = some si ∧
      ∀ target : Int,
        (s.doc.dls.isApplied = true → s.doc.dls.revisedTarget = some target) →
        (s.doc.dls.isApplied = false → target = fi.totalRuns + 1) →
        (si.totalRuns < target - 1 →
          s.doc.result.winner = fi.battingTeam ∧
          s.doc.result.margin = some (toString (target - 1 - si.totalRuns) ++ " runs") ∧
          1 ≤ target - 1 - si.totalRuns) ∧
        (si.totalRuns = target - 1 →
          s.doc.result.winner = none ∧ s.doc.result.margin = some "Match tied") := by
  obtain ⟨status, m0, s1, s2, s3, s4, s5, s6, hv, hf, h1, h2, h3, h4, h5, h6, h7⟩ :=
    updateMatchStatus_ok env (some m) req s h
  rw [validStatus_completed req hstatus] at hv
  have hst : status = some .completed := by cases hv; rfl
  subst hst
  have e1 := stepStatus_ok _ _ _ h1
  have e2 := stepReviseTarget_ok _ _ _ _ h2
  have e3 := stepEndInnings_ok _ _ _ _ h3
  have e4 := stepChangeOvers_ok _ _ _ _ h4
  have e5 := stepEndMatch_ok _ _ _ _ h5
  have e6 := stepResult_ok _ _ _ _ _ h6
  have e7 := stepRequireAction_ok _ _ h7
  have hs5 : s5.doc.status = .completed := by
    rw [e5.1 hend, e4.1, e3.1, e2.1, e1.1]
    rfl
  obtain ⟨fi, si, hfi, hsi, hres⟩ := e6.2.2.2.2.2.2.1 ⟨Or.inl rfl, hs5⟩
  have hs : s = s6 := e7.1
  subst hs
  refine ⟨by rw [e6.1, hs5], fi, si, by rw [e6.2.2.2.1, hfi], by rw [e6.2.2.2.2.1, hsi], ?_⟩
  intro target hdls hnodls
  have ht : targetToWin s5.doc fi.totalRuns = some target := by
    unfold targetToWin
    rw [← e6.2.2.2.2.2.1]
    cases happ : s.doc.dls.isApplied with
    | true => simpa using hdls happ
    | false => simpa using (hnodls happ).symm
  rw [hres]
  unfold computeResult
  rw [ht]
  constructor
  · intro hlt
    have h1 : ¬ si.totalRuns ≥ target := by omega
    simp only [h1, hlt, if_true, if_false]
    exact ⟨trivial, trivial, by omega⟩
  · intro heq
    have h1 : ¬ si.totalRuns ≥ target := by omega
    have h2 : ¬ si.totalRuns < target - 1 := by omega
    simp only [h1, h2, if_false]
    exact ⟨trivial, trivial⟩

/-- Witness of `defending_win_or_tie`: completing `defendedMatch` (first
innings 5, second innings 2) is accepted and the match is completed. -/
theorem defending_win_or_tie_witness :
    updateMatchStatus sampleEnv (some defendedMatch) { status := some "completed" } =
        .ok { doc := { defendedMatch with
                status := .completed
                result := { winner := some 10, margin := some "3 runs" } }
              actionTaken := ["Status updated"] } ∧
      ({ defendedMatch with
          status := MatchStatus.completed
          result := { winner := some 10, margin := some "3 runs" } } : Match).status = .completed :=
  ⟨by rfl,
   (defending_win_or_tie sampleEnv defendedMatch { status := some "completed" }
      { doc := { defendedMatch with
          status := .completed
          result := { winner := some 10, margin := some "3 runs" } }
        actionTaken := ["Status updated"] } (by rfl) rfl rfl).1⟩

/-- Claim C6 fails as stated on the kind of the failure: on the live match,
whose first innings is open, the request with status completed is answered
with HTTP 400 and a message, the answer `badRequest` that the handler gives
to every invalid request, and not with 409, the code that other controllers
of the repository give to a conflict. -/
theorem complete_early_is_bad_request :
    updateMatchStatus sampleEnv (some liveMatch) { status := some "completed" } =
        .error (badRequest "Cannot complete match before first innings is complete") ∧
      (badRequest "Cannot complete match before first innings is complete").code = 400 ∧
      (badRequest "Cannot complete match before first innings is complete").code ≠ 409 := by
  refine ⟨by rfl, by rfl, by decide⟩

/-- Claim C6 as amended: for every match whose first innings is not complete,
a request with status completed fails with HTTP 400 and the message "Cannot
complete match before first innings is complete" (the answer the handler
gives to an invalid request, not a 409), and the stored match is unchanged,
whatever other actions the request carries. -/
theorem complete_before_first_innings_fails (env : Env) (m : Match) (fi : Innings)
    (req : StatusRequest) (hfi : m.firstInnings = some fi) (hinc : fi.isComplete = false)
    (hreq : req.status = some "completed") :
    updateMatchStatus env (some m) req
        = .error ⟨400, some "Cannot complete match before first innings is complete"⟩ ∧
      storedAfter m (updateMatchStatus env (some m) req) = m := by
  have h : updateMatchStatus env (some m) req
        = .error ⟨400, some "Cannot complete match before first innings is complete"⟩ := by
    simp [updateMatchStatus, validStatus_completed req hreq, stepStatus, hfi, hinc, Except.bind,
      badRequest]
  rw [h]
  exact ⟨rfl, rfl⟩

/-- Witness of `complete_before_first_innings_fails`: the fresh match, with a
request that also revises the target, declares, changes the overs and ends
the match. -/
theorem complete_before_first_innings_fails_witness :
    updateMatchStatus sampleEnv (some freshMatch)
        { status := some "completed", reviseTarget := true, endMatch := true, endInnings := true,
          changeOvers := true, reason := some "rain", targetRuns := some 100,
          targetOvers := some 10, inningsToEnd := some "firstInnings", newTotalOvers := some 10 }
        = .error ⟨400, some "Cannot complete match before first innings is complete"⟩ ∧
      storedAfter freshMatch (updateMatchStatus sampleEnv (some freshMatch)
        { status := some "completed", reviseTarget := true, endMatch := true, endInnings := true,
          changeOvers := true, reason := some "rain", targetRuns := some 100,
          targetOvers := some 10, inningsToEnd := some "firstInnings", newTotalOvers := some 10 })
        = freshMatch :=
  complete_before_first_innings_fails sampleEnv freshMatch
    { battingTeam := some 10, bowlingTeam := some 11 } _ rfl rfl rfl

/-- Claim C7: a request with status live succeeds only when the current
status is scheduled, paused or delayed (and, unless the same request ends the
match, it then stores the status live); when the current status is live,
completed or abandoned it fails (HTTP 400, "Can only start a scheduled,
paused, or delayed match": InvalidArgument) and the stored match is
unchanged. -/
theorem live_only_from_startable (env : Env) (m : Match) (req : StatusRequest)
    (hreq : req.status = some "live") :
    (∀ s, updateMatchStatus env (some m) req = .ok s →
      (m.status = .scheduled ∨ m.status = .paused ∨ m.status = .delayed) ∧
      (req.endMatch = false → s.doc.status = .live)) ∧
    (m.status = .live ∨ m.status = .completed ∨ m.status = .abandoned →
      updateMatchStatus env (some m) req
          = .error ⟨400, some "Can only start a scheduled, paused, or delayed match"⟩ ∧
        storedAfter m (updateMatchStatus env (some m) req) = m) := by
  constructor
  · intro s h
    obtain ⟨status, m0, hv, hf, hs, hlive, _⟩ := updateMatchStatus_status env (some m) req s h
    rw [validStatus_live req hreq] at hv
    have hst : status = some .live := by cases hv; rfl
    have hm : m0 = m := by cases hf; rfl
    subst hst hm
    refine ⟨hlive rfl, ?_⟩
    intro hend
    rw [hs, hend]
    rfl
  · intro hm
    have h : updateMatchStatus env (some m) req
        = .error ⟨400, some "Can only start a scheduled, paused, or delayed match"⟩ := by
      rcases hm with hm | hm | hm <;>
        simp [updateMatchStatus, validStatus_live req hreq, stepStatus, hm, Except.bind,
          badRequest]
    rw [h]
    exact ⟨rfl, rfl⟩

/-- Witness of `live_only_from_startable`: the completed match cannot be
restarted. -/
theorem live_only_from_startable_witness :
    updateMatchStatus sampleEnv (some completedMatch) { status := some "live" }
        = .error ⟨400, some "Can only start a scheduled, paused, or delayed match"⟩ ∧
      storedAfter completedMatch
        (updateMatchStatus sampleEnv (some completedMatch) { status := some "live" })
        = completedMatch :=
  (live_only_from_startable sampleEnv completedMatch { status := some "live" } rfl).2
    (Or.inr (Or.inl rfl))

/-- Claim C8, evaluated on the code: a request that carries only status
abandoned, without a reason, is accepted on the fresh match; the match is
stored as abandoned and `abandonInfo` stays empty (no reason, no time, no
commentary).  The `endMatch` path of the same handler demands the reason and
writes `abandonInfo`. -/
theorem abandon_by_status_needs_no_reason :
    updateMatchStatus sampleEnv (some freshMatch) { status := some "abandoned" } =
      .ok { doc := { freshMatch with status := .abandoned }, actionTaken := ["Status updated"] } ∧
    ({ freshMatch with status := MatchStatus.abandoned } : Match).abandonInfo =
      { reason := none, time := none, commentary := none } := by
  constructor <;> rfl

/-- Claim C9 fails as stated: a status request moves the abandoned match back
to scheduled, and a completed match is moved to abandoned by `endMatch`. -/
theorem abandoned_not_terminal :
    (updateMatchStatus sampleEnv (some abandonedMatch) { status := some "scheduled" }).toOption.map
        (fun s => s.doc.status) = some .scheduled ∧
    (updateMatchStatus sampleEnv (some completedMatch)
        { endMatch := true, reason := some "rain" }).toOption.map
        (fun s => s.doc.status) = some .abandoned := by
  constructor <;> rfl

/-- The name that parses to a given status. -/
theorem parseStatus_eq_some (v : String) (st : MatchStatus) (h : parseStatus v = some st) :
    v = match st with
      | .scheduled => "scheduled" | .live => "live" | .paused => "paused"
      | .completed => "completed" | .abandoned => "abandoned" | .delayed => "delayed" := by
  unfold parseStatus at h
  repeat' split at h
  all_goals first
    | (simp at h; subst h; assumption)
    | simp at h

/-- Claim C9 as amended: no accepted request moves a match that is abandoned
or completed to live; an abandoned match leaves that status only through a
request whose status field names the new status; a completed match becomes
abandoned only through `endMatch` with a reason or through status
abandoned. -/
theorem terminal_status_moves (env : Env) (m : Match) (req : StatusRequest) (s : StatusState)
    (h : updateMatchStatus env (some m) req = .ok s) :
    (m.status = .abandoned ∨ m.status = .completed → s.doc.status ≠ .live) ∧
    (m.status = .abandoned → s.doc.status ≠ .abandoned →
      ∃ v, req.status = some v ∧ parseStatus v = some s.doc.status) ∧
    (m.status = .completed → s.doc.status = .abandoned →
      (req.endMatch = true ∧ truthyStr req.reason = true) ∨ req.status = some "abandoned") := by
  obtain ⟨status, m0, hv, hf, hs, hlive, _, hend, _⟩ :=
    updateMatchStatus_status env (some m) req s h
  have hm : m0 = m := by cases hf; rfl
  subst hm
  refine ⟨?_, ?_, ?_⟩
  · intro hm hl
    cases hem : req.endMatch with
    | true => rw [hs, hem] at hl; simp at hl
    | false =>
      rw [hs, hem] at hl
      cases status with
      | none => simp at hl; rw [hl] at hm; simp at hm
      | some st =>
        simp at hl
        subst hl
        have := hlive rfl
        rcases hm with hm | hm <;> rw [hm] at this <;> simp at this
  · intro hm hne
    cases hem : req.endMatch with
    | true => rw [hs, hem] at hne; simp at hne
    | false =>
      rw [hs, hem] at hne
      cases status with
      | none => simp [hm] at hne
      | some st =>
        obtain ⟨v, hv1, hv2⟩ := validStatus_some req st hv
        refine ⟨v, hv1, ?_⟩
        rw [hs, hem]
        simpa using hv2
  · intro hm hab
    cases hem : req.endMatch with
    | true =>
      left
      obtain ⟨r, hr, hne, _⟩ := hend hem
      exact ⟨rfl, by simp [truthyStr, hr, hne]⟩
    | false =>
      right
      rw [hs, hem] at hab
      cases status with
      | none => simp [hm] at hab
      | some st =>
        simp at hab
        subst hab
        obtain ⟨v, hv1, hv2⟩ := validStatus_some req _ hv
        rw [hv1, parseStatus_eq_some v _ hv2]

/-- Witness of `terminal_status_moves`: the abandoned match is moved to
paused by a request that names that status. -/
theorem terminal_status_moves_witness :
    updateMatchStatus sampleEnv (some abandonedMatch) { status := some "paused" } =
        .ok { doc := { abandonedMatch with status := .paused }, actionTaken := ["Status updated"] } ∧
      ({ abandonedMatch with status := MatchStatus.paused } : Match).status ≠ .live :=
  ⟨by rfl,
   (terminal_status_moves sampleEnv abandonedMatch { status := some "paused" }
      { doc := { abandonedMatch with status := .paused }, actionTaken := ["Status updated"] }
      (by rfl)).1 (Or.inl rfl)⟩

/-- Claim C10: a request that specifies none of status, reviseTarget,
endInnings, changeOvers and endMatch fails (HTTP 400, "No action specified",
InvalidArgument) and the stored match is unchanged; every request that
succeeds has taken at least one action, so it specified one. -/
theorem action_required (env : Env) (m : Match) (req : StatusRequest) :
    (truthyStr req.status = false ∧ req.reviseTarget = false ∧ req.endInnings = false ∧
        req.changeOvers = false ∧ req.endMatch = false →
      updateMatchStatus env (some m) req = .error ⟨400, some
          "No action specified. Please provide at least one valid action to perform."⟩ ∧
        storedAfter m (updateMatchStatus env (some m) req) = m) ∧
    (∀ s, updateMatchStatus env (some m) req = .ok s →
      s.actionTaken ≠ [] ∧
      (truthyStr req.status = true ∨ req.reviseTarget = true ∨ req.endInnings = true ∨
        req.changeOvers = true ∨ req.endMatch = true)) := by
  constructor
  · rintro ⟨h1, h2, h3, h4, h5⟩
    have h : updateMatchStatus env (some m) req = .error ⟨400, some
          "No action specified. Please provide at least one valid action to perform."⟩ := by
      simp [updateMatchStatus, validStatus_falsy req h1, stepStatus, stepReviseTarget,
        stepEndInnings, stepChangeOvers, stepEndMatch, stepResult, stepRequireAction, h2, h3,
        h4, h5, Except.bind, badRequest]
    rw [h]
    exact ⟨rfl, rfl⟩
  · intro s h
    exact updateMatchStatus_action env (some m) req s h

/-- Witness of `action_required`: the empty request on the live match. -/
theorem action_required_witness :
    updateMatchStatus sampleEnv (some liveMatch) {} = .error ⟨400, some
        "No action specified. Please provide at least one valid action to perform."⟩ ∧
      storedAfter liveMatch (updateMatchStatus sampleEnv (some liveMatch) {}) = liveMatch :=
  (action_required sampleEnv liveMatch {}).1 ⟨rfl, rfl, rfl, rfl, rfl⟩

/-! ## Lemmas on `addBall` and `undoBall` -/

/-- An accepted `addBall` went through every step; the stored match is the
loaded one with the ball pushed on the requested innings. -/
theorem addBall_ok (env : Env) (found : Option Match) (store : StatsStore) (req : BallRequest)
    (m1 : Match) (store2 : StatsStore) (h : addBall env found store req = .ok (m1, store2)) :
    ∃ c m inn ballType wicketType t store1,
      checkBallRequest req = .ok c ∧ found = some m ∧ m.innings c.key = some inn ∧
      castBallEnums req = .ok (ballType, wicketType) ∧ env.tournament = some t ∧
      m1 = m.setInnings c.key
        (addBallInnings (some t) inn (makeBall env req c ballType wicketType) req.isWicket) ∧
      (if ballType ≠ some .wide then
          strikerStatsOnAdd m.id t.ballType inn.battingTeam c.striker c.runs store
        else .ok store) = .ok store1 ∧
      bowlerStatsOnAdd m.id t.ballType inn.bowlingTeam c.bowler ballType
        (makeBall env req c ballType wicketType).runs req.isWicket store1 = .ok store2 := by
  unfold addBall at h
  split at h
  · simp at h
  · rename_i c hc
    split at h
    · simp at h
    · rename_i m
      split at h
      · rename_i inn ballType wicketType t hinn hcast ht
        simp only at h
        split at h
        · simp at h
        · rename_i store1 hs1
          split at h
          · simp at h
          · rename_i store2' hs2
            simp at h
            obtain ⟨h1, h2⟩ := h
            subst h1 h2
            refine ⟨c, m, inn, ballType, wicketType, t, store1, hc, rfl, hinn, hcast, ht, ?_, ?_, ?_⟩
            · rw [ht]
            · simpa [addBallInnings] using hs1
            · simpa [addBallInnings] using hs2
      · simp at h

/-- An accepted `undoBall` went through every step; the stored match is the
loaded one with the last ball popped from the requested innings. -/
theorem undoBall_ok (env : Env) (found : Option Match) (store : StatsStore)
    (innings : Option String) (m1 : Match) (store2 : StatsStore)
    (h : undoBall env found store innings = .ok (m1, store2)) :
    ∃ key m inn lastBall t store1,
      innings.bind parseInningsKey = some key ∧ found = some m ∧ m.innings key = some inn ∧
      inn.balls.getLast? = some lastBall ∧ env.tournament = some t ∧
      m1 = m.setInnings key (undoBallInnings (some t) inn lastBall) ∧
      (if lastBall.ballType ≠ .wide then
          strikerStatsOnUndo m.id t.ballType inn.battingTeam lastBall store
        else .ok store) = .ok store1 ∧
      bowlerStatsOnUndo m.id t.ballType inn.bowlingTeam lastBall store1 = .ok store2 := by
  unfold undoBall at h
  split at h
  · simp at h
  · rename_i key hkey
    split at h
    · simp at h
    · rename_i m
      split at h
      · simp at h
      · rename_i inn hinn
        split at h
        · simp at h
        · rename_i lastBall hlast
          simp only at h
          split at h
          · simp at h
          · rename_i t ht
            split at h
            · simp at h
            · rename_i store1 hs1
              split at h
              · simp at h
              · rename_i store2' hs2
                simp at h
                obtain ⟨h1, h2⟩ := h
                subst h1 h2
                refine ⟨key, m, inn, lastBall, t, store1, hkey, rfl, hinn, hlast, ht, ?_, ?_, ?_⟩
                · rw [ht]
                · simpa [undoBallInnings] using hs1
                · simpa [undoBallInnings] using hs2

/-- The checked request carries the innings key that was sent. -/
theorem checkBallRequest_key (req : BallRequest) (c : CheckedBall)
    (h : checkBallRequest req = .ok c) : req.innings.bind parseInningsKey = some c.key := by
  unfold checkBallRequest at h
  split at h
  · simp at h
  · rename_i key hkey
    repeat' split at h
    all_goals first
      | (simp at h; rw [← h]; exact hkey)
      | simp at h

/-- Reading back a written innings. -/
theorem innings_setInnings (m : Match) (k : InningsKey) (inn : Innings) :
    (m.setInnings k inn).innings k = some inn := by
  cases k <;> rfl

/-- The floor of `L / 6` is the natural-number quotient. -/
theorem floor_div_six (L : ℕ) : ((⌊(L : ℚ) / 6⌋₊ : ℕ) : ℚ) = ((L / 6 : ℕ) : ℚ) := by
  have h := Nat.floor_div_eq_div (α := ℚ) L 6
  have h6 : ((6 : ℕ) : ℚ) = 6 := by norm_num
  rw [h6] at h
  rw [h]

/-- The legal deliveries of a ledger with one more ball. -/
theorem legalDeliveries_append (balls : List Ball) (b : Ball) :
    legalDeliveries (balls ++ [b]) =
      if isLegalDelivery b then legalDeliveries balls + 1 else legalDeliveries balls := by
  unfold legalDeliveries
  rw [List.filter_append]
  by_cases hb : isLegalDelivery b = true <;> simp [hb]

/-- A ledger of legal deliveries only. -/
theorem legalDeliveries_all (balls : List Ball) (h : ∀ b ∈ balls, isLegalDelivery b = true) :
    legalDeliveries balls = balls.length := by
  unfold legalDeliveries
  rw [List.filter_eq_self.mpr h]

/-- The cast ball type is the enum value of the sent name. -/
theorem castBallEnums_ballType (req : BallRequest) (bt : Option BallType)
    (wt : Option WicketType) (h : castBallEnums req = .ok (bt, wt)) :
    bt = req.ballType.bind parseBallType ∧ (req.ballType ≠ none → bt ≠ none) := by
  unfold castBallEnums at h
  simp only at h
  split at h
  · rename_i b w hb hw
    simp at h
    obtain ⟨h1, _⟩ := h
    subst h1
    cases hreq : req.ballType with
    | none =>
      rw [hreq] at hb
      simp at hb
      simp [← hb]
    | some v =>
      rw [hreq] at hb
      cases hp : parseBallType v with
      | none => simp [hp] at hb
      | some t =>
        simp [hp] at hb
        simp [← hb, hp]
  · simp at h

/-! ## Claims on the ball ledger -/

/-- The overs expression written with the floor of a rational. -/
theorem currentOvers_eq_floor (L : ℕ) :
    currentOvers L = ((⌊(L : ℚ) / 6⌋₊ : ℕ) : ℚ) + ((L % 6 : ℕ) : ℚ) / 10 := by
  rw [floor_div_six]
  rfl

/-- Claim C1: after an accepted `addBall` or `undoBall` the stored overs of
the innings equals floor(L/6) + (L mod 6)/10, L being the number of ledger
balls whose ballType is regular, legbye or bye; a ledger of N legal
deliveries and nothing else therefore gives floor(N/6) + (N mod 6)/10 (1.1
for 7, 2.0 for 12); and an accepted `addBall` of a wide or a noball leaves
the overs as they were stored by the preceding `addBall` or `undoBall`
(that is, whenever they agreed with the ledger). -/
theorem overs_follow_ledger (env : Env) (m : Match) (store : StatsStore) (req : BallRequest)
    (m1 : Match) (store1 : StatsStore)
    (h : addBall env (some m) store req = .ok (m1, store1) ∨
      undoBall env (some m) store req.innings = .ok (m1, store1)) :
    ∃ k inn inn1, req.innings.bind parseInningsKey = some k ∧ m.innings k = some inn ∧
      m1.innings k = some inn1 ∧
      inn1.overs =
        ((⌊((inn1.balls.filter (fun b =>
            b.ballType = .regular ∨ b.ballType = .legbye ∨ b.ballType = .bye)).length : ℚ) / 6⌋₊ : ℕ) : ℚ)
        + (((inn1.balls.filter (fun b =>
            b.ballType = .regular ∨ b.ballType = .legbye ∨ b.ballType = .bye)).length % 6 : ℕ) : ℚ) / 10 ∧
      ((∀ b ∈ inn1.balls, b.ballType = .regular ∨ b.ballType = .legbye ∨ b.ballType = .bye) →
        inn1.overs = ((⌊(inn1.balls.length : ℚ) / 6⌋₊ : ℕ) : ℚ)
            + ((inn1.balls.length % 6 : ℕ) : ℚ) / 10 ∧
          (inn1.balls.length = 7 → inn1.overs = 11 / 10) ∧
          (inn1.balls.length = 12 → inn1.overs = 2)) ∧
      (addBall env (some m) store req = .ok (m1, store1) →
        req.ballType = some "wide" ∨ req.ballType = some "noball" →
        inn.overs = currentOvers (legalDeliveries inn.balls) → inn1.overs = inn.overs) := by
  have hfilter : ∀ balls : List Ball,
      (balls.filter (fun b =>
        decide (b.ballType = .regular ∨ b.ballType = .legbye ∨ b.ballType = .bye))).length
        = legalDeliveries balls := by
    intro balls
    unfold legalDeliveries
    congr 2
    funext b
    simp [isLegalDelivery, Bool.or_assoc]
  have core : ∃ k inn inn1, req.innings.bind parseInningsKey = some k ∧ m.innings k = some inn ∧
      m1.innings k = some inn1 ∧ inn1.overs = currentOvers (legalDeliveries inn1.balls) ∧
      (addBall env (some m) store req = .ok (m1, store1) →
        req.ballType = some "wide" ∨ req.ballType = some "noball" →
        legalDeliveries inn1.balls = legalDeliveries inn.balls) := by
    rcases h with h | h
    · obtain ⟨c, m0, inn, bt, wt, t, s1, hc, hf, hinn, hcast, ht, hm1, _, _⟩ :=
        addBall_ok env (some m) store req m1 store1 h
      have hm : m0 = m := by cases hf; rfl
      subst hm
      refine ⟨c.key, inn, _, checkBallRequest_key req c hc, hinn,
        by rw [hm1]; exact innings_setInnings _ _ _, rfl, ?_⟩
      intro _ hw
      have hbt := (castBallEnums_ballType req bt wt hcast).1
      show legalDeliveries (inn.balls ++ [makeBall env req c bt wt]) = _
      rw [legalDeliveries_append]
      have : isLegalDelivery (makeBall env req c bt wt) = false := by
        rcases hw with hw | hw <;>
          simp [hw, parseBallType] at hbt <;> subst hbt <;> rfl
      simp [this]
    · obtain ⟨k, m0, inn, lastBall, t, s1, hk, hf, hinn, hlast, ht, hm1, _, _⟩ :=
        undoBall_ok env (some m) store req.innings m1 store1 h
      have hm : m0 = m := by cases hf; rfl
      subst hm
      refine ⟨k, inn, _, hk, hinn, by rw [hm1]; exact innings_setInnings _ _ _, rfl, ?_⟩
      intro hadd
      obtain ⟨c, m0, inn0, bt, wt, t0, s0, hc, hf0, hinn0, hcast, ht0, hm0, _, _⟩ :=
        addBall_ok env (some m0) store req m1 store1 hadd
      have hkk : c.key = k := by
        have := checkBallRequest_key req c hc
        rw [hk] at this
        cases this
        rfl
      subst hkk
      intro _
      exfalso
      have e1 : m1.innings c.key = some (undoBallInnings (some t) inn lastBall) := by
        rw [hm1]; exact innings_setInnings _ _ _
      cases hf0
      rw [hinn] at hinn0
      cases hinn0
      have e2 : m1.innings c.key =
          some (addBallInnings (some t0) inn (makeBall env req c bt wt) req.isWicket) := by
        rw [hm0]; exact innings_setInnings _ _ _
      rw [e1] at e2
      have e3 := congrArg (fun o => o.map (fun i => i.balls.length)) e2
      simp [undoBallInnings, addBallInnings] at e3
  obtain ⟨k, inn, inn1, hk, hinn, hinn1, hov, hwide⟩ := core
  refine ⟨k, inn, inn1, hk, hinn, hinn1, ?_, ?_, ?_⟩
  · rw [hfilter, hov, currentOvers_eq_floor]
  · intro hall
    have hlen : legalDeliveries inn1.balls = inn1.balls.length := by
      apply legalDeliveries_all
      intro b hb
      simpa [isLegalDelivery, or_assoc] using hall b hb
    rw [hlen] at hov
    refine ⟨by rw [hov, currentOvers_eq_floor], ?_, ?_⟩
    · intro h7
      rw [hov, h7]
      norm_num [currentOvers]
    · intro h12
      rw [hov, h12]
      norm_num [currentOvers]
  · intro hadd hw hcons
    rw [hov, hwide hadd hw, hcons]

/-- Witness of `overs_follow_ledger`: the first single of the fresh match is
accepted and the innings stands at one legal delivery. -/
theorem overs_follow_ledger_witness :
    addBall sampleEnv (some freshMatch) [] singleRequest =
        .ok (matchAfterSingle, statsAfterSingle) ∧
      ∃ k inn1, matchAfterSingle.innings k = some inn1 ∧
        inn1.overs =
          ((⌊((inn1.balls.filter (fun b =>
              b.ballType = .regular ∨ b.ballType = .legbye ∨ b.ballType = .bye)).length : ℚ) / 6⌋₊ : ℕ) : ℚ)
          + (((inn1.balls.filter (fun b =>
              b.ballType = .regular ∨ b.ballType = .legbye ∨ b.ballType = .bye)).length % 6 : ℕ) : ℚ) / 10 := by
  refine ⟨by with_unfolding_all rfl, ?_⟩
  obtain ⟨k, _, inn1, _, _, h1, h2, _⟩ :=
    overs_follow_ledger sampleEnv freshMatch [] singleRequest matchAfterSingle statsAfterSingle
      (Or.inl (by with_unfolding_all rfl))
  exact ⟨k, inn1, h1, h2⟩

/-- One more legal delivery never lowers the overs. -/
theorem currentOvers_le_succ (L : ℕ) : currentOvers L ≤ currentOvers (L + 1) := by
  have h : ((L + 1) / 6 = L / 6 + 1 ∧ (L + 1) % 6 = 0 ∧ L % 6 = 5) ∨
      ((L + 1) / 6 = L / 6 ∧ (L + 1) % 6 = L % 6 + 1) := by omega
  unfold currentOvers
  rcases h with ⟨h1, h2, h3⟩ | ⟨h1, h2⟩
  · rw [h1, h2, h3]
    push_cast
    norm_num
  · rw [h1, h2]
    push_cast
    linarith

/-- The second write of an innings wins. -/
theorem setInnings_setInnings (m : Match) (k : InningsKey) (a b : Innings) :
    (m.setInnings k a).setInnings k b = m.setInnings k b := by
  cases k <;> rfl

/-- Writing back the innings that was read changes nothing. -/
theorem setInnings_self (m : Match) (k : InningsKey) (inn : Innings)
    (h : m.innings k = some inn) : m.setInnings k inn = m := by
  cases k <;> simp [Match.innings] at h <;> simp [Match.setInnings, ← h]

/-- Writing an innings leaves the match identifier alone. -/
theorem setInnings_id (m : Match) (k : InningsKey) (inn : Innings) :
    (m.setInnings k inn).id = m.id := by
  cases k <;> rfl

/-- The completion test of lines 1135 and 2187. -/
theorem addBallInnings_consistent (t : Tournament) (inn : Innings) (ball : Ball) (isWicket : Bool)
    (hovers : inn.overs = currentOvers (legalDeliveries inn.balls))
    (hcomplete : inn.isComplete = true ↔ (inn.overs ≥ t.oversPerInnings ∨ inn.wickets ≥ 10)) :
    (addBallInnings (some t) inn ball isWicket).overs =
        currentOvers (legalDeliveries (addBallInnings (some t) inn ball isWicket).balls) ∧
      ((addBallInnings (some t) inn ball isWicket).isComplete = true ↔
        ((addBallInnings (some t) inn ball isWicket).overs ≥ t.oversPerInnings ∨
          (addBallInnings (some t) inn ball isWicket).wickets ≥ 10)) := by
  refine ⟨rfl, ?_⟩
  have hmono : inn.overs ≤ currentOvers (legalDeliveries (inn.balls ++ [ball])) := by
    rw [hovers, legalDeliveries_append]
    split
    · exact currentOvers_le_succ _
    · exact le_refl _
  have hw : inn.wickets ≤ (if isWicket then inn.wickets + 1 else inn.wickets) := by
    split <;> omega
  simp only [addBallInnings]
  by_cases hthr : currentOvers (legalDeliveries (inn.balls ++ [ball])) ≥ t.oversPerInnings ∨
      (if isWicket then inn.wickets + 1 else inn.wickets) ≥ 10
  · rw [if_pos hthr]
    simp only [true_iff]
    exact hthr
  · rw [if_neg hthr, hcomplete]
    constructor
    · rintro (h | h)
      · exact Or.inl (le_trans h hmono)
      · exact Or.inr (le_trans h hw)
    · intro h
      exact absurd h hthr

/-- On such an innings, popping the ball that was just pushed gives the
innings back. -/
theorem undo_addBallInnings (t : Tournament) (inn : Innings) (ball : Ball)
    (hovers : inn.overs = currentOvers (legalDeliveries inn.balls))
    (hcomplete : inn.isComplete = true ↔ (inn.overs ≥ t.oversPerInnings ∨ inn.wickets ≥ 10)) :
    undoBallInnings (some t) (addBallInnings (some t) inn ball ball.isWicket) ball = inn := by
  have hw : (if ball.isWicket = true then
      (if ball.isWicket = true then inn.wickets + 1 else inn.wickets) - 1
      else (if ball.isWicket = true then inn.wickets + 1 else inn.wickets)) = inn.wickets := by
    split <;> omega
  have hc : (decide (t.oversPerInnings ≤ inn.overs) || decide (10 ≤ inn.wickets)) =
      inn.isComplete := by
    by_cases h : inn.overs ≥ t.oversPerInnings ∨ inn.wickets ≥ 10
    · rw [hcomplete.mpr h]
      simpa using h
    · cases hi : inn.isComplete with
      | false => simpa using h
      | true => exact absurd (hcomplete.mp hi) h
  cases inn
  simp only [undoBallInnings, addBallInnings, List.dropLast_concat] at *
  simp only [hw, ← hovers]
  simpa using hc

/-! ## Lemmas on the statistics collection -/

/-- A found record has the key it was looked up by. -/
theorem findStats_key (store : StatsStore) (p tm : ObjectId) (ps : PlayerStats)
    (h : findStats store p tm = some ps) : ps.player = p ∧ ps.team = tm := by
  unfold findStats at h
  have := List.find?_some h
  simpa using this

/-- Lookup in a collection with one more record at its end. -/
theorem findStats_append (store : StatsStore) (r : PlayerStats) (p tm : ObjectId) :
    findStats (store ++ [r]) p tm =
      match findStats store p tm with
      | some x => some x
      | none => if r.player = p ∧ r.team = tm then some r else none := by
  unfold findStats
  rw [List.find?_append]
  cases h : List.find? (fun r => decide (r.player = p) && decide (r.team = tm)) store with
  | some x => simp
  | none =>
    by_cases hr : r.player = p ∧ r.team = tm
    · simp [hr, List.find?]
    · have : (decide (r.player = p) && decide (r.team = tm)) = false := by
        simpa using hr
      simp [hr, List.find?, this]

/-- Lookup of the saved record after a save. -/
theorem findStats_save_same (store : StatsStore) (r0 r1 : PlayerStats)
    (h : findStats store r1.player r1.team = some r0) :
    findStats (saveStats store r1) r1.player r1.team = some r1 := by
  induction store with
  | nil => simp [findStats] at h
  | cons x xs ih =>
    unfold saveStats
    by_cases hx : x.player = r1.player ∧ x.team = r1.team
    · simp [hx, findStats]
    · have hx1 : (decide (x.player = r1.player) && decide (x.team = r1.team)) = false := by
        simpa using hx
      rw [if_neg (by simpa using hx)]
      unfold findStats at h ih ⊢
      rw [List.find?_cons, hx1] at h
      rw [List.find?_cons, hx1]
      exact ih h

/-- Lookup of another key after a save. -/
theorem findStats_save_other (store : StatsStore) (r1 : PlayerStats) (p tm : ObjectId)
    (hne : ¬ (r1.player = p ∧ r1.team = tm)) :
    findStats (saveStats store r1) p tm = findStats store p tm := by
  induction store with
  | nil => rfl
  | cons x xs ih =>
    unfold saveStats
    by_cases hx : x.player = r1.player ∧ x.team = r1.team
    · have h1 : (decide (r1.player = p) && decide (r1.team = tm)) = false := by simpa using hne
      have h2 : (decide (x.player = p) && decide (x.team = tm)) = false := by
        rw [hx.1, hx.2]; exact h1
      rw [if_pos (by simpa using hx)]
      unfold findStats
      rw [List.find?_cons, h1, List.find?_cons, h2]
    · rw [if_neg (by simpa using hx)]
      unfold findStats at ih ⊢
      rw [List.find?_cons, List.find?_cons, ih]

/-- `StoreKeeps` is reflexive. -/
theorem storeKeeps_refl (Q : PlayerStats → Prop) (store : StatsStore) :
    StoreKeeps Q store store :=
  fun _ _ h => h

/-- `StoreKeeps` is transitive. -/
theorem storeKeeps_trans (Q : PlayerStats → Prop) (a b c : StatsStore)
    (h1 : StoreKeeps Q a b) (h2 : StoreKeeps Q b c) : StoreKeeps Q a c :=
  fun p tm h => h2 p tm (h1 p tm h)

/-- Creating a record that satisfies `Q` keeps `Q`. -/
theorem storeKeeps_append (Q : PlayerStats → Prop) (store : StatsStore) (r : PlayerStats)
    (hr : Q r) : StoreKeeps Q store (store ++ [r]) := by
  intro p tm h ps1 h1
  rw [findStats_append] at h1
  cases hf : findStats store p tm with
  | some x =>
    rw [hf] at h1
    simp at h1
    subst h1
    exact h x hf
  | none =>
    rw [hf] at h1
    simp at h1
    rw [← h1.2]
    exact hr

/-- Saving an update that preserves `Q` keeps `Q`. -/
theorem storeKeeps_save (Q : PlayerStats → Prop) (store : StatsStore) (r0 r1 : PlayerStats)
    (hfind : findStats store r1.player r1.team = some r0) (hQ : Q r0 → Q r1) :
    StoreKeeps Q store (saveStats store r1) := by
  intro p tm h ps1 h1
  by_cases hk : r1.player = p ∧ r1.team = tm
  · obtain ⟨hp, ht⟩ := hk
    subst hp ht
    rw [findStats_save_same store r0 r1 hfind] at h1
    cases h1
    exact hQ (h r0 hfind)
  · rw [findStats_save_other store r1 p tm hk] at h1
    exact h ps1 h1

/-- Reading back a written partition. -/
theorem careerStats_get_set (c : CareerStats) (bt : CricketBallType) (v : TypeStats) :
    (c.set bt v).get bt = v := by
  cases bt <;> rfl

/-- An updated striker record keeps its key and its sub-records. -/
theorem strikerAddExisting_ok (matchId : ObjectId) (bt : CricketBallType) (runs : Int)
    (ps ps1 : PlayerStats) (h : strikerAddExisting matchId bt runs ps = .ok ps1) :
    ps1.player = ps.player ∧ ps1.team = ps.team ∧ hasBatting bt ps1 ∧
      (hasBowling bt ps → hasBowling bt ps1) := by
  unfold strikerAddExisting at h
  split at h
  · simp at h
  · simp only at h
    generalize jsDiv _ _ = q at h
    cases q with
    | none => simp at h
    | some q =>
      simp only [Except.ok.injEq] at h
      subst h
      simp [hasBatting, hasBowling, careerStats_get_set]

/-- An updated bowler record keeps its key and its sub-records. -/
theorem bowlerAddExisting_ok (matchId : ObjectId) (bt : CricketBallType)
    (ballType : Option BallType) (totalRuns : Int) (isWicket : Bool)
    (ps ps1 : PlayerStats)
    (h : bowlerAddExisting matchId bt ballType totalRuns isWicket ps = .ok ps1) :
    ps1.player = ps.player ∧ ps1.team = ps.team ∧ hasBowling bt ps1 ∧
      (hasBatting bt ps → hasBatting bt ps1) := by
  unfold bowlerAddExisting at h
  split at h
  · simp at h
  · simp only at h
    generalize jsDiv _ _ = q at h
    cases q with
    | none => simp at h
    | some q =>
      simp only [Except.ok.injEq] at h
      subst h
      simp [hasBatting, hasBowling, careerStats_get_set]

/-- The striker update of the undo succeeds on a record with a batting
sub-record. -/
theorem strikerUndoExisting_ok (matchId : ObjectId) (bt : CricketBallType) (lastBall : Ball)
    (ps : PlayerStats) (hb : hasBatting bt ps) :
    ∃ ps1, strikerUndoExisting matchId bt lastBall ps = .ok ps1 ∧
      ps1.player = ps.player ∧ ps1.team = ps.team ∧ hasBatting bt ps1 ∧
      (hasBowling bt ps → hasBowling bt ps1) := by
  unfold strikerUndoExisting
  unfold hasBatting at hb
  cases hbat : (ps.careerStats.get bt).batting with
  | none => rw [hbat] at hb; simp at hb
  | some b =>
    simp only
    refine ⟨_, rfl, rfl, rfl, ?_, ?_⟩
    · simp [hasBatting, careerStats_get_set]
    · simp [hasBowling, careerStats_get_set]

/-- The bowler update of the undo succeeds on a record with a bowling
sub-record. -/
theorem bowlerUndoExisting_ok (matchId : ObjectId) (bt : CricketBallType) (lastBall : Ball)
    (ps : PlayerStats) (hb : hasBowling bt ps) :
    ∃ ps1, bowlerUndoExisting matchId bt lastBall ps = .ok ps1 ∧
      ps1.player = ps.player ∧ ps1.team = ps.team ∧ hasBowling bt ps1 ∧
      (hasBatting bt ps → hasBatting bt ps1) := by
  unfold bowlerUndoExisting
  unfold hasBowling at hb
  cases hbowl : (ps.careerStats.get bt).bowling with
  | none => rw [hbowl] at hb; simp at hb
  | some b =>
    simp only
    refine ⟨_, rfl, rfl, rfl, ?_, ?_⟩
    · simp [hasBowling, careerStats_get_set]
    · simp [hasBatting, careerStats_get_set]

/-- A created striker record carries both sub-records. -/
theorem newStrikerStats_has (matchId : ObjectId) (bt : CricketBallType) (p tm : ObjectId)
    (runs : Int) :
    hasBatting bt (newStrikerStats matchId bt p tm runs) ∧
      hasBowling bt (newStrikerStats matchId bt p tm runs) := by
  simp [hasBatting, hasBowling, newStrikerStats, careerStats_get_set]

/-- A created bowler record carries both sub-records. -/
theorem newBowlerStats_has (matchId : ObjectId) (bt : CricketBallType) (p tm : ObjectId)
    (ballType : Option BallType) (totalRuns : Int) (isWicket : Bool) :
    hasBatting bt (newBowlerStats matchId bt p tm ballType totalRuns isWicket) ∧
      hasBowling bt (newBowlerStats matchId bt p tm ballType totalRuns isWicket) := by
  simp [hasBatting, hasBowling, newBowlerStats, careerStats_get_set]

/-- The striker part of an accepted `addBall` on the collection. -/
theorem strikerStatsOnAdd_ok (matchId : ObjectId) (bt : CricketBallType)
    (team : Option ObjectId) (striker : ObjectId) (runs : Int) (store store1 : StatsStore)
    (h : strikerStatsOnAdd matchId bt team striker runs store = .ok store1) :
    StoreKeeps (hasBatting bt) store store1 ∧ StoreKeeps (hasBowling bt) store store1 ∧
      (∀ tm ps, team = some tm → findStats store1 striker tm = some ps → hasBatting bt ps) := by
  unfold strikerStatsOnAdd at h
  split at h
  · simp at h
  · rename_i tm
    split at h
    · rename_i hnone
      simp at h
      subst h
      have hnew := newStrikerStats_has matchId bt striker tm runs
      refine ⟨storeKeeps_append _ _ _ hnew.1, storeKeeps_append _ _ _ hnew.2, ?_⟩
      intro tm1 ps htm hf
      cases htm
      rw [findStats_append, hnone] at hf
      simp at hf
      rw [← hf.2]
      exact hnew.1
    · rename_i ps hfound
      split at h
      · rename_i ps1 hps1
        simp at h
        subst h
        obtain ⟨hp, ht, hbat, hbowl⟩ := strikerAddExisting_ok _ _ _ _ _ hps1
        obtain ⟨kp, kt⟩ := findStats_key _ _ _ _ hfound
        have hfind : findStats store ps1.player ps1.team = some ps := by
          rw [hp, ht, kp, kt]; exact hfound
        refine ⟨storeKeeps_save _ _ _ _ hfind (fun _ => hbat),
          storeKeeps_save _ _ _ _ hfind hbowl, ?_⟩
        intro tm1 ps2 htm hf
        cases htm
        have := findStats_save_same store ps ps1 hfind
        rw [hp, ht, kp, kt] at this
        rw [this] at hf
        cases hf
        exact hbat
      · simp at h

/-- The bowler part of an accepted `addBall` on the collection. -/
theorem bowlerStatsOnAdd_ok (matchId : ObjectId) (bt : CricketBallType)
    (team : Option ObjectId) (bowler : ObjectId) (ballType : Option BallType) (totalRuns : Int)
    (isWicket : Bool) (store store1 : StatsStore)
    (h : bowlerStatsOnAdd matchId bt team bowler ballType totalRuns isWicket store = .ok store1) :
    StoreKeeps (hasBatting bt) store store1 ∧ StoreKeeps (hasBowling bt) store store1 ∧
      (∀ tm ps, team = some tm → findStats store1 bowler tm = some ps → hasBowling bt ps) := by
  unfold bowlerStatsOnAdd at h
  split at h
  · simp at h
  · rename_i tm
    split at h
    · rename_i hnone
      simp at h
      subst h
      have hnew := newBowlerStats_has matchId bt bowler tm ballType totalRuns isWicket
      refine ⟨storeKeeps_append _ _ _ hnew.1, storeKeeps_append _ _ _ hnew.2, ?_⟩
      intro tm1 ps htm hf
      cases htm
      rw [findStats_append, hnone] at hf
      simp at hf
      rw [← hf.2]
      exact hnew.2
    · rename_i ps hfound
      split at h
      · rename_i ps1 hps1
        simp at h
        subst h
        obtain ⟨hp, ht, hbowl, hbat⟩ := bowlerAddExisting_ok _ _ _ _ _ _ _ hps1
        obtain ⟨kp, kt⟩ := findStats_key _ _ _ _ hfound
        have hfind : findStats store ps1.player ps1.team = some ps := by
          rw [hp, ht, kp, kt]; exact hfound
        refine ⟨storeKeeps_save _ _ _ _ hfind hbat,
          storeKeeps_save _ _ _ _ hfind (fun _ => hbowl), ?_⟩
        intro tm1 ps2 htm hf
        cases htm
        have := findStats_save_same store ps ps1 hfind
        rw [hp, ht, kp, kt] at this
        rw [this] at hf
        cases hf
        exact hbowl
      · simp at h

/-- The striker part of `undoBall` succeeds when the record is ready. -/
theorem strikerStatsOnUndo_ok (matchId : ObjectId) (bt : CricketBallType)
    (team : Option ObjectId) (lastBall : Ball) (store : StatsStore)
    (hready : ∀ tm ps, team = some tm → findStats store lastBall.striker tm = some ps →
      hasBatting bt ps) :
    ∃ store1, strikerStatsOnUndo matchId bt team lastBall store = .ok store1 ∧
      StoreKeeps (hasBatting bt) store store1 ∧ StoreKeeps (hasBowling bt) store store1 := by
  unfold strikerStatsOnUndo
  cases hteam : team with
  | none => exact ⟨store, rfl, storeKeeps_refl _ _, storeKeeps_refl _ _⟩
  | some tm =>
    simp only [Option.bind]
    cases hf : findStats store lastBall.striker tm with
    | none => exact ⟨store, rfl, storeKeeps_refl _ _, storeKeeps_refl _ _⟩
    | some ps =>
      obtain ⟨ps1, hps1, hp, ht, hbat, hbowl⟩ :=
        strikerUndoExisting_ok matchId bt lastBall ps (hready tm ps hteam hf)
      obtain ⟨kp, kt⟩ := findStats_key _ _ _ _ hf
      have hfind : findStats store ps1.player ps1.team = some ps := by
        rw [hp, ht, kp, kt]; exact hf
      simp only [hps1]
      exact ⟨_, rfl, storeKeeps_save _ _ _ _ hfind (fun _ => hbat),
        storeKeeps_save _ _ _ _ hfind hbowl⟩

/-- The bowler part of `undoBall` succeeds when the record is ready. -/
theorem bowlerStatsOnUndo_ok (matchId : ObjectId) (bt : CricketBallType)
    (team : Option ObjectId) (lastBall : Ball) (store : StatsStore)
    (hready : ∀ tm ps, team = some tm → findStats store lastBall.bowler tm = some ps →
      hasBowling bt ps) :
    ∃ store1, bowlerStatsOnUndo matchId bt team lastBall store = .ok store1 ∧
      StoreKeeps (hasBatting bt) store store1 ∧ StoreKeeps (hasBowling bt) store store1 := by
  unfold bowlerStatsOnUndo
  cases hteam : team with
  | none => exact ⟨store, rfl, storeKeeps_refl _ _, storeKeeps_refl _ _⟩
  | some tm =>
    simp only [Option.bind]
    cases hf : findStats store lastBall.bowler tm with
    | none => exact ⟨store, rfl, storeKeeps_refl _ _, storeKeeps_refl _ _⟩
    | some ps =>
      obtain ⟨ps1, hps1, hp, ht, hbowl, hbat⟩ :=
        bowlerUndoExisting_ok matchId bt lastBall ps (hready tm ps hteam hf)
      obtain ⟨kp, kt⟩ := findStats_key _ _ _ _ hf
      have hfind : findStats store ps1.player ps1.team = some ps := by
        rw [hp, ht, kp, kt]; exact hf
      simp only [hps1]
      exact ⟨_, rfl, storeKeeps_save _ _ _ _ hfind hbat,
        storeKeeps_save _ _ _ _ hfind (fun _ => hbowl)⟩

/-- Readiness of a ball survives every step that keeps the sub-records. -/
theorem ballReady_keeps (bt : CricketBallType) (battingTeam bowlingTeam : Option ObjectId)
    (b : Ball) (store store1 : StatsStore)
    (h1 : StoreKeeps (hasBatting bt) store store1) (h2 : StoreKeeps (hasBowling bt) store store1)
    (h : BallReady bt battingTeam bowlingTeam b store) :
    BallReady bt battingTeam bowlingTeam b store1 := by
  refine ⟨?_, ?_⟩
  · intro hw tm ps htm hf
    exact h1 b.striker tm (fun ps0 h0 => h.1 hw tm ps0 htm h0) ps hf
  · intro tm ps htm hf
    exact h2 b.bowler tm (fun ps0 h0 => h.2 tm ps0 htm h0) ps hf

/-- An accepted `addBall` keeps the sub-records of every key and leaves the
records of the ball's striker and bowler ready for its undo. -/
theorem addBall_store (env : Env) (found : Option Match) (store : StatsStore) (req : BallRequest)
    (m1 : Match) (store2 : StatsStore) (h : addBall env found store req = .ok (m1, store2)) :
    ∃ c m inn ballType wicketType t,
      checkBallRequest req = .ok c ∧ found = some m ∧ m.innings c.key = some inn ∧
      env.tournament = some t ∧
      m1 = m.setInnings c.key
        (addBallInnings (some t) inn (makeBall env req c ballType wicketType)
          (makeBall env req c ballType wicketType).isWicket) ∧
      StoreKeeps (hasBatting t.ballType) store store2 ∧
      StoreKeeps (hasBowling t.ballType) store store2 ∧
      BallReady t.ballType inn.battingTeam inn.bowlingTeam
        (makeBall env req c ballType wicketType) store2 := by
  obtain ⟨c, m, inn, bt, wt, t, store1, hc, hf, hinn, hcast, ht, hm1, hs1, hs2⟩ :=
    addBall_ok env found store req m1 store2 h
  have e2 := bowlerStatsOnAdd_ok _ _ _ _ _ _ _ _ _ hs2
  refine ⟨c, m, inn, bt, wt, t, hc, hf, hinn, ht, hm1, ?_, ?_, ?_, ?_⟩
  · by_cases hw : bt ≠ some .wide
    · rw [if_pos hw] at hs1
      have e1 := strikerStatsOnAdd_ok _ _ _ _ _ _ _ hs1
      exact storeKeeps_trans _ _ _ _ e1.1 e2.1
    · rw [if_neg hw] at hs1
      cases hs1
      exact e2.1
  · by_cases hw : bt ≠ some .wide
    · rw [if_pos hw] at hs1
      have e1 := strikerStatsOnAdd_ok _ _ _ _ _ _ _ hs1
      exact storeKeeps_trans _ _ _ _ e1.2.1 e2.2.1
    · rw [if_neg hw] at hs1
      cases hs1
      exact e2.2.1
  · intro hnw tm ps htm hfind
    have hw : bt ≠ some .wide := by
      intro hbt
      apply hnw
      subst hbt
      rfl
    rw [if_pos hw] at hs1
    have e1 := strikerStatsOnAdd_ok _ _ _ _ _ _ _ hs1
    exact e2.1 c.striker tm (fun ps0 h0 => e1.2.2 tm ps0 htm h0) ps hfind
  · intro tm ps htm hfind
    exact e2.2.2 tm ps htm hfind

/-- On a ledger whose last ball is ready, `undoBall` succeeds. -/
theorem undoBall_succeeds (env : Env) (m : Match) (store : StatsStore) (innings : Option String)
    (k : InningsKey) (inn : Innings) (lastBall : Ball) (t : Tournament)
    (hk : innings.bind parseInningsKey = some k) (hinn : m.innings k = some inn)
    (hlast : inn.balls.getLast? = some lastBall) (ht : env.tournament = some t)
    (hready : BallReady t.ballType inn.battingTeam inn.bowlingTeam lastBall store) :
    ∃ store2, undoBall env (some m) store innings =
        .ok (m.setInnings k (undoBallInnings (some t) inn lastBall), store2) ∧
      StoreKeeps (hasBatting t.ballType) store store2 ∧
      StoreKeeps (hasBowling t.ballType) store store2 := by
  unfold undoBall
  simp only [hk, hinn, hlast, ht]
  have hteams : (undoBallInnings (some t) inn lastBall).battingTeam = inn.battingTeam ∧
      (undoBallInnings (some t) inn lastBall).bowlingTeam = inn.bowlingTeam := ⟨rfl, rfl⟩
  rw [hteams.1, hteams.2]
  by_cases hw : lastBall.ballType ≠ .wide
  · rw [if_pos hw]
    obtain ⟨store1, hs1, k1, k2⟩ :=
      strikerStatsOnUndo_ok m.id t.ballType inn.battingTeam lastBall store (hready.1 hw)
    have hready1 := ballReady_keeps _ _ _ _ _ _ k1 k2 hready
    obtain ⟨store2, hs2, k3, k4⟩ :=
      bowlerStatsOnUndo_ok m.id t.ballType inn.bowlingTeam lastBall store1 hready1.2
    simp only [hs1, hs2]
    exact ⟨store2, rfl, storeKeeps_trans _ _ _ _ k1 k3, storeKeeps_trans _ _ _ _ k2 k4⟩
  · rw [if_neg hw]
    obtain ⟨store2, hs2, k3, k4⟩ :=
      bowlerStatsOnUndo_ok m.id t.ballType inn.bowlingTeam lastBall store hready.2
    simp only [hs2]
    exact ⟨store2, rfl, k3, k4⟩

/-- One more undo, taken at the end of the sequence. -/
theorem undoBalls_succ (env : Env) (innings : Option String) (n : Nat)
    (state : Match × StatsStore) :
    undoBalls env innings (n + 1) state =
      (undoBalls env innings n state).bind
        (fun s => undoBall env (some s.1) s.2 innings) := by
  induction n generalizing state with
  | zero =>
    simp only [undoBalls, Except.bind]
    cases undoBall env (some state.1) state.2 innings <;> rfl
  | succ n ih =>
    rw [undoBalls]
    conv_rhs => rw [undoBalls]
    cases h : undoBall env (some state.1) state.2 innings with
    | error e => rfl
    | ok s =>
      simp only [Except.bind]
      exact ih s

/-- The induction behind the add-then-undo property, with the statistics
invariant it needs. -/
theorem addBalls_undoBalls (t : Tournament) (uenv : Env) (innings : Option String)
    (k : InningsKey) (hk : innings.bind parseInningsKey = some k)
    (hu : uenv.tournament = some t) (calls : List (Env × BallRequest)) :
    ∀ (m : Match) (store : StatsStore) (inn : Innings) (m1 : Match) (store1 : StatsStore),
      m.innings k = some inn →
      (∀ c ∈ calls, c.1.tournament = some t ∧ c.2.innings.bind parseInningsKey = some k) →
      inn.overs = currentOvers (legalDeliveries inn.balls) →
      (inn.isComplete = true ↔ (inn.overs ≥ t.oversPerInnings ∨ inn.wickets ≥ 10)) →
      addBalls calls (m, store) = .ok (m1, store1) →
      ∃ store2, undoBalls uenv innings calls.length (m1, store1) = .ok (m, store2) ∧
        StoreKeeps (hasBatting t.ballType) store store2 ∧
        StoreKeeps (hasBowling t.ballType) store store2 := by
  induction calls with
  | nil =>
    intro m store inn m1 store1 _ _ _ _ hadd
    simp only [addBalls, Except.ok.injEq, Prod.mk.injEq] at hadd
    obtain ⟨h1, h2⟩ := hadd
    subst h1 h2
    exact ⟨store, rfl, storeKeeps_refl _ _, storeKeeps_refl _ _⟩
  | cons call rest ih =>
    intro m store inn m1 store1 hinn hcalls hovers hcomplete hadd
    obtain ⟨env, req⟩ := call
    rw [addBalls, bind_eq_ok] at hadd
    obtain ⟨⟨m0, store0⟩, hfirst, hrest⟩ := hadd
    obtain ⟨henv, hreq⟩ := hcalls (env, req) (List.mem_cons_self _ _)
    obtain ⟨c, mm, inn', bt, wt, t', hc, hf, hinn', ht', hm0, keep1, keep2, hready⟩ :=
      addBall_store env (some m) store req m0 store0 hfirst
    have hmm : m = mm := by cases hf; rfl
    subst hmm
    have hkey : c.key = k := by
      have := checkBallRequest_key req c hc
      rw [hreq] at this
      cases this
      rfl
    subst hkey
    have htt : t = t' := by
      rw [henv] at ht'
      cases ht'
      rfl
    subst htt
    rw [hinn] at hinn'
    cases hinn'
    have hcons := addBallInnings_consistent t inn (makeBall env req c bt wt)
      (makeBall env req c bt wt).isWicket hovers hcomplete
    have hinn0 : m0.innings c.key = some (addBallInnings (some t) inn (makeBall env req c bt wt)
        (makeBall env req c bt wt).isWicket) := by
      rw [hm0]; exact innings_setInnings _ _ _
    obtain ⟨store2, hundo, keep3, keep4⟩ :=
      ih m0 store0 _ m1 store1 hinn0
        (fun c hc => hcalls c (List.mem_cons_of_mem _ hc)) hcons.1 hcons.2 hrest
    have hready2 := ballReady_keeps _ _ _ _ _ _ keep3 keep4 hready
    have hlast : (addBallInnings (some t) inn (makeBall env req c bt wt)
        (makeBall env req c bt wt).isWicket).balls.getLast? = some (makeBall env req c bt wt) := by
      simp [addBallInnings]
    obtain ⟨store3, hlastUndo, keep5, keep6⟩ :=
      undoBall_succeeds uenv m0 store2 innings c.key _ _ t hk hinn0 hlast hu hready2
    refine ⟨store3, ?_, storeKeeps_trans _ _ _ _ keep1 (storeKeeps_trans _ _ _ _ keep3 keep5),
      storeKeeps_trans _ _ _ _ keep2 (storeKeeps_trans _ _ _ _ keep4 keep6)⟩
    rw [List.length_cons, undoBalls_succ, hundo]
    simp only [Except.bind]
    rw [hlastUndo, undo_addBallInnings t inn _ hovers hcomplete, hm0, setInnings_setInnings,
      setInnings_self m c.key inn hinn]

/-- Claim C2 fails as stated: on `chaseMatch`, whose first innings was closed
by declaration, one accepted `addBall` followed by one `undoBall` leaves the
first innings with `isComplete = false` (it was true), the declaration and the
ledger being as before. -/
theorem add_undo_reopens_declared_innings :
    ((addBalls [(sampleEnv, thirdBallRequest)] (chaseMatch, [])).bind
        (undoBalls sampleEnv (some "firstInnings") 1)).toOption.map
          (fun r => r.1.firstInnings.map
            (fun i => (i.isComplete, i.declarationInfo.isDeclared, i.balls.length))) =
        some (some (false, true, 2)) ∧
      chaseMatch.firstInnings.map
          (fun i => (i.isComplete, i.declarationInfo.isDeclared, i.balls.length)) =
        some (true, true, 2) := by
  constructor <;> with_unfolding_all rfl

/-- Claim C2 as amended: let the innings' stored overs agree with its ledger
and its `isComplete` flag agree with the completion test (overs at least
`oversPerInnings`, or ten wickets) before the sequence.  Then any sequence of
accepted `addBall` calls on that innings followed by as many `undoBall`
calls succeeds and stores exactly the match document that was stored before
the sequence. -/
theorem add_then_undo_restores_match (t : Tournament) (uenv : Env) (innings : Option String)
    (k : InningsKey) (calls : List (Env × BallRequest)) (m : Match) (store : StatsStore)
    (inn : Innings) (m1 : Match) (store1 : StatsStore)
    (hk : innings.bind parseInningsKey = some k) (hu : uenv.tournament = some t)
    (hinn : m.innings k = some inn)
    (hcalls : ∀ c ∈ calls, c.1.tournament = some t ∧ c.2.innings.bind parseInningsKey = some k)
    (hovers : inn.overs = currentOvers (legalDeliveries inn.balls))
    (hcomplete : inn.isComplete = true ↔ (inn.overs ≥ t.oversPerInnings ∨ inn.wickets ≥ 10))
    (hadd : addBalls calls (m, store) = .ok (m1, store1)) :
    ∃ store2, undoBalls uenv innings calls.length (m1, store1) = .ok (m, store2) := by
  obtain ⟨store2, h, _⟩ :=
    addBalls_undoBalls t uenv innings k hk hu calls m store inn m1 store1 hinn hcalls hovers
      hcomplete hadd
  exact ⟨store2, h⟩

/-- Witness of `add_then_undo_restores_match`: the first single of the fresh
match, then its undo. -/
theorem add_then_undo_restores_match_witness :
    ∃ store2, undoBalls sampleEnv (some "firstInnings") 1 (matchAfterSingle, statsAfterSingle) =
      .ok (freshMatch, store2) :=
  add_then_undo_restores_match sampleTournament sampleEnv (some "firstInnings") .firstInnings
    [(sampleEnv, singleRequest)] freshMatch [] { battingTeam := some 10, bowlingTeam := some 11 }
    matchAfterSingle statsAfterSingle rfl rfl rfl
    (by intro c hc; simp at hc; subst hc; exact ⟨rfl, rfl⟩)
    (by with_unfolding_all rfl)
    (by constructor
        · intro h; cases h
        · intro h; exfalso; revert h; norm_num [sampleTournament])
    (by with_unfolding_all rfl)

/-! ## Claims on the statistics projection -/

/-- Claim C3, evaluated on the code: after the accepted single of
`regularSingleRequest` the striker (player 100, team 10) has 1 career run off
1 ball.  The no-ball of `noBallRequest` (`runs: 1`, `extraRuns: 1`) is accepted
and then undone: the match document and the bowler's record are as before,
but the striker's career runs and per-match runs are 0, not 1.  `addBall`
credits the striker with `runs` (1), `undoBall` debits the ball's total
`lastBall.runs` (2, extras included). -/
theorem undo_debits_extras_from_striker :
    addBall sampleEnv (some freshMatch) [] regularSingleRequest =
        .ok (matchAfterRegularSingle, statsAfterRegularSingle) ∧
      (addBall sampleEnv (some matchAfterRegularSingle) statsAfterRegularSingle noBallRequest).bind
          (fun r => undoBall sampleEnv (some r.1) r.2 (some "firstInnings")) =
        .ok (matchAfterRegularSingle, statsAfterNoBallUndo) ∧
      (findStats statsAfterRegularSingle 100 10).map
          (fun ps => ps.careerStats.white.batting.map (fun b => (b.runs, b.balls))) =
        some (some (1, 1)) ∧
      (findStats statsAfterNoBallUndo 100 10).map
          (fun ps => ps.careerStats.white.batting.map (fun b => (b.runs, b.balls))) =
        some (some (0, 1)) ∧
      findStats statsAfterNoBallUndo 200 11 = findStats statsAfterRegularSingle 200 11 := by
  refine ⟨?_, ?_, ?_, ?_, ?_⟩ <;> with_unfolding_all rfl

/-! ## Lemmas on the ledger invariants -/

/-- The wicket entries of a ledger with one more ball. -/
theorem wicketBalls_append (balls : List Ball) (b : Ball) :
    wicketBalls (balls ++ [b]) = wicketBalls balls + (if b.isWicket then 1 else 0) := by
  unfold wicketBalls
  rw [List.filter_append]
  cases hb : b.isWicket <;> simp [hb]

/-- A ledger is its shortened ledger followed by its last ball. -/
theorem balls_eq_dropLast_append (balls : List Ball) (last : Ball)
    (h : balls.getLast? = some last) : balls = balls.dropLast ++ [last] :=
  (List.dropLast_append_getLast? last (by simp [h])).symm

/-- The annotation of a ball keeps its runs, wicket flag and ball type. -/
theorem annotateBall_frame (req : UpdateBallRequest) (b : Ball) :
    (annotateBall req b).runs = b.runs ∧ (annotateBall req b).isWicket = b.isWicket ∧
      (annotateBall req b).ballType = b.ballType ∧ (annotateBall req b).id = b.id := by
  unfold annotateBall
  split <;> simp

/-- Annotating the ledger keeps its wicket entries. -/
theorem wicketBalls_annotate (req : UpdateBallRequest) (balls : List Ball) :
    wicketBalls (balls.map (annotateBall req)) = wicketBalls balls := by
  unfold wicketBalls
  congr 1
  induction balls with
  | nil => rfl
  | cons b bs ih =>
    simp only [List.map_cons, List.filter_cons, (annotateBall_frame req b).2.1]
    split <;> simp [ih]

/-- Annotating the ledger keeps the runs of every entry. -/
theorem runs_annotate (req : UpdateBallRequest) (balls : List Ball) :
    (balls.map (annotateBall req)).map (fun b => b.runs) = balls.map (fun b => b.runs) := by
  rw [List.map_map]
  apply List.map_congr_left
  intro b _
  exact (annotateBall_frame req b).1

/-- Annotating the ledger keeps its legal deliveries. -/
theorem legalDeliveries_annotate (req : UpdateBallRequest) (balls : List Ball) :
    legalDeliveries (balls.map (annotateBall req)) = legalDeliveries balls := by
  unfold legalDeliveries
  induction balls with
  | nil => rfl
  | cons b bs ih =>
    have hb : isLegalDelivery (annotateBall req b) = isLegalDelivery b := by
      unfold isLegalDelivery
      rw [(annotateBall_frame req b).2.2.1]
    simp only [List.map_cons, List.filter_cons, hb]
    split <;> simp [ih]

/-- The signed runs of the corrections that one `updateBall` appends. -/
theorem signed_new_logs (env : Env) (req : UpdateBallRequest) (inn : Innings) :
    ((negativeRunLog env req ++ bonusRunLog env req).map signedHistoryRuns).sum =
      (updateBallInnings env req inn).totalRuns - inn.totalRuns := by
  unfold negativeRunLog bonusRunLog updateBallInnings
  cases hn : req.negativeRuns with
  | none =>
    cases hb : req.bonusRuns with
    | none => simp
    | some b =>
      by_cases hb0 : b > 0
      · simp [hb0, signedHistoryRuns]
      · simp [hb0]
  | some n =>
    cases hb : req.bonusRuns with
    | none =>
      by_cases hn0 : n > 0
      · simp [hn0, signedHistoryRuns]
      · simp [hn0]
    | some b =>
      by_cases hn0 : n > 0 <;> by_cases hb0 : b > 0 <;> simp [hn0, hb0, signedHistoryRuns]
      omega

/-- `Kept` is reflexive. -/
theorem kept_refl (a : Innings) : a.Kept a :=
  ⟨rfl, rfl, rfl, rfl, rfl, id⟩

/-- `Kept` is transitive. -/
theorem kept_trans (a b c : Innings) (h1 : a.Kept b) (h2 : b.Kept c) : a.Kept c := by
  obtain ⟨a1, a2, a3, a4, a5, a6⟩ := h1
  obtain ⟨b1, b2, b3, b4, b5, b6⟩ := h2
  exact ⟨b1.trans a1, b2.trans a2, b3.trans a3, b4.trans a4, b5.trans a5, fun h => b6 (a6 h)⟩

/-- A fresh innings satisfies the ledger invariants. -/
theorem fresh_consistent (inn : Innings) (h : inn.isFresh) :
    inn.Consistent ∧ inn.wickets ≤ 10 := by
  obtain ⟨h1, h2, _, h4, h5, _⟩ := h
  refine ⟨⟨?_, ?_, ?_⟩, ?_⟩
  · intro hw; rw [h2] at hw; omega
  · rw [h2, h4]; rfl
  · rw [h1, h4, h5]; rfl
  · rw [h2]; omega

/-- Every change of an innings by an accepted request keeps the ledger
invariants; when `addBall` is only issued on incomplete innings, it also keeps
the wickets at ten or less. -/
theorem move_consistent (guarded : Bool) (a b : Innings) (h : InningsMove guarded a b)
    (ha : a.Consistent) :
    b.Consistent ∧ (guarded = true → a.wickets ≤ 10 → b.wickets ≤ 10) := by
  obtain ⟨hc, hw, ht⟩ := ha
  cases h with
  | kept _ hk =>
    obtain ⟨k1, k2, k3, k4, k5, k6⟩ := hk
    refine ⟨⟨?_, ?_, ?_⟩, ?_⟩
    · intro h; rw [k3] at h; exact k6 (hc h)
    · rw [k3, k1]; exact hw
    · rw [k2, k1, k5]; exact ht
    · intro _ h; rw [k3]; exact h
  | added t ball hg =>
    refine ⟨⟨?_, ?_, ?_⟩, ?_⟩
    · intro h
      simp only [addBallInnings] at h ⊢
      rw [if_pos (Or.inr h)]
    · simp only [addBallInnings]
      rw [wicketBalls_append, ← hw]
      cases ball.isWicket <;> simp
    · simp only [addBallInnings]
      rw [List.map_append, List.sum_append, ht]
      simp
      omega
    · intro hgt _
      have hinc := hg hgt
      have : ¬ a.wickets ≥ 10 := by
        intro h
        rw [hc h] at hinc
        cases hinc
      simp only [addBallInnings]
      split <;> omega
  | undone t last hlast =>
    have hsplit := balls_eq_dropLast_append a.balls last hlast
    refine ⟨⟨?_, ?_, ?_⟩, ?_⟩
    · intro h
      simp only [undoBallInnings] at h ⊢
      rw [if_pos (Or.inr h)]
    · simp only [undoBallInnings]
      have := wicketBalls_append a.balls.dropLast last
      rw [← hsplit, ← hw] at this
      cases hl : last.isWicket <;> simp [hl] at this ⊢ <;> omega
    · simp only [undoBallInnings]
      have hs : (a.balls.map (fun b => b.runs)).sum =
          (a.balls.dropLast.map (fun b => b.runs)).sum + last.runs := by
        conv_lhs => rw [hsplit]
        rw [List.map_append, List.sum_append]
        simp
      rw [ht, hs]
      omega
    · intro _ h
      simp only [undoBallInnings]
      split <;> omega
  | corrected env req =>
    refine ⟨⟨?_, ?_, ?_⟩, ?_⟩
    · intro h
      exact hc h
    · show a.wickets = wicketBalls (a.balls.map (annotateBall req))
      rw [wicketBalls_annotate]; exact hw
    · have hs := signed_new_logs env req a
      show (updateBallInnings env req a).totalRuns =
        ((a.balls.map (annotateBall req)).map (fun b => b.runs)).sum +
          ((a.historyLogs ++ (negativeRunLog env req ++ bonusRunLog env req)).map
            signedHistoryRuns).sum
      rw [runs_annotate, List.map_append, List.sum_append, hs, ht]
      omega
    · intro _ h
      exact h

/-! ## Frames of the handlers on the innings -/

/-- Reading the other innings after a write. -/
theorem innings_setInnings_ne (m : Match) (k k1 : InningsKey) (inn : Innings) (h : k1 ≠ k) :
    (m.setInnings k inn).innings k1 = m.innings k1 := by
  cases k <;> cases k1 <;> first | rfl | exact absurd rfl h

/-- The status step leaves both innings alone. -/
theorem stepStatus_innings (status : Option MatchStatus) (s s1 : StatusState)
    (h : stepStatus status s = .ok s1) (k : InningsKey) :
    s1.doc.innings k = s.doc.innings k ∧ s1.doc.result = s.doc.result ∧
      s1.doc.currentOversPerInnings = s.doc.currentOversPerInnings := by
  have e := (stepStatus_ok status s s1 h).1
  rw [e]
  cases k <;> exact ⟨rfl, rfl, rfl⟩

/-- The DLS step leaves both innings alone. -/
theorem stepReviseTarget_innings (env : Env) (req : StatusRequest) (s s1 : StatusState)
    (h : stepReviseTarget env req s = .ok s1) (k : InningsKey) :
    s1.doc.innings k = s.doc.innings k ∧ s1.doc.result = s.doc.result ∧
      s1.doc.currentOversPerInnings = s.doc.currentOversPerInnings := by
  unfold stepReviseTarget at h
  split at h
  · simp at h
    subst h
    exact ⟨rfl, rfl, rfl⟩
  · split at h
    · split at h
      · simp at h
      · split at h
        · simp at h
          subst h
          cases k <;> exact ⟨rfl, rfl, rfl⟩
        · simp at h
    · simp at h

/-- The end-innings step writes the named innings only: it was not complete
and is now complete with its declaration. -/
theorem stepEndInnings_innings (env : Env) (req : StatusRequest) (s s1 : StatusState)
    (h : stepEndInnings env req s = .ok s1) :
    s1.doc.result = s.doc.result ∧
    s1.doc.currentOversPerInnings = s.doc.currentOversPerInnings ∧
    ((req.endInnings = false ∧ s1 = s) ∨
      (req.endInnings = true ∧ ∃ k inn, req.inningsToEnd.bind parseInningsKey = some k ∧
        s.doc.innings k = some inn ∧ inn.isComplete = false ∧
        s1.doc = s.doc.setInnings k
          { inn with
            isComplete := true
            declarationInfo :=
              { isDeclared := true
                reason := some (strOr req.reason "Tactical declaration")
                time := some env.now
                commentary := some (strOr req.commentary (k.label ++ " innings declared")) } })) := by
  unfold stepEndInnings at h
  split at h
  · rename_i hr
    simp at h hr
    subst h
    exact ⟨rfl, rfl, Or.inl ⟨hr, rfl⟩⟩
  · rename_i hr
    simp at hr
    split at h
    · simp at h
    · rename_i k hk
      split at h
      · simp at h
      · rename_i inn hinn
        split at h
        · simp at h
        · rename_i hc
          simp at h
          subst h
          refine ⟨by cases k <;> rfl, by cases k <;> rfl, Or.inr ⟨hr, k, inn, hk, hinn, ?_, rfl⟩⟩
          simpa using hc

/-- The loop body of the overs change on the innings it visits and on the
other one. -/
theorem reduceInnings_innings (env : Env) (req : StatusRequest) (n : ℚ) (k : InningsKey)
    (m : Match) :
    (reduceInnings env req n k m).innings k =
        (m.innings k).map (fun inn =>
          if inn.isComplete = false ∧ inn.overs ≥ n then
            { inn with
              isComplete := true
              oversReductionInfo :=
                { isReduced := true
                  reason := some (strOr req.reason "Match overs reduced")
                  time := some env.now
                  commentary := some (strOr req.commentary
                    (k.label ++ " innings completed due to reduction in overs")) } }
          else inn) ∧
      (∀ k1, k1 ≠ k → (reduceInnings env req n k m).innings k1 = m.innings k1) ∧
      (reduceInnings env req n k m).result = m.result ∧
      (reduceInnings env req n k m).currentOversPerInnings = m.currentOversPerInnings := by
  unfold reduceInnings
  cases hinn : m.innings k with
  | none =>
    refine ⟨?_, fun _ _ => ?_, ?_, ?_⟩
    · simp [hinn]
    · rfl
    · rfl
    · rfl
  | some inn =>
    simp only [Option.map]
    by_cases hc : inn.isComplete = false ∧ inn.overs ≥ n
    · have hc1 : (!inn.isComplete) = true ∧ inn.overs ≥ n := by simpa using hc
      rw [if_pos hc1, if_pos hc]
      refine ⟨innings_setInnings _ _ _, fun k1 h1 => innings_setInnings_ne _ _ _ _ h1, ?_, ?_⟩ <;>
        cases k <;> rfl
    · have hc1 : ¬ ((!inn.isComplete) = true ∧ inn.overs ≥ n) := by simpa using hc
      rw [if_neg hc1, if_neg hc]
      exact ⟨hinn, fun _ _ => rfl, rfl, rfl⟩

/-- The overs-change step: the new overs are stored and each innings goes
through the loop body once. -/
theorem stepChangeOvers_innings (env : Env) (req : StatusRequest) (s s1 : StatusState)
    (h : stepChangeOvers env req s = .ok s1) :
    s1.doc.result = s.doc.result ∧
    ((req.changeOvers = false ∧ s1 = s) ∨
      (req.changeOvers = true ∧ ∃ n, req.newTotalOvers = some n ∧ n > 0 ∧
        s1.doc.currentOversPerInnings = some n ∧
        ∀ k, s1.doc.innings k =
          (s.doc.innings k).map (fun inn =>
            if inn.isComplete = false ∧ inn.overs ≥ n then
              { inn with
                isComplete := true
                oversReductionInfo :=
                  { isReduced := true
                    reason := some (strOr req.reason "Match overs reduced")
                    time := some env.now
                    commentary := some (strOr req.commentary
                      (k.label ++ " innings completed due to reduction in overs")) } }
            else inn))) := by
  unfold stepChangeOvers at h
  split at h
  · rename_i hr
    simp at h hr
    subst h
    exact ⟨rfl, Or.inl ⟨hr, rfl⟩⟩
  · rename_i hr
    simp at hr
    split at h
    · simp at h
    · rename_i n hn
      split at h
      · simp at h
      · rename_i hpos
        simp only [Except.ok.injEq] at h
        subst h
        simp only
        have hpos1 : n > 0 := not_le.mp hpos
        refine ⟨?_, Or.inr ⟨hr, n, hn, hpos1, ?_, ?_⟩⟩
        · rw [(reduceInnings_innings _ _ _ _ _).2.2.1, (reduceInnings_innings _ _ _ _ _).2.2.1]
        · rw [(reduceInnings_innings _ _ _ _ _).2.2.2, (reduceInnings_innings _ _ _ _ _).2.2.2]
        · intro k
          cases k with
          | firstInnings =>
            rw [(reduceInnings_innings _ _ _ .secondInnings _).2.1 .firstInnings (by decide),
              (reduceInnings_innings _ _ _ .firstInnings _).1]
            rfl
          | secondInnings =>
            rw [(reduceInnings_innings _ _ _ .secondInnings _).1,
              (reduceInnings_innings _ _ _ .firstInnings _).2.1 .secondInnings (by decide)]
            rfl

/-- The end-match step leaves both innings and the result alone. -/
theorem stepEndMatch_innings (env : Env) (req : StatusRequest) (s s1 : StatusState)
    (h : stepEndMatch env req s = .ok s1) (k : InningsKey) :
    s1.doc.innings k = s.doc.innings k ∧ s1.doc.result = s.doc.result ∧
      s1.doc.currentOversPerInnings = s.doc.currentOversPerInnings := by
  unfold stepEndMatch at h
  split at h
  · simp at h
    subst h
    exact ⟨rfl, rfl, rfl⟩
  · split at h
    · simp at h
    · split at h
      · simp at h
      · simp at h
        subst h
        cases k <;> exact ⟨rfl, rfl, rfl⟩

/-- The result step leaves both innings alone. -/
theorem stepResult_innings (env : Env) (status : Option MatchStatus) (req : StatusRequest)
    (s s1 : StatusState) (h : stepResult env status req s = .ok s1) (k : InningsKey) :
    s1.doc.innings k = s.doc.innings k ∧
      s1.doc.currentOversPerInnings = s.doc.currentOversPerInnings := by
  unfold stepResult at h
  split at h
  · split at h
    · simp at h
      subst h
      cases k <;> exact ⟨rfl, rfl⟩
    · simp at h
  · simp at h
    subst h
    exact ⟨rfl, rfl⟩

/-- An accepted `updateMatchStatus` keeps the ledger and totals of both
innings; it can only complete them. -/
theorem updateMatchStatus_kept (env : Env) (m : Match) (req : StatusRequest) (s : StatusState)
    (h : updateMatchStatus env (some m) req = .ok s) (k : InningsKey) :
    (m.innings k = none ∧ s.doc.innings k = none) ∨
      ∃ a b, m.innings k = some a ∧ s.doc.innings k = some b ∧ a.Kept b := by
  obtain ⟨status, m0, s1, s2, s3, s4, s5, s6, hv, hf, h1, h2, h3, h4, h5, h6, h7⟩ :=
    updateMatchStatus_ok env (some m) req s h
  have hm : m = m0 := by cases hf; rfl
  subst hm
  have e1 := (stepStatus_innings _ _ _ h1 k).1
  have e2 := (stepReviseTarget_innings _ _ _ _ h2 k).1
  have e3 := (stepEndInnings_innings _ _ _ _ h3).2.2
  have e4 := (stepChangeOvers_innings _ _ _ _ h4).2
  have e5 := (stepEndMatch_innings _ _ _ _ h5 k).1
  have e6 := (stepResult_innings _ _ _ _ _ h6 k).1
  have e7 := (stepRequireAction_ok _ _ h7).1
  have e12 : s2.doc.innings k = m.innings k := by rw [e2, e1]
  -- the declaration step
  have k3 : (s2.doc.innings k = none ∧ s3.doc.innings k = none) ∨
      ∃ a b, s2.doc.innings k = some a ∧ s3.doc.innings k = some b ∧ a.Kept b := by
    rcases e3 with ⟨_, hs⟩ | ⟨_, k0, inn, _, hinn, _, hdoc⟩
    · subst hs
      cases hx : s3.doc.innings k with
      | none => exact Or.inl ⟨rfl, rfl⟩
      | some a => exact Or.inr ⟨a, a, rfl, rfl, kept_refl a⟩
    · by_cases hk : k = k0
      · subst hk
        right
        refine ⟨inn, _, hinn, by rw [hdoc]; exact innings_setInnings _ _ _, ?_⟩
        exact ⟨rfl, rfl, rfl, rfl, rfl, fun _ => rfl⟩
      · have : s3.doc.innings k = s2.doc.innings k := by
          rw [hdoc]; exact innings_setInnings_ne _ _ _ _ hk
        rw [this]
        cases hx : s2.doc.innings k with
        | none => exact Or.inl ⟨rfl, rfl⟩
        | some a => exact Or.inr ⟨a, a, rfl, rfl, kept_refl a⟩
  -- the overs-change step
  have k4 : (s3.doc.innings k = none ∧ s4.doc.innings k = none) ∨
      ∃ a b, s3.doc.innings k = some a ∧ s4.doc.innings k = some b ∧ a.Kept b := by
    rcases e4 with ⟨_, hs⟩ | ⟨_, n, _, _, _, hall⟩
    · subst hs
      cases hx : s4.doc.innings k with
      | none => exact Or.inl ⟨rfl, rfl⟩
      | some a => exact Or.inr ⟨a, a, rfl, rfl, kept_refl a⟩
    · rw [hall k]
      cases hx : s3.doc.innings k with
      | none => exact Or.inl ⟨rfl, rfl⟩
      | some a =>
        right
        refine ⟨a, _, rfl, rfl, ?_⟩
        simp only
        split
        · exact ⟨rfl, rfl, rfl, rfl, rfl, fun _ => rfl⟩
        · exact kept_refl a
  have e456 : s.doc.innings k = s4.doc.innings k := by rw [e7, e6, e5]
  rw [e456, ← e12]
  rcases k3 with ⟨a3, b3⟩ | ⟨a, b, ha, hb, hab⟩
  · rcases k4 with ⟨_, b4⟩ | ⟨c, _, hc, _, _⟩
    · exact Or.inl ⟨a3, b4⟩
    · rw [b3] at hc; cases hc
  · rcases k4 with ⟨a4, _⟩ | ⟨c, d, hc, hd, hcd⟩
    · rw [hb] at a4; cases a4
    · rw [hb] at hc
      cases hc
      exact Or.inr ⟨a, d, ha, hd, kept_trans _ _ _ hab hcd⟩

/-- The innings of a match after the team assignment of the toss. -/
theorem assignTeams_innings (m : Match) (d : String) (w : ObjectId) (other : Option ObjectId)
    (k : InningsKey) :
    ∃ b, (assignTeams m d w other).innings k = some b ∧ ((m.innings k).getD newInnings).Kept b ∧
      (assignTeams m d w other).result = m.result ∧
      (assignTeams m d w other).status = m.status := by
  unfold assignTeams
  by_cases hd : d = "batting"
  · rw [if_pos hd]
    cases k
    · exact ⟨_, rfl, ⟨rfl, rfl, rfl, rfl, rfl, id⟩, rfl, rfl⟩
    · exact ⟨_, rfl, ⟨rfl, rfl, rfl, rfl, rfl, id⟩, rfl, rfl⟩
  · rw [if_neg hd]
    cases k
    · exact ⟨_, rfl, ⟨rfl, rfl, rfl, rfl, rfl, id⟩, rfl, rfl⟩
    · exact ⟨_, rfl, ⟨rfl, rfl, rfl, rfl, rfl, id⟩, rfl, rfl⟩

/-- An accepted `updateToss`: the request named one of the two teams and a
valid decision, and the stored match is the loaded one with the toss and the
team assignment. -/
theorem updateToss_ok (found : Option Match) (req : TossRequest) (m1 : Match)
    (h : updateToss found req = .ok m1) :
    ∃ m w d a other, found = some m ∧ req.tossWinner = some w ∧ req.tossDecision = some d ∧
      (d = "batting" ∨ d = "bowling") ∧ m.teamA = some a ∧
      ((w = a ∧ other = m.teamB) ∨ (w ≠ a ∧ m.teamB = some w ∧ other = some a)) ∧
      m1 = assignTeams { m with tossWinner := some w, tossDecision := some d } d w other := by
  unfold updateToss at h
  split at h
  · rename_i w d hw hd
    split at h
    · simp at h
    · split at h
      · simp at h
      · rename_i hvalid
        have hd2 : d = "batting" ∨ d = "bowling" := by
          by_contra hcon
          exact hvalid ⟨fun h1 => hcon (Or.inl h1), fun h2 => hcon (Or.inr h2)⟩
        split at h
        · simp at h
        · rename_i m
          split at h
          · simp at h
          · rename_i a ha
            split at h
            · rename_i hwa
              simp at h
              exact ⟨m, w, d, a, m.teamB, rfl, hw, hd, hd2, ha, Or.inl ⟨hwa, rfl⟩, h.symm⟩
            · rename_i hwa
              split at h
              · simp at h
              · rename_i b hb
                split at h
                · simp at h
                · rename_i hwb
                  simp at h
                  have hwb1 : w = b := by simpa using hwb
                  subst hwb1
                  exact ⟨m, w, d, a, some a, rfl, hw, hd, hd2, ha,
                    Or.inr ⟨hwa, hb, rfl⟩, by rw [← h, ha]⟩
  · simp at h

/-- An accepted `updateBall` rewrites the requested innings only. -/
theorem updateBall_ok (env : Env) (found : Option Match) (req : UpdateBallRequest) (m1 : Match)
    (h : updateBall env found req = .ok m1) :
    ∃ m k inn, found = some m ∧ req.innings.bind parseInningsKey = some k ∧
      m.innings k = some inn ∧ m1 = m.setInnings k (updateBallInnings env req inn) := by
  unfold updateBall at h
  split at h
  · simp at h
  · rename_i k hk
    split at h
    · simp at h
    · rename_i m
      split at h
      · simp at h
      · rename_i inn hinn
        simp at h
        exact ⟨m, k, inn, rfl, hk, hinn, h.symm⟩

/-- An accepted `updateCurrentPlayers` rewrites the participants of the
requested innings only. -/
theorem updateCurrentPlayers_ok (env : Env) (found : Option Match) (req : PlayersRequest)
    (m1 : Match) (h : updateCurrentPlayers env found req = .ok m1) :
    ∃ m k inn inn1, found = some m ∧ req.innings.bind parseInningsKey = some k ∧
      m.innings k = some inn ∧ m1 = m.setInnings k inn1 ∧ inn.Kept inn1 ∧
      inn1.isComplete = inn.isComplete := by
  unfold updateCurrentPlayers at h
  split at h
  · simp at h
  · rename_i k hk
    split at h
    · split at h
      · simp at h
      · split at h
        · simp at h
        · split at h
          · simp at h
          · rename_i m
            split at h
            · simp at h
            · rename_i inn hinn
              simp at h
              exact ⟨m, k, inn, _, rfl, hk, hinn, h.symm, ⟨rfl, rfl, rfl, rfl, rfl, id⟩, rfl⟩
    · simp at h

/-! ## Invariants of the reachable states -/

/-- Writing an innings leaves result and status alone. -/
theorem setInnings_result (m : Match) (k : InningsKey) (inn : Innings) :
    (m.setInnings k inn).result = m.result ∧ (m.setInnings k inn).status = m.status := by
  cases k <;> exact ⟨rfl, rfl⟩

/-- How one accepted request changes each innings of the match: an innings
that the toss creates starts from `newInnings`. -/
theorem step_innings (guarded : Bool) (m m1 : Match) (h : Step guarded m m1) (k : InningsKey)
    (inn1 : Innings) (h1 : m1.innings k = some inn1) :
    InningsMove guarded ((m.innings k).getD newInnings) inn1 := by
  have same : ∀ a, m.innings k = some a → m1.innings k = m.innings k →
      InningsMove guarded ((m.innings k).getD newInnings) inn1 := by
    intro a ha hsame
    rw [hsame, ha] at h1
    cases h1
    rw [ha]
    exact .kept _ _ (kept_refl _)
  have other : ∀ k0 x, m1 = m.setInnings k0 x → k ≠ k0 →
      InningsMove guarded ((m.innings k).getD newInnings) inn1 := by
    intro k0 x hm hne
    have hsame : m1.innings k = m.innings k := by
      rw [hm]; exact innings_setInnings_ne _ _ _ _ hne
    cases ha : m.innings k with
    | none => rw [hsame, ha] at h1; cases h1
    | some a => rw [← ha]; exact same a ha hsame
  cases h with
  | toss _ req ht =>
    obtain ⟨m0, w, d, a, other, hf, _, _, _, _, _, hm1⟩ := updateToss_ok _ _ _ ht
    cases hf
    obtain ⟨b, hb, hkept, _⟩ :=
      assignTeams_innings { m with tossWinner := some w, tossDecision := some d } d w other k
    rw [hm1, hb] at h1
    cases h1
    have : ({ m with tossWinner := some w, tossDecision := some d } : Match).innings k =
        m.innings k := by cases k <;> rfl
    rw [this] at hkept
    exact .kept _ _ hkept
  | add _ env store store1 req hadd hguard =>
    obtain ⟨c, m0, inn, bt, wt, t, s1, hc, hf, hinn, _, _, hm1, _, _⟩ :=
      addBall_ok env (some m) store req m1 store1 hadd
    cases hf
    by_cases hk : k = c.key
    · subst hk
      rw [hm1, innings_setInnings] at h1
      cases h1
      rw [hinn]
      exact .added inn t (makeBall env req c bt wt)
        (fun hg => hguard hg c.key inn (checkBallRequest_key req c hc) hinn)
    · exact other _ _ hm1 hk
  | undo _ env store store1 innings hundo =>
    obtain ⟨k0, m0, inn, last, t, s1, _, hf, hinn, hlast, _, hm1, _, _⟩ :=
      undoBall_ok env (some m) store innings m1 store1 hundo
    cases hf
    by_cases hk : k = k0
    · subst hk
      rw [hm1, innings_setInnings] at h1
      cases h1
      rw [hinn]
      exact .undone inn t last hlast
    · exact other _ _ hm1 hk
  | status env req s hs =>
    rcases updateMatchStatus_kept env m req s hs k with ⟨_, hnone⟩ | ⟨a, b, ha, hb, hab⟩
    · rw [hnone] at h1; cases h1
    · rw [hb] at h1
      cases h1
      rw [ha]
      exact .kept _ _ hab
  | ball _ env req hb =>
    obtain ⟨m0, k0, inn, hf, _, hinn, hm1⟩ := updateBall_ok env (some m) req m1 hb
    cases hf
    by_cases hk : k = k0
    · subst hk
      rw [hm1, innings_setInnings] at h1
      cases h1
      rw [hinn]
      exact .corrected inn env req
    · exact other _ _ hm1 hk
  | players _ env req hp =>
    obtain ⟨m0, k0, inn, inn2, hf, _, hinn, hm1, hkept, _⟩ :=
      updateCurrentPlayers_ok env (some m) req m1 hp
    cases hf
    by_cases hk : k = k0
    · subst hk
      rw [hm1, innings_setInnings] at h1
      cases h1
      rw [hinn]
      exact .kept _ _ hkept
    · exact other _ _ hm1 hk

/-- Every innings of a state reachable from a fresh match satisfies the
ledger invariants, and has at most ten wickets when `addBall` is only issued
on incomplete innings. -/
theorem reachable_consistent (guarded : Bool) (m0 m : Match) (h0 : m0.isFresh)
    (h : Reachable guarded m0 m) (k : InningsKey) (inn : Innings) (hinn : m.innings k = some inn) :
    inn.Consistent ∧ (guarded = true → inn.wickets ≤ 10) := by
  induction h generalizing k inn with
  | start =>
    have := fresh_consistent inn (h0.2.2 k inn hinn)
    exact ⟨this.1, fun _ => this.2⟩
  | step m m1 _ hstep ih =>
    have hmove := step_innings guarded m m1 hstep k inn hinn
    have hprev : ((m.innings k).getD newInnings).Consistent ∧
        (guarded = true → ((m.innings k).getD newInnings).wickets ≤ 10) := by
      cases ha : m.innings k with
      | none =>
        have := fresh_consistent newInnings ⟨rfl, rfl, rfl, rfl, rfl, rfl⟩
        exact ⟨this.1, fun _ => this.2⟩
      | some a => exact ih k a ha
    have := move_consistent guarded _ _ hmove hprev.1
    exact ⟨this.1, fun hg => this.2 hg (hprev.2 hg)⟩

/-- An accepted `updateMatchStatus` leaves the result as it was unless it
stores the status completed together with the computed result. -/
theorem updateMatchStatus_result (env : Env) (m : Match) (req : StatusRequest) (s : StatusState)
    (h : updateMatchStatus env (some m) req = .ok s) :
    s.doc.result = m.result ∨
      (s.doc.status = .completed ∧ ∃ fi si, s.doc.firstInnings = some fi ∧
        s.doc.secondInnings = some si ∧ s.doc.result = computeResult s.doc fi si) := by
  obtain ⟨status, m0, s1, s2, s3, s4, s5, s6, hv, hf, h1, h2, h3, h4, h5, h6, h7⟩ :=
    updateMatchStatus_ok env (some m) req s h
  have hm : m = m0 := by cases hf; rfl
  subst hm
  have e1 := (stepStatus_innings _ _ _ h1 .firstInnings).2.1
  have e2 := (stepReviseTarget_innings _ _ _ _ h2 .firstInnings).2.1
  have e3 := (stepEndInnings_innings _ _ _ _ h3).1
  have e4 := (stepChangeOvers_innings _ _ _ _ h4).1
  have e5 := (stepEndMatch_innings _ _ _ _ h5 .firstInnings).2.1
  have e6 := stepResult_ok _ _ _ _ _ h6
  have e7 := (stepRequireAction_ok _ _ h7).1
  subst e7
  by_cases hc : (status = some .completed ∨ req.endMatch = true) ∧ s5.doc.status = .completed
  · right
    obtain ⟨fi, si, hfi, hsi, hres⟩ := e6.2.2.2.2.2.2.1 hc
    refine ⟨by rw [e6.1]; exact hc.2, fi, si, by rw [e6.2.2.2.1]; exact hfi,
      by rw [e6.2.2.2.2.1]; exact hsi, ?_⟩
    rw [hres]
    unfold computeResult targetToWin
    rw [e6.2.2.2.2.2.1]
  · left
    rw [e6.2.2.2.2.2.2.2 hc, e5, e4, e3, e2, e1]

/-- One accepted request leaves the result as it was unless it stores the
status completed. -/
theorem step_result (guarded : Bool) (m m1 : Match) (h : Step guarded m m1) :
    m1.result = m.result ∨ m1.status = .completed := by
  cases h with
  | toss _ req ht =>
    obtain ⟨m0, w, d, a, other, hf, _, _, _, _, _, hm1⟩ := updateToss_ok _ _ _ ht
    cases hf
    obtain ⟨_, _, _, hres, _⟩ :=
      assignTeams_innings { m with tossWinner := some w, tossDecision := some d } d w other
        .firstInnings
    left
    rw [hm1, hres]
  | add _ env store store1 req hadd _ =>
    obtain ⟨c, m0, inn, bt, wt, t, s1, _, hf, _, _, _, hm1, _, _⟩ :=
      addBall_ok env (some m) store req m1 store1 hadd
    cases hf
    left
    rw [hm1]
    exact (setInnings_result _ _ _).1
  | undo _ env store store1 innings hundo =>
    obtain ⟨k0, m0, inn, last, t, s1, _, hf, _, _, _, hm1, _, _⟩ :=
      undoBall_ok env (some m) store innings m1 store1 hundo
    cases hf
    left
    rw [hm1]
    exact (setInnings_result _ _ _).1
  | status env req s hs =>
    rcases updateMatchStatus_result env m req s hs with h | ⟨h, _⟩
    · exact Or.inl h
    · exact Or.inr h
  | ball _ env req hb =>
    obtain ⟨m0, k0, inn, hf, _, _, hm1⟩ := updateBall_ok env (some m) req m1 hb
    cases hf
    left
    rw [hm1]
    exact (setInnings_result _ _ _).1
  | players _ env req hp =>
    obtain ⟨m0, k0, inn, inn2, hf, _, _, hm1, _, _⟩ :=
      updateCurrentPlayers_ok env (some m) req m1 hp
    cases hf
    left
    rw [hm1]
    exact (setInnings_result _ _ _).1

/-! ## Claims on the toss and on the appended ball -/

/-- Claim C11: on a match with both teams, `updateToss` with the toss winner
equal to teamA or teamB and a decision batting or bowling succeeds; the first
innings has the toss winner batting and the other team bowling when the
decision is batting (the other way round when it is bowling), and the second
innings has the teams of the first one swapped.  A toss winner that is neither
team, or a missing or invalid decision, fails (HTTP 400, InvalidArgument) and
the stored match is unchanged. -/
theorem toss_assigns_teams (m : Match) (req : TossRequest) (a b w : ObjectId)
    (ha : m.teamA = some a) (hb : m.teamB = some b) (hw : req.tossWinner = some w) :
    (∀ d, req.tossDecision = some d → (w = a ∨ w = b) → (d = "batting" ∨ d = "bowling") →
      ∃ m1 fi si, updateToss (some m) req = .ok m1 ∧
        m1.tossWinner = some w ∧ m1.tossDecision = some d ∧
        m1.firstInnings = some fi ∧ m1.secondInnings = some si ∧
        (d = "batting" →
          fi.battingTeam = some w ∧ fi.bowlingTeam = some (if w = a then b else a)) ∧
        (d = "bowling" →
          fi.bowlingTeam = some w ∧ fi.battingTeam = some (if w = a then b else a)) ∧
        si.battingTeam = fi.bowlingTeam ∧ si.bowlingTeam = fi.battingTeam) ∧
    ((w ≠ a ∧ w ≠ b) ∨ req.tossDecision = none ∨
        (∃ d, req.tossDecision = some d ∧ d ≠ "batting" ∧ d ≠ "bowling") →
      (∃ msg, updateToss (some m) req = .error ⟨400, some msg⟩) ∧
        storedDoc m (updateToss (some m) req) = m) := by
  constructor
  · intro d hd hwin hdec
    have hne : d ≠ "" := by rcases hdec with h | h <;> rw [h] <;> decide
    have hvalid : ¬ (d ≠ "batting" ∧ d ≠ "bowling") := by
      rintro ⟨h1, h2⟩
      rcases hdec with h | h
      · exact h1 h
      · exact h2 h
    have hdb : d = "bowling" → d ≠ "batting" := by
      intro h; rw [h]; decide
    by_cases hwa : w = a
    · have hres : updateToss (some m) req =
          .ok (assignTeams { m with tossWinner := some w, tossDecision := some d } d w m.teamB) := by
        simp [updateToss, hw, hd, hne, hvalid, ha, hwa]
      rw [hres, hb]
      unfold assignTeams
      by_cases hbat : d = "batting"
      · rw [if_pos hbat]
        refine ⟨_, _, _, rfl, rfl, rfl, rfl, rfl, ?_, ?_, rfl, rfl⟩
        · intro _; simp [hwa]
        · intro h; exact absurd hbat (hdb h)
      · rw [if_neg hbat]
        refine ⟨_, _, _, rfl, rfl, rfl, rfl, rfl, ?_, ?_, rfl, rfl⟩
        · intro h; exact absurd h hbat
        · intro _; simp [hwa]
    · have hwb : w = b := by
        rcases hwin with h | h
        · exact absurd h hwa
        · exact h
      have hres : updateToss (some m) req =
          .ok (assignTeams { m with tossWinner := some w, tossDecision := some d } d w m.teamA) := by
        simp [updateToss, hw, hd, hne, hvalid, ha, hb, hwa, hwb]
        intro h
        exact absurd (hwb ▸ h) hwa
      rw [hres, ha]
      unfold assignTeams
      by_cases hbat : d = "batting"
      · rw [if_pos hbat]
        refine ⟨_, _, _, rfl, rfl, rfl, rfl, rfl, ?_, ?_, rfl, rfl⟩
        · intro _; simp [hwa]
        · intro h; exact absurd hbat (hdb h)
      · rw [if_neg hbat]
        refine ⟨_, _, _, rfl, rfl, rfl, rfl, rfl, ?_, ?_, rfl, rfl⟩
        · intro h; exact absurd h hbat
        · intro _; simp [hwa]
  · intro hbad
    have hex : ∃ msg, updateToss (some m) req = .error ⟨400, some msg⟩ := by
      rcases hbad with ⟨hwa, hwb⟩ | hnone | ⟨d, hd, h1, h2⟩
      · cases hd : req.tossDecision with
        | none => exact ⟨"Toss winner and decision are required", by simp [updateToss, hw, hd, badRequest]⟩
        | some d =>
          by_cases hne : d = ""
          · exact ⟨"Toss winner and decision are required", by simp [updateToss, hw, hd, hne, badRequest]⟩
          · by_cases hvalid : d ≠ "batting" ∧ d ≠ "bowling"
            · exact ⟨"Invalid toss decision. Must be either batting or bowling", by simp [updateToss, hw, hd, hne, hvalid, badRequest]⟩
            · refine ⟨"Toss winner must be one of the teams playing the match", ?_⟩
              simp only [updateToss, hw, hd, hne, hvalid, ha, hb, hwa, if_false]
              simp [hwb, badRequest]
      · exact ⟨"Toss winner and decision are required", by simp [updateToss, hw, hnone, badRequest]⟩
      · by_cases hne : d = ""
        · exact ⟨"Toss winner and decision are required", by simp [updateToss, hw, hd, hne, badRequest]⟩
        · exact ⟨"Invalid toss decision. Must be either batting or bowling", by simp [updateToss, hw, hd, hne, h1, h2, badRequest]⟩
    obtain ⟨msg, hmsg⟩ := hex
    exact ⟨⟨msg, hmsg⟩, by rw [hmsg]; rfl⟩

/-- Witness of `toss_assigns_teams`: team 10 wins the toss of the untossed
match and bats; the stored match is `freshMatch`. -/
theorem toss_assigns_teams_witness :
    updateToss (some untossedMatch) tossRequest = .ok freshMatch ∧
      ∃ m1 fi si, updateToss (some untossedMatch) tossRequest = .ok m1 ∧
        m1.firstInnings = some fi ∧ m1.secondInnings = some si ∧
        si.battingTeam = fi.bowlingTeam ∧ si.bowlingTeam = fi.battingTeam := by
  refine ⟨rfl, ?_⟩
  obtain ⟨m1, fi, si, h1, _, _, h2, h3, _, _, h4, h5⟩ :=
    (toss_assigns_teams untossedMatch tossRequest 10 11 10 rfl rfl rfl).1 "batting" rfl
      (Or.inl rfl) (Or.inl rfl)
  exact ⟨m1, fi, si, h1, h2, h3, h4, h5⟩

/-- The checked request carries the `runs` that were sent. -/
theorem checkBallRequest_runs (req : BallRequest) (c : CheckedBall)
    (h : checkBallRequest req = .ok c) : req.runs = some c.runs := by
  unfold checkBallRequest at h
  split at h
  · simp at h
  · split at h
    · rename_i o b r cm ho hb hr hcm
      repeat' split at h
      all_goals first
        | (simp at h; rw [← h]; exact hr)
        | simp at h
    · simp at h

/-- Claim C12 fails as stated: the accepted delivery `negativeRunsRequest`
(`runs: -2`, `isNegativeRuns` set) is stored with runs -2 and takes the total
from 0 to -2; the negation of runs + extraRuns + bonusRuns would be 2. -/
theorem negative_runs_not_negated :
    (addBall sampleEnv (some freshMatch) [] negativeRunsRequest).toOption.map
        (fun r => r.1.firstInnings.map (fun i => (i.totalRuns, i.balls.map (fun b => b.runs)))) =
      some (some (-2, [-2])) ∧
    negativeRunsRequest.runs = some (-2) ∧ negativeRunsRequest.extraRuns = none ∧
    negativeRunsRequest.bonusRuns = none ∧ -((-2 : Int) + 0 + 0) ≠ -2 := by
  refine ⟨by with_unfolding_all rfl, rfl, rfl, rfl, by decide⟩

/-- Claim C12 as amended: for every accepted `addBall`, the runs stored on
the appended entry and added to `totalRuns` are runs + extraRuns + bonusRuns
(an absent summand counting 0), replaced by minus their absolute value when
`isNegativeRuns` is set (their negation whenever the sum is not negative); the
ledger grows by exactly that entry at its end, and the wickets grow by one if
`isWicket` and are unchanged otherwise. -/
theorem appended_ball_totals (env : Env) (m : Match) (store : StatsStore) (req : BallRequest)
    (m1 : Match) (store1 : StatsStore) (h : addBall env (some m) store req = .ok (m1, store1)) :
    ∃ k inn inn1 ball runs, req.innings.bind parseInningsKey = some k ∧ req.runs = some runs ∧
      m.innings k = some inn ∧ m1.innings k = some inn1 ∧
      inn1.balls = inn.balls ++ [ball] ∧
      ball.runs = (if req.isNegativeRuns then
          -|runs + req.extraRuns.getD 0 + req.bonusRuns.getD 0|
        else runs + req.extraRuns.getD 0 + req.bonusRuns.getD 0) ∧
      (req.isNegativeRuns = true → 0 ≤ runs + req.extraRuns.getD 0 + req.bonusRuns.getD 0 →
        ball.runs = -(runs + req.extraRuns.getD 0 + req.bonusRuns.getD 0)) ∧
      inn1.totalRuns = inn.totalRuns + ball.runs ∧
      inn1.wickets = (if req.isWicket then inn.wickets + 1 else inn.wickets) ∧
      ball.isWicket = req.isWicket := by
  obtain ⟨c, m0, inn, bt, wt, t, s1, hc, hf, hinn, _, _, hm1, _, _⟩ :=
    addBall_ok env (some m) store req m1 store1 h
  cases hf
  refine ⟨c.key, inn, _, makeBall env req c bt wt, c.runs, checkBallRequest_key req c hc,
    checkBallRequest_runs req c hc, hinn, by rw [hm1]; exact innings_setInnings _ _ _,
    rfl, rfl, ?_, rfl, rfl, rfl⟩
  intro hneg hpos
  show ballTotalRuns c.runs req = _
  unfold ballTotalRuns
  simp only [hneg, if_true]
  rw [abs_of_nonneg hpos]

/-- Witness of `appended_ball_totals`: the first single of the fresh match. -/
theorem appended_ball_totals_witness :
    addBall sampleEnv (some freshMatch) [] singleRequest =
        .ok (matchAfterSingle, statsAfterSingle) ∧
      ∃ k inn inn1 ball, freshMatch.innings k = some inn ∧
        matchAfterSingle.innings k = some inn1 ∧ inn1.balls = inn.balls ++ [ball] ∧
        inn1.totalRuns = inn.totalRuns + ball.runs := by
  refine ⟨by with_unfolding_all rfl, ?_⟩
  obtain ⟨k, inn, inn1, ball, _, _, _, h1, h2, h3, _, _, h4, _⟩ :=
    appended_ball_totals sampleEnv freshMatch [] singleRequest matchAfterSingle statsAfterSingle
      (by with_unfolding_all rfl)
  exact ⟨k, inn, inn1, ball, h1, h2, h3, h4⟩

/-- Claim C13: after every accepted `addBall` the innings is complete whenever
its overs have reached the tournament's `oversPerInnings` or its wickets have
reached 10; and in every state reachable from a fresh match by accepted
requests (`addBall`, `undoBall` and the other handlers) an innings with 10
wickets is complete, whatever its overs. -/
theorem ten_wickets_complete :
    (∀ (env : Env) (m : Match) (store : StatsStore) (req : BallRequest) (m1 : Match)
        (store1 : StatsStore), addBall env (some m) store req = .ok (m1, store1) →
      ∃ k inn1 t, env.tournament = some t ∧ req.innings.bind parseInningsKey = some k ∧
        m1.innings k = some inn1 ∧
        (inn1.overs ≥ t.oversPerInnings ∨ inn1.wickets ≥ 10 → inn1.isComplete = true)) ∧
    (∀ (m0 m : Match), m0.isFresh → Reachable false m0 m →
      ∀ k inn, m.innings k = some inn → inn.wickets = 10 → inn.isComplete = true) := by
  constructor
  · intro env m store req m1 store1 h
    obtain ⟨c, m0, inn, bt, wt, t, s1, hc, hf, hinn, _, ht, hm1, _, _⟩ :=
      addBall_ok env (some m) store req m1 store1 h
    refine ⟨c.key, _, t, ht, checkBallRequest_key req c hc,
      by rw [hm1]; exact innings_setInnings _ _ _, ?_⟩
    intro hthr
    simp only [addBallInnings] at hthr ⊢
    rw [if_pos hthr]
  · intro m0 m h0 hreach k inn hinn hw
    exact (reachable_consistent false m0 m h0 hreach k inn hinn).1.1 (by omega)

/-- Witness of `ten_wickets_complete`: the tenth wicket of `elevenWickets`
completes the innings (the first ten deliveries, on the fresh match). -/
theorem ten_wickets_complete_witness :
    (addBalls (elevenWickets.take 10) (freshMatch, [])).toOption.map
        (fun r => r.1.firstInnings.map (fun i => (i.wickets, i.isComplete))) =
      some (some (10, true)) ∧
    ∀ k inn, freshMatch.innings k = some inn → inn.wickets = 10 → inn.isComplete = true :=
  ⟨by with_unfolding_all rfl,
   ten_wickets_complete.2 freshMatch freshMatch
     ⟨rfl, rfl, by
       intro k inn h
       cases k <;> simp [Match.innings, freshMatch] at h <;> subst h <;>
         exact ⟨rfl, rfl, rfl, rfl, rfl, rfl⟩⟩
     .start⟩

/-- The sample match after the toss is fresh. -/
theorem freshMatch_isFresh : freshMatch.isFresh := by
  refine ⟨rfl, rfl, ?_⟩
  intro k inn h
  cases k <;> simp [Match.innings, freshMatch] at h <;> subst h <;>
    exact ⟨rfl, rfl, rfl, rfl, rfl, rfl⟩

/-- Claim C14 fails as stated: the eleven wicket deliveries of
`elevenWickets` are all accepted on the fresh match and leave the first
innings with 11 wickets. -/
theorem eleven_wickets_accepted :
    (addBalls elevenWickets (freshMatch, [])).toOption.map
        (fun r => r.1.firstInnings.map (fun i => (i.wickets, i.isComplete, i.balls.length))) =
      some (some (11, true, 11)) := by
  with_unfolding_all rfl

/-- Claim C14 as amended: in every match state reachable from a fresh match
by accepted `updateToss`, `addBall`, `undoBall`, `updateMatchStatus`,
`updateBall` and `updateCurrentPlayers` requests, the wickets of each innings
are the number of wicket entries of its ledger, hence at least 0; they are at
most 10 when `addBall` is only issued on an innings that is not complete
(`guarded`). -/
theorem wickets_within_bounds (guarded : Bool) (m0 m : Match) (h0 : m0.isFresh)
    (h : Reachable guarded m0 m) (k : InningsKey) (inn : Innings) (hinn : m.innings k = some inn) :
    0 ≤ inn.wickets ∧
      inn.wickets = ((inn.balls.filter (fun b => b.isWicket)).length : Int) ∧
      (guarded = true → inn.wickets ≤ 10) := by
  obtain ⟨⟨_, hw, _⟩, hg⟩ := reachable_consistent guarded m0 m h0 h k inn hinn
  refine ⟨?_, hw, hg⟩
  rw [hw]
  unfold wicketBalls
  omega

/-- Witness of `wickets_within_bounds`: the fresh match after its first
single, added while the innings was not complete. -/
theorem wickets_within_bounds_witness :
    Reachable true freshMatch matchAfterSingle ∧
      ∀ inn, matchAfterSingle.innings .firstInnings = some inn →
        0 ≤ inn.wickets ∧ inn.wickets ≤ 10 := by
  have hreach : Reachable true freshMatch matchAfterSingle :=
    .step freshMatch matchAfterSingle .start
      (.add freshMatch matchAfterSingle sampleEnv [] statsAfterSingle singleRequest
        (by with_unfolding_all rfl)
        (by
          intro _ k inn hk hinn
          have hkey : k = .firstInnings := by
            have : singleRequest.innings.bind parseInningsKey = some .firstInnings := rfl
            rw [this] at hk
            cases hk
            rfl
          subst hkey
          simp [Match.innings, freshMatch] at hinn
          subst hinn
          rfl))
  refine ⟨hreach, ?_⟩
  intro inn hinn
  have := wickets_within_bounds true freshMatch matchAfterSingle freshMatch_isFresh hreach
    .firstInnings inn hinn
  exact ⟨this.1, this.2.2 rfl⟩

/-- Claim C15: an accepted `undoBall` removes exactly the last ledger entry
and keeps the others in order, subtracts that entry's runs from `totalRuns`,
takes one off the wickets exactly when that entry was a wicket, and stores the
overs recomputed from the shortened ledger; and on a non-empty ledger whose
last ball has its statistics records in place the request is accepted. -/
theorem undo_pops_last_ball (env : Env) (m : Match) (store : StatsStore)
    (innings : Option String) (k : InningsKey) (inn : Innings) (t : Tournament)
    (hk : innings.bind parseInningsKey = some k) (hinn : m.innings k = some inn)
    (hballs : inn.balls ≠ []) (ht : env.tournament = some t) :
    (∀ m1 store1, undoBall env (some m) store innings = .ok (m1, store1) →
      ∃ inn1 last, m1.innings k = some inn1 ∧ inn.balls = inn1.balls ++ [last] ∧
        inn1.totalRuns = inn.totalRuns - last.runs ∧
        inn1.wickets = (if last.isWicket then inn.wickets - 1 else inn.wickets) ∧
        inn1.overs = currentOvers (legalDeliveries inn1.balls)) ∧
    ((∀ last, inn.balls.getLast? = some last →
        BallReady t.ballType inn.battingTeam inn.bowlingTeam last store) →
      ∃ m1 store1, undoBall env (some m) store innings = .ok (m1, store1)) := by
  constructor
  · intro m1 store1 h
    obtain ⟨k0, m0, inn0, last, t0, s1, hk0, hf, hinn0, hlast, _, hm1, _, _⟩ :=
      undoBall_ok env (some m) store innings m1 store1 h
    cases hf
    rw [hk] at hk0
    cases hk0
    rw [hinn] at hinn0
    cases hinn0
    refine ⟨_, last, by rw [hm1]; exact innings_setInnings _ _ _, ?_, rfl, rfl, rfl⟩
    exact balls_eq_dropLast_append inn.balls last hlast
  · intro hready
    cases hlast : inn.balls.getLast? with
    | none => exact absurd (List.getLast?_eq_none_iff.mp hlast) hballs
    | some last =>
      obtain ⟨store2, h, _⟩ :=
        undoBall_succeeds env m store innings k inn last t hk hinn hlast ht (hready last hlast)
      exact ⟨_, store2, h⟩

/-- Witness of `undo_pops_last_ball`: after the deliveries single, four,
wicket the first innings stands at 5 runs, 1 wicket, 0.3 overs; the undo of
the wicket is accepted and leaves 5 runs, 0 wickets, 0.2 overs. -/
theorem undo_pops_last_ball_witness :
    threeBallState.1.firstInnings.map (fun i => (i.totalRuns, i.wickets, i.overs)) =
        some (5, 1, 3 / 10) ∧
      (storedState threeBallState (undoBall sampleEnv (some threeBallState.1) threeBallState.2
          (some "firstInnings"))).1.firstInnings.map (fun i => (i.totalRuns, i.wickets, i.overs)) =
        some (5, 0, 2 / 10) ∧
      ∃ (inn inn1 : Innings) (last : Ball), threeBallState.1.firstInnings = some inn ∧
        inn.balls = inn1.balls ++ [last] ∧ inn1.totalRuns = inn.totalRuns - last.runs := by
  refine ⟨by with_unfolding_all rfl, by with_unfolding_all rfl, ?_⟩
  cases hinn : threeBallState.1.firstInnings with
  | none => exact absurd hinn (by with_unfolding_all decide)
  | some inn =>
    have hballs : inn.balls ≠ [] := by
      intro hb
      have : threeBallState.1.firstInnings.map (fun i => i.balls.length) = some 3 := by
        with_unfolding_all rfl
      rw [hinn] at this
      simp [hb] at this
    obtain ⟨inn1, last, _, h1, h2, _⟩ :=
      (undo_pops_last_ball sampleEnv threeBallState.1 threeBallState.2 (some "firstInnings")
        .firstInnings inn sampleTournament rfl hinn hballs rfl).1
        (storedState threeBallState (undoBall sampleEnv (some threeBallState.1)
          threeBallState.2 (some "firstInnings"))).1
        (storedState threeBallState (undoBall sampleEnv (some threeBallState.1)
          threeBallState.2 (some "firstInnings"))).2
        (by with_unfolding_all rfl)
    exact ⟨inn, inn1, last, rfl, h1, h2⟩

/-- Claim C16 fails as stated: `undoBall` on the empty ledger of the fresh
match answers HTTP 400 with "No balls to undo", not the 404 that the handler
uses for what is not found. -/
theorem empty_undo_is_bad_request :
    undoBall sampleEnv (some freshMatch) [] (some "firstInnings") =
        .error ⟨400, some "No balls to undo"⟩ ∧
      (⟨400, some "No balls to undo"⟩ : Response).code ≠ matchNotFound.code := by
  constructor
  · rfl
  · decide

/-- Claim C16 as amended: `undoBall` on an innings whose ledger is empty fails
with HTTP 400 and the message "No balls to undo" (the code of an invalid
request), and the stored match and statistics records are unchanged. -/
theorem empty_undo_fails (env : Env) (m : Match) (store : StatsStore) (innings : Option String)
    (k : InningsKey) (inn : Innings) (hk : innings.bind parseInningsKey = some k)
    (hinn : m.innings k = some inn) (hballs : inn.balls = []) :
    undoBall env (some m) store innings = .error ⟨400, some "No balls to undo"⟩ ∧
      storedState (m, store) (undoBall env (some m) store innings) = (m, store) := by
  have h : undoBall env (some m) store innings = .error ⟨400, some "No balls to undo"⟩ := by
    simp [undoBall, hk, hinn, hballs, badRequest]
  rw [h]
  exact ⟨rfl, rfl⟩

/-- Witness of `empty_undo_fails`: the second innings of `matchAfterSingle`
has no ball. -/
theorem empty_undo_fails_witness :
    undoBall sampleEnv (some matchAfterSingle) statsAfterSingle (some "secondInnings") =
        .error ⟨400, some "No balls to undo"⟩ ∧
      storedState (matchAfterSingle, statsAfterSingle)
        (undoBall sampleEnv (some matchAfterSingle) statsAfterSingle (some "secondInnings")) =
        (matchAfterSingle, statsAfterSingle) :=
  empty_undo_fails sampleEnv matchAfterSingle statsAfterSingle (some "secondInnings")
    .secondInnings { battingTeam := some 11, bowlingTeam := some 10 } rfl rfl rfl

/-! ## Claims on the overs change, the corrections and the result -/

/-- Claim C17 fails as stated: a request that declares the first innings and
changes the overs to 10 at once is accepted on the live match; the first
innings, whose overs (0) are below 10, does not keep its `isComplete` value
(false): it is complete, by declaration and without `oversReductionInfo`. -/
theorem declare_and_reduce_completes :
    (updateMatchStatus sampleEnv (some liveMatch) declareAndReduceRequest).toOption.map
        (fun s => (s.doc.currentOversPerInnings, s.doc.firstInnings.map
          (fun i => (i.isComplete, i.overs, i.oversReductionInfo.isReduced)))) =
      some (some 10, some (true, 0, false)) ∧
    liveMatch.firstInnings.map (fun i => (i.isComplete, i.overs)) = some (false, 0) := by
  constructor <;> with_unfolding_all rfl

/-- Claim C17 as amended: for every accepted request with `changeOvers` and
`newTotalOvers = n`, n is positive and `currentOversPerInnings` becomes n;
every innings that the same request does not end or declare, that is not yet
complete and whose overs are at least n, is stored complete with
`oversReductionInfo` populated (`isReduced`, reason, time, commentary); and
every such innings whose overs are below n keeps its `isComplete` value. -/
theorem overs_change_completes (env : Env) (m : Match) (req : StatusRequest) (s : StatusState)
    (n : ℚ) (h : updateMatchStatus env (some m) req = .ok s) (hc : req.changeOvers = true)
    (hn : req.newTotalOvers = some n) :
    n > 0 ∧ s.doc.currentOversPerInnings = some n ∧
    ∀ k inn, m.innings k = some inn →
      (req.endInnings = true → req.inningsToEnd.bind parseInningsKey ≠ some k) →
      ∃ inn1, s.doc.innings k = some inn1 ∧
        (inn.isComplete = false → inn.overs ≥ n →
          inn1.isComplete = true ∧
          inn1.oversReductionInfo = OversReductionInfo.mk true
            (some (strOr req.reason "Match overs reduced")) (some env.now)
            (some (strOr req.commentary
              (k.label ++ " innings completed due to reduction in overs")))) ∧
        (inn.overs < n → inn1.isComplete = inn.isComplete) := by
  obtain ⟨status, m0, s1, s2, s3, s4, s5, s6, hv, hf, h1, h2, h3, h4, h5, h6, h7⟩ :=
    updateMatchStatus_ok env (some m) req s h
  have hm : m = m0 := by cases hf; rfl
  subst hm
  have e7 := (stepRequireAction_ok _ _ h7).1
  subst e7
  have e4 := (stepChangeOvers_innings _ _ _ _ h4).2
  rcases e4 with ⟨hfalse, _⟩ | ⟨_, n0, hn0, hpos, hcur, hall⟩
  · rw [hc] at hfalse; cases hfalse
  · rw [hn] at hn0
    cases hn0
    refine ⟨hpos, ?_, ?_⟩
    · rw [(stepResult_innings _ _ _ _ _ h6 .firstInnings).2,
        (stepEndMatch_innings _ _ _ _ h5 .firstInnings).2.2, hcur]
    · intro k inn hinn hnot
      have e12 : s2.doc.innings k = some inn := by
        rw [(stepReviseTarget_innings _ _ _ _ h2 k).1, (stepStatus_innings _ _ _ h1 k).1]
        exact hinn
      have e3 : s3.doc.innings k = some inn := by
        rcases (stepEndInnings_innings _ _ _ _ h3).2.2 with ⟨_, hs⟩ | ⟨he, k0, _, hk0, _, _, hdoc⟩
        · rw [hs]; exact e12
        · have hne : k ≠ k0 := by
            intro hkk
            subst hkk
            exact hnot he hk0
          rw [hdoc, innings_setInnings_ne _ _ _ _ hne]
          exact e12
      have e456 : s.doc.innings k = s4.doc.innings k := by
        rw [(stepResult_innings _ _ _ _ _ h6 k).1, (stepEndMatch_innings _ _ _ _ h5 k).1]
      rw [e456, hall k, e3]
      simp only [Option.map]
      by_cases hcond : inn.isComplete = false ∧ inn.overs ≥ n
      · rw [if_pos hcond]
        refine ⟨_, rfl, fun _ _ => ⟨rfl, rfl⟩, ?_⟩
        intro hlt
        exact absurd hcond.2 (not_le.mpr hlt)
      · rw [if_neg hcond]
        refine ⟨_, rfl, ?_, fun _ => rfl⟩
        intro h1 h2
        exact absurd ⟨h1, h2⟩ hcond

/-- Witness of `overs_change_completes`: the overs of `matchAfterSingle` are
changed to 10. -/
theorem overs_change_completes_witness :
    (storedAfter matchAfterSingle
        (updateMatchStatus sampleEnv (some matchAfterSingle) reduceRequest)).currentOversPerInnings =
      some 10 :=
  (overs_change_completes sampleEnv matchAfterSingle reduceRequest
    { doc := storedAfter matchAfterSingle
        (updateMatchStatus sampleEnv (some matchAfterSingle) reduceRequest)
      actionTaken := ["Match overs changed"] } 10 (by with_unfolding_all rfl) rfl rfl).2.1

/-- Claim C18: in every state reachable from a fresh match by accepted
requests (`addBall`, `undoBall`, `updateBall` and the other handlers) the
`totalRuns` of each innings is the sum of the runs of its ledger entries plus
the signed sum of its `historyLogs` runs, negative-run entries counting
negative and bonus entries positive. -/
theorem total_runs_reconcile (m0 m : Match) (h0 : m0.isFresh) (h : Reachable false m0 m)
    (k : InningsKey) (inn : Innings) (hinn : m.innings k = some inn) :
    inn.totalRuns = (inn.balls.map (fun b => b.runs)).sum +
      (inn.historyLogs.map (fun l => if l.isNegativeRun then -l.runs else l.runs)).sum :=
  (reachable_consistent false m0 m h0 h k inn hinn).1.2.2

/-- Witness of `total_runs_reconcile`: the fresh match after a single and a
bonus of two runs: 3 = 1 + 2. -/
theorem total_runs_reconcile_witness :
    Reachable false freshMatch matchAfterBonus ∧
      ∀ inn, matchAfterBonus.innings .firstInnings = some inn →
        inn.totalRuns = (inn.balls.map (fun b => b.runs)).sum +
          (inn.historyLogs.map (fun l => if l.isNegativeRun then -l.runs else l.runs)).sum := by
  have hreach : Reachable false freshMatch matchAfterBonus :=
    .step matchAfterSingle matchAfterBonus
      (.step freshMatch matchAfterSingle .start
        (.add freshMatch matchAfterSingle sampleEnv [] statsAfterSingle singleRequest
          (by with_unfolding_all rfl) (by intro h; cases h)))
      (.ball matchAfterSingle matchAfterBonus sampleEnv bonusRequest (by with_unfolding_all rfl))
  exact ⟨hreach, fun inn hinn =>
    total_runs_reconcile freshMatch matchAfterBonus freshMatch_isFresh hreach .firstInnings inn hinn⟩

/-- Claim C19: an accepted `updateBall` changes no ledger entry's runs,
wicket flag or ball type and keeps the length of the ledger and the wickets,
overs and `isComplete` of the innings; it changes `totalRuns` by bonusRuns
minus negativeRuns, each applied only when above 0, and appends one
`historyLogs` entry per applied correction after the earlier entries. -/
theorem update_ball_frame (env : Env) (m : Match) (req : UpdateBallRequest) (m1 : Match)
    (h : updateBall env (some m) req = .ok m1) :
    ∃ k inn inn1 logs, req.innings.bind parseInningsKey = some k ∧ m.innings k = some inn ∧
      m1.innings k = some inn1 ∧
      inn1.balls.length = inn.balls.length ∧
      inn1.balls.map (fun b => (b.runs, b.isWicket, b.ballType)) =
        inn.balls.map (fun b => (b.runs, b.isWicket, b.ballType)) ∧
      inn1.wickets = inn.wickets ∧ inn1.overs = inn.overs ∧ inn1.isComplete = inn.isComplete ∧
      inn1.totalRuns = inn.totalRuns
        + (match req.bonusRuns with
          | some b => if b > 0 then b else 0
          | none => 0)
        - (match req.negativeRuns with
          | some n => if n > 0 then n else 0
          | none => 0) ∧
      inn1.historyLogs = inn.historyLogs ++ logs ∧
      logs.length =
        (match req.negativeRuns with
          | some n => if n > 0 then 1 else 0
          | none => 0)
        + (match req.bonusRuns with
          | some b => if b > 0 then 1 else 0
          | none => 0) ∧
      (∀ k1, k1 ≠ k → m1.innings k1 = m.innings k1) := by
  obtain ⟨m0, k, inn, hf, hk, hinn, hm1⟩ := updateBall_ok env (some m) req m1 h
  cases hf
  refine ⟨k, inn, updateBallInnings env req inn, negativeRunLog env req ++ bonusRunLog env req,
    hk, hinn, by rw [hm1]; exact innings_setInnings _ _ _, ?_, ?_, rfl, rfl, rfl, ?_, rfl, ?_, ?_⟩
  · simp [updateBallInnings]
  · simp only [updateBallInnings, List.map_map]
    apply List.map_congr_left
    intro b _
    have hb := annotateBall_frame req b
    simp [hb.1, hb.2.1, hb.2.2.1]
  · simp only [updateBallInnings]
    cases req.negativeRuns <;> cases req.bonusRuns <;> simp <;> (repeat' split) <;> omega
  · simp only [negativeRunLog, bonusRunLog, List.length_append]
    cases req.negativeRuns <;> cases req.bonusRuns <;> simp <;> (repeat' split) <;> rfl
  · intro k1 hne
    rw [hm1]
    exact innings_setInnings_ne _ _ _ _ hne

/-- Witness of `update_ball_frame`: two bonus runs on `matchAfterSingle`. -/
theorem update_ball_frame_witness :
    updateBall sampleEnv (some matchAfterSingle) bonusRequest = .ok matchAfterBonus ∧
      ∃ (inn inn1 : Innings), matchAfterSingle.firstInnings = some inn ∧
        matchAfterBonus.firstInnings = some inn1 ∧ inn1.totalRuns = inn.totalRuns + 2 ∧
        inn1.balls.length = inn.balls.length := by
  refine ⟨by with_unfolding_all rfl, ?_⟩
  obtain ⟨k, inn, inn1, logs, hk, hinn, hinn1, hlen, _, _, _, _, htot, _⟩ :=
    update_ball_frame sampleEnv matchAfterSingle bonusRequest matchAfterBonus
      (by with_unfolding_all rfl)
  have hkey : k = .firstInnings := by
    have : bonusRequest.innings.bind parseInningsKey = some .firstInnings := rfl
    rw [this] at hk
    cases hk
    rfl
  subst hkey
  refine ⟨inn, inn1, hinn, hinn1, ?_, hlen⟩
  rw [htot]
  simp [bonusRequest]

/-- Claim C20 fails as stated: on the fresh match the three accepted requests
(go live and declare the first innings; complete; pause) leave the stored
match with status paused and the result of the completion, "Match tied". -/
theorem result_survives_status_change :
    (((updateMatchStatus sampleEnv (some freshMatch)
          { status := some "live", endInnings := true, inningsToEnd := some "firstInnings" }).bind
        (fun s => updateMatchStatus sampleEnv (some s.doc) { status := some "completed" })).bind
        (fun s => updateMatchStatus sampleEnv (some s.doc) { status := some "paused" })).toOption.map
        (fun s => (s.doc.status, s.doc.result)) =
      some (.paused, { winner := none, margin := some "Match tied" }) := by
  with_unfolding_all rfl

/-- Claim C20 as amended: the result is written only by a request that stores
the status completed.  From every state reachable from a fresh match, an
accepted request either leaves the result as it was or stores the status
completed; hence the result of a reachable state is empty or is the result of
a reachable state whose status was completed.  A later change of the status
keeps the stored result. -/
theorem result_written_on_completion (guarded : Bool) (m0 m : Match) (h0 : m0.isFresh)
    (h : Reachable guarded m0 m) :
    (∀ m1, Step guarded m m1 → m1.result = m.result ∨ m1.status = .completed) ∧
    (m.result = MatchResult.mk none none ∨
      ∃ mc, Reachable guarded m0 mc ∧ mc.status = .completed ∧ mc.result = m.result) := by
  refine ⟨fun m1 hs => step_result guarded m m1 hs, ?_⟩
  induction h with
  | start => exact Or.inl h0.2.1
  | step m m1 hreach hstep ih =>
    rcases step_result guarded m m1 hstep with hsame | hcomp
    · rw [hsame]
      exact ih
    · exact Or.inr ⟨m1, .step m m1 hreach hstep, hcomp, rfl⟩

/-- Witness of `result_written_on_completion`: the fresh match gone live has
no result. -/
theorem result_written_on_completion_witness :
    Reachable false freshMatch liveMatch ∧
      (liveMatch.result = MatchResult.mk none none ∨
        ∃ mc, Reachable false freshMatch mc ∧ mc.status = .completed ∧
          mc.result = liveMatch.result) := by
  have hreach : Reachable false freshMatch liveMatch :=
    .step freshMatch liveMatch .start
      (.status freshMatch sampleEnv { status := some "live" }
        { doc := liveMatch, actionTaken := ["Status updated"] } (by rfl))
  exact ⟨hreach,
    (result_written_on_completion false freshMatch liveMatch freshMatch_isFresh hreach).2⟩

/-! ## Claims on the undo event and on the input checks -/

/-- Claim C21, the divergence between the comment of line 2443 and the
condition of line 2444, in both directions.  In a one-over match the ten
wicket deliveries of `tenWickets` are accepted and leave the first innings
complete on 10 wickets, its last entry a wicket ball; the undo of that ball
is accepted, broadcasts `INNINGS_STATUS_CHANGED`, and stores the innings on 9
wickets with `isComplete` still true (nine balls are left, 1.3 overs of a
one-over innings).  In a two-over match twelve regular singles leave the
first innings complete without a wicket; the undo of the twelfth is accepted,
stores `isComplete = false` (1.5 overs are left) and broadcasts `BALL_UNDONE`
only. -/
theorem undone_tenth_wicket_stays_complete :
    tenWicketState.1.firstInnings.map
        (fun i => (i.wickets, i.isComplete, i.balls.getLast?.map (fun b => b.isWicket))) =
        some (10, true, some true) ∧
      (storedState tenWicketState (undoBall oneOverEnv (some tenWicketState.1) tenWicketState.2
          (some "firstInnings"))).1.firstInnings.map
            (fun i => (i.wickets, i.isComplete, i.overs)) =
        some (9, true, 13 / 10) ∧
      undoBallEvents oneOverEnv (some tenWicketState.1) tenWicketState.2 (some "firstInnings") =
        [MatchEvent.ballUndone, MatchEvent.inningsStatusChanged] ∧
      twelveSinglesState.1.firstInnings.map (fun i => (i.wickets, i.isComplete, i.overs)) =
        some (0, true, 2) ∧
      (storedState twelveSinglesState (undoBall twoOverEnv (some twelveSinglesState.1)
          twelveSinglesState.2 (some "firstInnings"))).1.firstInnings.map
            (fun i => (i.wickets, i.isComplete, i.overs)) =
        some (0, false, 3 / 2) ∧
      undoBallEvents twoOverEnv (some twelveSinglesState.1) twelveSinglesState.2
          (some "firstInnings") = [MatchEvent.ballUndone] := by
  refine ⟨by with_unfolding_all rfl, by with_unfolding_all rfl, by with_unfolding_all rfl,
    by with_unfolding_all rfl, by with_unfolding_all rfl, by with_unfolding_all rfl⟩

/-- The condition of the undo event and the re-derived completion flag: an
accepted `undoBall` broadcasts `INNINGS_STATUS_CHANGED` exactly when the
removed ball is a wicket ball and the innings had 10 wickets (9 after the
undo); it stores `isComplete = false` exactly when the overs of the remaining
ledger are below the tournament's `oversPerInnings` and the remaining wickets
are below 10.  For an innings with 10 wickets whose last entry is a wicket
ball, `isComplete` becomes false exactly when the remaining overs are below
`oversPerInnings`. -/
theorem undo_status_event (env : Env) (m : Match) (store : StatsStore) (innings : Option String)
    (m1 : Match) (store1 : StatsStore) (k : InningsKey) (inn : Innings) (last : Ball)
    (h : undoBall env (some m) store innings = .ok (m1, store1))
    (hk : innings.bind parseInningsKey = some k) (hinn : m.innings k = some inn)
    (hlast : inn.balls.getLast? = some last) :
    ∃ inn1 t, m1.innings k = some inn1 ∧ env.tournament = some t ∧
      (MatchEvent.inningsStatusChanged ∈ undoBallEvents env (some m) store innings ↔
        (last.isWicket = true ∧ inn.wickets = 10)) ∧
      (inn1.isComplete = false ↔
        (currentOvers (legalDeliveries inn.balls.dropLast) < t.oversPerInnings ∧
          inn1.wickets < 10)) ∧
      (last.isWicket = true → inn.wickets = 10 →
        (inn1.isComplete = false ↔
          currentOvers (legalDeliveries inn.balls.dropLast) < t.oversPerInnings)) := by
  obtain ⟨k0, m0, inn0, last0, t, s1, hk0, hf, hinn0, hlast0, ht, hm1, _, _⟩ :=
    undoBall_ok env (some m) store innings m1 store1 h
  cases hf
  rw [hk] at hk0
  cases hk0
  rw [hinn] at hinn0
  cases hinn0
  rw [hlast] at hlast0
  cases hlast0
  have hinn1 : m1.innings k = some (undoBallInnings (some t) inn last) := by
    rw [hm1]
    exact innings_setInnings _ _ _
  refine ⟨_, t, hinn1, ht, ?_, ?_, ?_⟩
  · unfold undoBallEvents
    rw [h, hk]
    simp only [hinn, hinn1, hlast]
    by_cases hw : last.isWicket = true
    · simp [undoBallInnings, hw]
      constructor <;> intro h9 <;> omega
    · simp [undoBallInnings, hw]
  · simp only [undoBallInnings]
    constructor
    · intro hc
      by_contra hn
      rw [if_pos] at hc
      · simp at hc
      · by_contra hn2
        apply hn
        rw [not_or] at hn2
        exact ⟨lt_of_not_ge hn2.1, lt_of_not_ge hn2.2⟩
    · rintro ⟨h1, h2⟩
      rw [if_neg]
      rw [not_or]
      exact ⟨not_le_of_gt h1, not_le_of_gt h2⟩
  · intro hw h10
    simp only [undoBallInnings, hw, h10]
    constructor
    · intro hc
      by_contra hn
      rw [if_pos] at hc
      · simp at hc
      · left
        exact le_of_not_gt hn
    · intro h1
      rw [if_neg]
      rw [not_or]
      exact ⟨not_le_of_gt h1, by norm_num⟩

/-- An instance of `undo_status_event`: in a twenty-over match the undo of
the tenth wicket ball takes the first innings from complete on 10 wickets to
not complete on 9 wickets and broadcasts `INNINGS_STATUS_CHANGED`. -/
theorem undo_status_event_witness :
    tenWicketsInTwenty.1.firstInnings.map (fun i => (i.wickets, i.isComplete)) =
        some (10, true) ∧
      (storedState tenWicketsInTwenty (undoBall sampleEnv (some tenWicketsInTwenty.1)
          tenWicketsInTwenty.2 (some "firstInnings"))).1.firstInnings.map
            (fun i => (i.wickets, i.isComplete)) = some (9, false) ∧
      MatchEvent.inningsStatusChanged ∈
        undoBallEvents sampleEnv (some tenWicketsInTwenty.1) tenWicketsInTwenty.2
          (some "firstInnings") := by
  refine ⟨by with_unfolding_all rfl, by with_unfolding_all rfl, ?_⟩
  have hev : tenWicketsInTwenty.1.firstInnings.map
      (fun i => (i.balls.getLast?.map (fun b => b.isWicket), i.wickets)) =
      some (some true, 10) := by
    with_unfolding_all rfl
  cases hinn : tenWicketsInTwenty.1.firstInnings with
  | none =>
    rw [hinn] at hev
    simp at hev
  | some inn =>
    rw [hinn] at hev
    cases hlast : inn.balls.getLast? with
    | none => simp [hlast] at hev
    | some last =>
      simp only [Option.map_some', hlast, Option.some.injEq, Prod.mk.injEq] at hev
      obtain ⟨_, _, _, _, hiff, _⟩ :=
        undo_status_event sampleEnv tenWicketsInTwenty.1 tenWicketsInTwenty.2
          (some "firstInnings")
          (storedState tenWicketsInTwenty (undoBall sampleEnv (some tenWicketsInTwenty.1)
            tenWicketsInTwenty.2 (some "firstInnings"))).1
          (storedState tenWicketsInTwenty (undoBall sampleEnv (some tenWicketsInTwenty.1)
            tenWicketsInTwenty.2 (some "firstInnings"))).2
          .firstInnings inn last (by with_unfolding_all rfl) rfl hinn hlast
      exact hiff.mpr ⟨hev.1, hev.2⟩

/-- The input checks of `addBall` reject a request exactly when a required
field is missing. -/
theorem checkBallRequest_error_iff (req : BallRequest) :
    (∃ msg, checkBallRequest req = .error (badRequest msg)) ↔
      (req.innings.bind parseInningsKey = none ∨ req.overNumber = none ∨ req.ballNumber = none ∨
        req.runs = none ∨ truthyStr req.commentary = false ∨ req.striker = none ∨
        req.bowler = none ∨ (req.isWicket = true ∧ truthyStr req.wicketType = false) ∨
        (req.isWicket = true ∧ req.playerOut = none)) := by
  unfold checkBallRequest
  generalize truthyStr req.wicketType = wt
  cases hk : req.innings.bind parseInningsKey with
  | none => simp [badRequest]
  | some key =>
    cases ho : req.overNumber <;> cases hb : req.ballNumber <;> cases hr : req.runs <;>
      cases hc : req.commentary <;> simp [badRequest, truthyStr]
    rename_i o b r c
    by_cases hce : c = ""
    · simp [hce]
    · simp only [hce, if_false]
      cases hw : req.isWicket <;> cases wt <;> cases hp : req.playerOut <;>
        cases hs : req.striker <;> cases hbw : req.bowler <;> simp

/-- A request that the input checks reject is answered with their failure. -/
theorem addBall_rejected (env : Env) (found : Option Match) (store : StatsStore)
    (req : BallRequest) (msg : String) (h : checkBallRequest req = .error (badRequest msg)) :
    addBall env found store req = .error (badRequest msg) := by
  unfold addBall
  rw [h]

/-- Claim C22: `addBall` answers HTTP 400 (the code of an invalid request) and
leaves the stored match and statistics records as they were whenever
`innings` is not `firstInnings` or `secondInnings`, or `overNumber`,
`ballNumber` or `runs` is absent, or `commentary`, `striker` or `bowler` is
missing, or `isWicket` is set without `wicketType` or without `playerOut`; and
a request that carries all of these passes the input checks with the numbers
it sent, whatever their values, 0 included. -/
theorem add_ball_requires_fields (env : Env) (found : Option Match) (store : StatsStore)
    (req : BallRequest) :
    ((req.innings.bind parseInningsKey = none ∨ req.overNumber = none ∨ req.ballNumber = none ∨
        req.runs = none ∨ truthyStr req.commentary = false ∨ req.striker = none ∨
        req.bowler = none ∨ (req.isWicket = true ∧ truthyStr req.wicketType = false) ∨
        (req.isWicket = true ∧ req.playerOut = none)) →
      (∃ msg, addBall env found store req = .error (badRequest msg)) ∧
        ∀ old, storedState old (addBall env found store req) = old) ∧
    (∀ key o b r st bw, req.innings.bind parseInningsKey = some key → req.overNumber = some o →
      req.ballNumber = some b → req.runs = some r → truthyStr req.commentary = true →
      req.striker = some st → req.bowler = some bw →
      (req.isWicket = true → truthyStr req.wicketType = true ∧ req.playerOut ≠ none) →
      ∃ c, checkBallRequest req = .ok c ∧ c.overNumber = o ∧ c.ballNumber = b ∧ c.runs = r) := by
  constructor
  · intro h
    obtain ⟨msg, hmsg⟩ := (checkBallRequest_error_iff req).mpr h
    have := addBall_rejected env found store req msg hmsg
    refine ⟨⟨msg, this⟩, ?_⟩
    intro old
    rw [this]
    rfl
  · intro key o b r st bw hk ho hb hr hc hs hbw hw
    cases hres : checkBallRequest req with
    | error e =>
      exfalso
      unfold checkBallRequest at hres
      rw [hk, ho, hb, hr, hs, hbw] at hres
      cases hcm : req.commentary with
      | none => simp [hcm, truthyStr] at hc
      | some cm =>
        simp only [hcm] at hres
        have hne : cm ≠ "" := by
          intro he
          simp [hcm, truthyStr, he] at hc
        simp only [hne, if_false] at hres
        by_cases hwk : req.isWicket = true
        · obtain ⟨h1, h2⟩ := hw hwk
          cases hpo : req.playerOut with
          | none => exact h2 hpo
          | some p => simp [hwk, h1, hpo] at hres
        · simp [hwk] at hres
    | ok c =>
      refine ⟨c, rfl, ?_⟩
      unfold checkBallRequest at hres
      rw [hk, ho, hb, hr, hs, hbw] at hres
      simp only at hres
      repeat' split at hres
      all_goals first
        | (simp at hres; subst hres; simp_all)
        | simp at hres

/-- Witness of `add_ball_requires_fields`: the single sent without `runs` is
answered with HTTP 400; the dot ball sent with `runs`, `overNumber` and
`ballNumber` 0 passes the checks, and is accepted on the fresh match. -/
theorem add_ball_requires_fields_witness :
    (∃ msg, addBall sampleEnv (some freshMatch) [] noRunsRequest = .error (badRequest msg)) ∧
      (∃ c, checkBallRequest zeroRequest = .ok c ∧ c.overNumber = 0 ∧ c.ballNumber = 0 ∧
        c.runs = 0) ∧
      (addBall sampleEnv (some freshMatch) [] zeroRequest).toOption.map
          (fun r => r.1.firstInnings.map (fun i => (i.balls.length, i.totalRuns))) =
        some (some (1, 0)) :=
  ⟨((add_ball_requires_fields sampleEnv (some freshMatch) [] noRunsRequest).1
      (Or.inr (Or.inr (Or.inr (Or.inl rfl))))).1,
    (add_ball_requires_fields sampleEnv (some freshMatch) [] zeroRequest).2
      .firstInnings 0 0 0 100 200 rfl rfl rfl rfl rfl rfl rfl (fun h => absurd h (by decide)),
    by with_unfolding_all rfl⟩

/-! ## Claims on the derived views -/

/-- Every entry of the fall-of-wickets list carries the total of the
innings as its score. -/
theorem fallOfWickets_score (inn : Innings) (e : FallOfWicket)
    (h : e ∈ calculateFallOfWickets (some inn)) : e.score = inn.totalRuns := by
  unfold calculateFallOfWickets at h
  simp only at h
  have key : ∀ (balls : List Ball) (acc : List FallOfWicket),
      (∀ x ∈ acc, x.score = inn.totalRuns) →
      ∀ x ∈ balls.foldl
        (fun fallOfWickets ball =>
          match ball.isWicket, ball.playerOut with
          | true, some p =>
            fallOfWickets ++
              [{ playerOut := p
                 wicketType := ball.wicketType
                 overNumber := ball.overNumber
                 ballNumber := ball.ballNumber
                 score := inn.totalRuns
                 wicketNumber := fallOfWickets.length + 1
                 timestamp := ball.timestamp }]
          | _, _ => fallOfWickets) acc, x.score = inn.totalRuns := by
    intro balls
    induction balls with
    | nil =>
      intro acc hacc x hx
      exact hacc x hx
    | cons b bs ih =>
      intro acc hacc x hx
      rw [List.foldl_cons] at hx
      refine ih _ ?_ x hx
      intro y hy
      split at hy
      · rw [List.mem_append, List.mem_singleton] at hy
        rcases hy with hy | hy
        · exact hacc y hy
        · rw [hy]
      · exact hacc y hy
  exact key inn.balls [] (by simp) e h

/-- Claim C23, the divergence: on the ledger of `chaseInnings` (three
wickets without a run, then a six) `calculateFallOfWickets` numbers the three
wickets 1, 2, 3 in ledger order and gives each the score 6, the final total of
the innings, where the score at each of the three dismissals was 0. -/
theorem fall_of_wickets_score_is_total :
    (calculateFallOfWickets (some chaseInnings)).map (fun e => (e.wicketNumber, e.score)) =
        [(1, 6), (2, 6), (3, 6)] ∧
      [1, 2, 3].map (fun n => ((chaseInnings.balls.take n).map (fun b => b.runs)).sum) =
        [0, 0, 0] ∧
      calculateFallOfWickets none = [] := by
  refine ⟨by with_unfolding_all rfl, by with_unfolding_all rfl, rfl⟩

/-- The dismissed players of a ledger are the players named on its wicket
balls. -/
theorem dismissedPlayers_any (balls : List Ball) (p : ObjectId) :
    (dismissedPlayers balls).any (fun d => d.id = p) = dismissedOn balls p := by
  unfold dismissedPlayers dismissedOn
  induction balls using List.reverseRecOn with
  | nil => rfl
  | append_singleton l b ih =>
    rw [List.foldl_append, List.any_append, ← ih]
    generalize List.foldl _ [] l = acc
    simp only [List.foldl_cons, List.foldl_nil, List.any_cons, List.any_nil, Bool.or_false]
    cases hw : b.isWicket <;> cases ho : b.playerOut <;> simp only [Bool.false_and, Bool.true_and,
      Bool.or_false, reduceCtorEq, decide_False]
    rename_i q
    by_cases hany : (acc.any fun d => decide (d.id = q)) = true
    · rw [if_pos hany]
      by_cases hq : q = p
      · subst hq
        simp [hany]
      · simp [hq]
    · rw [if_neg hany]
      simp [List.any_append]

/-- The entries of `teamPlayers` are the roster entries of the players of
the roster. -/
theorem mem_teamPlayers (players : List (Option ObjectId)) (dismissed : List Dismissal)
    (cur : List ObjectId) (e : RosterEntry) :
    e ∈ players.filterMap (fun player => player.map (rosterEntry dismissed cur)) ↔
      ∃ q, some q ∈ players ∧ rosterEntry dismissed cur q = e := by
  simp only [List.mem_filterMap, Option.map_eq_some']
  constructor
  · rintro ⟨a, ha, q, rfl, hq⟩
    exact ⟨q, ha, hq⟩
  · rintro ⟨q, hq, he⟩
    exact ⟨some q, hq, q, rfl, he⟩

/-- The status of a roster entry: out before batting before yet to bat. -/
theorem rosterEntry_status (balls : List Ball) (cur : List ObjectId) (p : ObjectId) :
    (rosterEntry (dismissedPlayers balls) cur p).id = p ∧
      ((rosterEntry (dismissedPlayers balls) cur p).status = .out ↔ dismissedOn balls p = true) ∧
      ((rosterEntry (dismissedPlayers balls) cur p).status = .batting ↔
        dismissedOn balls p = false ∧ p ∈ cur) ∧
      ((rosterEntry (dismissedPlayers balls) cur p).status = .yetToBat ↔
        dismissedOn balls p = false ∧ p ∉ cur) := by
  simp only [rosterEntry, dismissedPlayers_any]
  cases hd : dismissedOn balls p <;> by_cases hc : p ∈ cur <;> simp [hc]

/-- Claim C24 fails as stated: once the current striker 100 has been bowled
(and before the current players are updated), `getBattingStatus` lists the
player under `out`, and `batting` holds the non-striker 101 only. -/
theorem dismissed_striker_not_batting :
    strikerOutMatch.firstInnings.map (fun i => (i.currentStriker, i.currentNonStriker)) =
        some (some 100, some 101) ∧
      (getBattingStatus sampleTeams (some strikerOutMatch) (some "firstInnings")).toOption.map
          (fun r => (r.batting.map (fun e => e.id), r.out.map (fun e => e.id),
            r.yetToBat.map (fun e => e.id))) =
        some ([101], [100], [102]) := by
  refine ⟨by with_unfolding_all rfl, by with_unfolding_all rfl⟩

/-- The three lists of `getBattingStatus`, player by player of the roster. -/
theorem battingStatus_lists (teams : ObjectId → Option (List (Option ObjectId)))
    (m : Match) (innings : Option String) (r : BattingStatus) (k : InningsKey) (inn : Innings)
    (players : List (Option ObjectId))
    (h : getBattingStatus teams (some m) innings = .ok r)
    (hk : innings.bind parseInningsKey = some k) (hinn : m.innings k = some inn)
    (hteam : inn.battingTeam.bind teams = some players) :
    (∀ p, some p ∈ players →
      (p ∈ r.out.map (fun e => e.id) ↔ dismissedOn inn.balls p = true) ∧
      (p ∈ r.batting.map (fun e => e.id) ↔
        dismissedOn inn.balls p = false ∧
          (inn.currentStriker = some p ∨ inn.currentNonStriker = some p)) ∧
      (p ∈ r.yetToBat.map (fun e => e.id) ↔
        dismissedOn inn.balls p = false ∧
          inn.currentStriker ≠ some p ∧ inn.currentNonStriker ≠ some p)) ∧
    (∀ e, e ∈ r.batting ++ r.out ++ r.yetToBat → some e.id ∈ players) := by
  unfold getBattingStatus at h
  rw [hk] at h
  simp only [hinn, hteam] at h
  cases h
  have hcur : ∀ p, p ∈ inn.currentStriker.toList ++ inn.currentNonStriker.toList ↔
      (inn.currentStriker = some p ∨ inn.currentNonStriker = some p) := by
    intro p
    simp [List.mem_append, Option.mem_toList, eq_comm]
  constructor
  · intro p hp
    have hs := rosterEntry_status inn.balls
      (inn.currentStriker.toList ++ inn.currentNonStriker.toList) p
    simp only [List.mem_map, List.mem_filter, mem_teamPlayers, decide_eq_true_eq]
    refine ⟨?_, ?_, ?_⟩
    · constructor
      · rintro ⟨e, ⟨⟨q, _, rfl⟩, hst⟩, hid⟩
        have hq := rosterEntry_status inn.balls
          (inn.currentStriker.toList ++ inn.currentNonStriker.toList) q
        rw [hq.1] at hid
        subst hid
        exact hq.2.1.mp hst
      · intro hd
        exact ⟨_, ⟨⟨p, hp, rfl⟩, hs.2.1.mpr hd⟩, hs.1⟩
    · constructor
      · rintro ⟨e, ⟨⟨q, _, rfl⟩, hst⟩, hid⟩
        have hq := rosterEntry_status inn.balls
          (inn.currentStriker.toList ++ inn.currentNonStriker.toList) q
        rw [hq.1] at hid
        subst hid
        have := hq.2.2.1.mp hst
        exact ⟨this.1, (hcur _).mp this.2⟩
      · rintro ⟨hd, hc⟩
        exact ⟨_, ⟨⟨p, hp, rfl⟩, hs.2.2.1.mpr ⟨hd, (hcur _).mpr hc⟩⟩, hs.1⟩
    · constructor
      · rintro ⟨e, ⟨⟨q, _, rfl⟩, hst⟩, hid⟩
        have hq := rosterEntry_status inn.balls
          (inn.currentStriker.toList ++ inn.currentNonStriker.toList) q
        rw [hq.1] at hid
        subst hid
        have := hq.2.2.2.mp hst
        have hn := fun hx => this.2 ((hcur _).mpr hx)
        exact ⟨this.1, fun hx => hn (Or.inl hx), fun hx => hn (Or.inr hx)⟩
      · rintro ⟨hd, hc1, hc2⟩
        refine ⟨_, ⟨⟨p, hp, rfl⟩, hs.2.2.2.mpr ⟨hd, ?_⟩⟩, hs.1⟩
        intro hx
        rcases (hcur _).mp hx with hx | hx
        · exact hc1 hx
        · exact hc2 hx
  · intro e he
    simp only [List.mem_append, List.mem_filter, mem_teamPlayers] at he
    have : ∃ q, some q ∈ players ∧ rosterEntry (dismissedPlayers inn.balls)
        (inn.currentStriker.toList ++ inn.currentNonStriker.toList) q = e := by
      rcases he with (⟨h1, _⟩ | ⟨h1, _⟩) | ⟨h1, _⟩ <;> exact h1
    obtain ⟨q, hq, rfl⟩ := this
    rw [(rosterEntry_status inn.balls _ q).1]
    exact hq

/-- Claim C24 as amended: in the answer of `getBattingStatus` every player of
the batting team's roster appears in exactly one of the lists `out`,
`batting` and `yetToBat`: in `out` exactly when the player is named as
`playerOut` on a wicket ball of the innings' ledger, in `batting` exactly when
the player is not out and is the current striker or non-striker, in
`yetToBat` otherwise; and the lists hold roster players only. -/
theorem batting_status_partition (teams : ObjectId → Option (List (Option ObjectId)))
    (m : Match) (innings : Option String) (r : BattingStatus) (k : InningsKey) (inn : Innings)
    (players : List (Option ObjectId))
    (h : getBattingStatus teams (some m) innings = .ok r)
    (hk : innings.bind parseInningsKey = some k) (hinn : m.innings k = some inn)
    (hteam : inn.battingTeam.bind teams = some players) :
    (∀ p, some p ∈ players →
      (p ∈ r.out.map (fun e => e.id) ↔ dismissedOn inn.balls p = true) ∧
      (p ∈ r.batting.map (fun e => e.id) ↔
        dismissedOn inn.balls p = false ∧
          (inn.currentStriker = some p ∨ inn.currentNonStriker = some p)) ∧
      (p ∈ r.yetToBat.map (fun e => e.id) ↔
        dismissedOn inn.balls p = false ∧
          inn.currentStriker ≠ some p ∧ inn.currentNonStriker ≠ some p) ∧
      (p ∈ r.out.map (fun e => e.id) ∨ p ∈ r.batting.map (fun e => e.id) ∨
        p ∈ r.yetToBat.map (fun e => e.id)) ∧
      ¬ (p ∈ r.out.map (fun e => e.id) ∧ p ∈ r.batting.map (fun e => e.id)) ∧
      ¬ (p ∈ r.out.map (fun e => e.id) ∧ p ∈ r.yetToBat.map (fun e => e.id)) ∧
      ¬ (p ∈ r.batting.map (fun e => e.id) ∧ p ∈ r.yetToBat.map (fun e => e.id))) ∧
    (∀ e, e ∈ r.batting ++ r.out ++ r.yetToBat → some e.id ∈ players) := by
  obtain ⟨hlists, hroster⟩ := battingStatus_lists teams m innings r k inn players h hk hinn hteam
  refine ⟨?_, hroster⟩
  intro p hp
  obtain ⟨h1, h2, h3⟩ := hlists p hp
  refine ⟨h1, h2, h3, ?_, ?_, ?_, ?_⟩
  · rw [h1, h2, h3]
    cases dismissedOn inn.balls p
    · by_cases hs : inn.currentStriker = some p
      · exact Or.inr (Or.inl ⟨rfl, Or.inl hs⟩)
      · by_cases hn : inn.currentNonStriker = some p
        · exact Or.inr (Or.inl ⟨rfl, Or.inr hn⟩)
        · exact Or.inr (Or.inr ⟨rfl, hs, hn⟩)
    · exact Or.inl rfl
  · rw [h1, h2]
    rintro ⟨ha, hb, _⟩
    rw [ha] at hb
    cases hb
  · rw [h1, h3]
    rintro ⟨ha, hb, _⟩
    rw [ha] at hb
    cases hb
  · rw [h2, h3]
    rintro ⟨⟨_, hc⟩, _, hs, hn⟩
    rcases hc with hc | hc
    · exact hs hc
    · exact hn hc

/-- Witness of `batting_status_partition`: with the striker 100 bowled and
101 the non-striker, the roster 100, 101, 102 of team 10 is split into out,
batting and yet to bat. -/
theorem batting_status_partition_witness :
    ∃ r, getBattingStatus sampleTeams (some strikerOutMatch) (some "firstInnings") = .ok r ∧
      100 ∈ r.out.map (fun e => e.id) ∧ 101 ∈ r.batting.map (fun e => e.id) ∧
      102 ∈ r.yetToBat.map (fun e => e.id) := by
  have h : getBattingStatus sampleTeams (some strikerOutMatch) (some "firstInnings") =
      .ok { batting := [⟨101, .batting, none⟩]
            out := [⟨100, .out, some ⟨some .bowled, 0, 1⟩⟩]
            yetToBat := [⟨102, .yetToBat, none⟩] } := by
    with_unfolding_all rfl
  have hp := (batting_status_partition sampleTeams strikerOutMatch (some "firstInnings") _
    .firstInnings (strikerOutMatch.firstInnings.getD {}) [some 100, some 101, some 102] h rfl
    (by with_unfolding_all rfl) (by with_unfolding_all rfl)).1
  refine ⟨_, h, ?_, ?_, ?_⟩
  · exact ((hp 100 (by simp)).1).mpr (by with_unfolding_all rfl)
  · exact ((hp 101 (by simp)).2.1).mpr
      ⟨by with_unfolding_all rfl, Or.inr (by with_unfolding_all rfl)⟩
  · exact ((hp 102 (by simp)).2.2.1).mpr
      ⟨by with_unfolding_all rfl, by with_unfolding_all decide, by with_unfolding_all decide⟩

/-- The balls faced on a ledger with one more ball. -/
theorem ballsFaced_append (l : List Ball) (b : Ball) (p : ObjectId) :
    ballsFaced (l ++ [b]) p = if b.striker = p then ballsFaced l p ++ [b] else ballsFaced l p := by
  unfold ballsFaced
  rw [List.filter_append]
  by_cases h : b.striker = p <;> simp [h]

/-- The dismissals on a ledger with one more ball. -/
theorem dismissedOn_append (l : List Ball) (b : Ball) (p : ObjectId) :
    dismissedOn (l ++ [b]) p = (dismissedOn l p || (b.isWicket && decide (b.playerOut = some p))) := by
  unfold dismissedOn
  simp [List.any_append]

/-- A player is dismissed on a ledger when a wicket ball names them. -/
theorem dismissedOn_iff (l : List Ball) (p : ObjectId) :
    dismissedOn l p = true ↔ ∃ b ∈ l, b.isWicket = true ∧ b.playerOut = some p := by
  unfold dismissedOn
  simp [List.any_eq_true]

/-- A player who was never striker faced no ball. -/
theorem ballsFaced_eq_nil (l : List Ball) (p : ObjectId) (h : ¬ ∃ b ∈ l, b.striker = p) :
    ballsFaced l p = [] := by
  unfold ballsFaced
  rw [List.filter_eq_nil_iff]
  intro b hb
  simp only [decide_eq_true_eq]
  intro hs
  exact h ⟨b, hb, hs⟩

/-- The test `playerStats[p]` of the scorecard. -/
theorem any_line_iff (S : List BattingLine) (p : ObjectId) :
    S.any (fun e => decide (e.playerId = p)) = true ↔ p ∈ S.map (fun e => e.playerId) := by
  simp [List.any_eq_true, List.mem_map]

/-- An update that keeps the player of a line keeps the players of the
scorecard. -/
theorem updateLine_keys (p : ObjectId) (f : BattingLine → BattingLine)
    (hf : ∀ e, (f e).playerId = e.playerId) (S : List BattingLine) :
    (updateLine p f S).map (fun e => e.playerId) = S.map (fun e => e.playerId) := by
  unfold updateLine
  rw [List.map_map]
  apply List.map_congr_left
  intro e _
  by_cases h : e.playerId = p <;> simp [h, hf]

/-- The lines of an updated scorecard. -/
theorem mem_updateLine (p : ObjectId) (f : BattingLine → BattingLine) (S : List BattingLine)
    (e1 : BattingLine) :
    e1 ∈ updateLine p f S ↔ ∃ e ∈ S, (if e.playerId = p then f e else e) = e1 := by
  unfold updateLine
  simp [List.mem_map]

/-- An update that keeps the runs of a line keeps the runs of the
scorecard. -/
theorem updateLine_runs_same (p : ObjectId) (f : BattingLine → BattingLine)
    (hf : ∀ e, (f e).runs = e.runs) (S : List BattingLine) :
    ((updateLine p f S).map (fun e => e.runs)).sum = (S.map (fun e => e.runs)).sum := by
  unfold updateLine
  rw [List.map_map]
  congr 1
  apply List.map_congr_left
  intro e _
  by_cases h : e.playerId = p <;> simp [h, hf]

/-- An update that adds `r` runs to the line of a player adds `r` to the runs
of the scorecard. -/
theorem updateLine_runs_add (p : ObjectId) (f : BattingLine → BattingLine) (r : Int)
    (hf : ∀ e, (f e).runs = e.runs + r) (S : List BattingLine)
    (hnd : (S.map (fun e => e.playerId)).Nodup) (hp : p ∈ S.map (fun e => e.playerId)) :
    ((updateLine p f S).map (fun e => e.runs)).sum = (S.map (fun e => e.runs)).sum + r := by
  induction S with
  | nil => simp at hp
  | cons x xs ih =>
    simp only [List.map_cons, List.nodup_cons] at hnd
    by_cases hx : x.playerId = p
    · have hxs : updateLine p f xs = xs := by
        unfold updateLine
        conv_rhs => rw [← List.map_id xs]
        apply List.map_congr_left
        intro e he
        have : e.playerId ≠ p := by
          intro hep
          apply hnd.1
          rw [hx, ← hep]
          exact List.mem_map_of_mem _ he
        simp [this]
      have hcons : updateLine p f (x :: xs) = f x :: updateLine p f xs := by
        simp [updateLine, hx]
      rw [hcons, hxs]
      simp only [List.map_cons, List.sum_cons, hf]
      omega
    · have hcons : updateLine p f (x :: xs) = x :: updateLine p f xs := by
        simp [updateLine, hx]
      have hp1 : p ∈ xs.map (fun e => e.playerId) := by
        simp only [List.map_cons, List.mem_cons] at hp
        rcases hp with hp | hp
        · exact absurd hp.symm hx
        · exact hp
      rw [hcons]
      simp only [List.map_cons, List.sum_cons]
      rw [ih hnd.2 hp1]
      omega

/-- A line that takes a ball of its player agrees with the longer ledger. -/
theorem scores_strike (l : List Ball) (b : Ball) (e : BattingLine) (h : e.Scores l)
    (hs : e.playerId = b.striker) : (strikeLine b e).Scores (l ++ [b]) := by
  obtain ⟨h1, h2, h3, h4⟩ := h
  unfold BattingLine.Scores strikeLine
  simp only [ballsFaced_append, hs, if_true]
  rw [hs] at h1 h2 h3 h4
  refine ⟨?_, ?_, ?_, ?_⟩
  · simp [h1]
  · rw [List.filter_append]
    by_cases hw : b.ballType = .wide <;> simp [hw, h2]
  · rw [List.filter_append]
    by_cases hw : b.runs = 4 <;> simp [hw, h3]
  · rw [List.filter_append]
    by_cases hw : b.runs = 6 <;> simp [hw, h4]

/-- A line of another player agrees with the longer ledger as it did with the
shorter one. -/
theorem scores_other (l : List Ball) (b : Ball) (e : BattingLine) (h : e.Scores l)
    (hs : b.striker ≠ e.playerId) : e.Scores (l ++ [b]) := by
  unfold BattingLine.Scores at h ⊢
  simp only [ballsFaced_append, hs, if_false]
  exact h

/-- The line of a player who never was striker. -/
theorem scores_new (l : List Ball) (p : ObjectId) (e : BattingLine)
    (h : ¬ ∃ b ∈ l, b.striker = p) (hp : e.playerId = p) (h1 : e.runs = 0) (h2 : e.balls = 0)
    (h3 : e.fours = 0) (h4 : e.sixes = 0) : e.Scores l := by
  unfold BattingLine.Scores
  rw [hp, ballsFaced_eq_nil l p h]
  simp [h1, h2, h3, h4]

/-- The scorecard after the striker's line has taken the ball: the lines
agree with the longer ledger on the scores, the dismissals are those of the
shorter one. -/
theorem scorecard_strike (l : List Ball) (S : List BattingLine) (b : Ball)
    (h : Scorecard l S) :
    ((battingStrike S b).map (fun e => e.playerId)).Nodup ∧
      (∀ p, p ∈ (battingStrike S b).map (fun e => e.playerId) ↔
        (∃ b1 ∈ l ++ [b], b1.striker = p) ∨ dismissedOn l p = true) ∧
      (∀ e ∈ battingStrike S b, e.Scores (l ++ [b]) ∧ e.isOut = dismissedOn l e.playerId) ∧
      ((battingStrike S b).map (fun e => e.runs)).sum = ((l ++ [b]).map (fun b => b.runs)).sum := by
  obtain ⟨hnd, hkeys, hlines, hsum⟩ := h
  have hstriker : ∀ p, (∃ b1 ∈ l ++ [b], b1.striker = p) ↔ (∃ b1 ∈ l, b1.striker = p) ∨ b.striker = p := by
    intro p
    constructor
    · rintro ⟨b1, hb1, hp⟩
      rw [List.mem_append, List.mem_singleton] at hb1
      rcases hb1 with hb1 | hb1
      · exact Or.inl ⟨b1, hb1, hp⟩
      · exact Or.inr (hb1 ▸ hp)
    · rintro (⟨b1, hb1, hp⟩ | hp)
      · exact ⟨b1, List.mem_append_left _ hb1, hp⟩
      · exact ⟨b, by simp, hp⟩
  unfold battingStrike
  simp only
  rw [updateLine_keys b.striker (strikeLine b) (fun e => rfl)]
  by_cases hany : S.any (fun e => decide (e.playerId = b.striker)) = true
  · have hmem := (any_line_iff S b.striker).mp hany
    rw [if_pos hany]
    refine ⟨hnd, ?_, ?_, ?_⟩
    · intro p
      rw [hkeys, hstriker]
      constructor
      · rintro (h1 | h1)
        · exact Or.inl (Or.inl h1)
        · exact Or.inr h1
      · rintro ((h1 | h1) | h1)
        · exact Or.inl h1
        · rw [← h1]
          exact (hkeys _).mp hmem
        · exact Or.inr h1
    · intro e1 he1
      obtain ⟨e, he, rfl⟩ := (mem_updateLine _ _ _ _).mp he1
      obtain ⟨hsc, hout⟩ := hlines e he
      by_cases hp : e.playerId = b.striker
      · simp only [hp, if_true]
        exact ⟨scores_strike l b e hsc hp, hout⟩
      · simp only [hp, if_false]
        exact ⟨scores_other l b e hsc (fun hx => hp hx.symm), hout⟩
    · rw [updateLine_runs_add b.striker (strikeLine b) b.runs (fun e => rfl) S hnd hmem, hsum]
      simp
  · have hmem : b.striker ∉ S.map (fun e => e.playerId) := fun hx => hany ((any_line_iff S _).mpr hx)
    have hnever : ¬ ∃ b1 ∈ l, b1.striker = b.striker := fun hx => hmem ((hkeys _).mpr (Or.inl hx))
    have hnotout : dismissedOn l b.striker = false := by
      cases hd : dismissedOn l b.striker
      · rfl
      · exact absurd ((hkeys _).mpr (Or.inr hd)) hmem
    rw [if_neg hany]
    have hnd1 : ((S ++ [newBattingLine b.striker]).map (fun e => e.playerId)).Nodup := by
      rw [List.map_append, List.nodup_append]
      refine ⟨hnd, by simp, ?_⟩
      intro a ha hb
      simp only [List.map_cons, List.map_nil, List.mem_singleton] at hb
      rw [hb] at ha
      exact hmem ha
    have hmem1 : b.striker ∈ (S ++ [newBattingLine b.striker]).map (fun e => e.playerId) := by
      simp [newBattingLine]
    refine ⟨hnd1, ?_, ?_, ?_⟩
    · intro p
      rw [List.map_append, List.mem_append, hkeys, hstriker]
      simp only [List.map_cons, List.map_nil, List.mem_singleton, newBattingLine]
      constructor
      · rintro ((h1 | h1) | h1)
        · exact Or.inl (Or.inl h1)
        · exact Or.inr h1
        · exact Or.inl (Or.inr h1.symm)
      · rintro ((h1 | h1) | h1)
        · exact Or.inl (Or.inl h1)
        · exact Or.inr h1.symm
        · exact Or.inl (Or.inr h1)
    · intro e1 he1
      obtain ⟨e, he, rfl⟩ := (mem_updateLine _ _ _ _).mp he1
      rw [List.mem_append] at he
      rcases he with he | he
      · obtain ⟨hsc, hout⟩ := hlines e he
        have hp : e.playerId ≠ b.striker := by
          intro hx
          apply hmem
          rw [← hx]
          exact List.mem_map_of_mem _ he
        simp only [hp, if_false]
        exact ⟨scores_other l b e hsc (fun hx => hp hx.symm), hout⟩
      · simp only [List.mem_singleton] at he
        subst he
        have hp : (newBattingLine b.striker).playerId = b.striker := rfl
        simp only [hp, if_true]
        refine ⟨scores_strike l b _ (scores_new l b.striker _ hnever rfl rfl rfl rfl rfl) rfl, ?_⟩
        show false = dismissedOn l b.striker
        rw [hnotout]
    · rw [updateLine_runs_add b.striker (strikeLine b) b.runs (fun e => rfl) _ hnd1 hmem1]
      simp [newBattingLine, hsum]

/-- The scorecard after one more ball. -/
theorem scorecard_step (T : Int) (l : List Ball) (S : List BattingLine) (b : Ball)
    (h : Scorecard l S) : Scorecard (l ++ [b]) (battingStep T S b) := by
  obtain ⟨hnd, hkeys, hlines, hsum⟩ := scorecard_strike l S b h
  unfold battingStep
  simp only
  generalize battingStrike S b = S2 at hnd hkeys hlines hsum ⊢
  have hsame : (∀ p, dismissedOn (l ++ [b]) p = dismissedOn l p) → Scorecard (l ++ [b]) S2 := by
    intro hd
    refine ⟨hnd, ?_, ?_, hsum⟩
    · intro p
      rw [hkeys, hd]
    · intro e he
      rw [hd]
      exact hlines e he
  cases hw : b.isWicket with
  | false =>
    have : Scorecard (l ++ [b]) S2 := hsame (fun p => by rw [dismissedOn_append, hw]; simp)
    cases ho : b.playerOut <;> exact this
  | true =>
    cases ho : b.playerOut with
    | none => exact hsame (fun p => by rw [dismissedOn_append, ho]; simp)
    | some o =>
      simp only
      have hdis : ∀ p, dismissedOn (l ++ [b]) p = (dismissedOn l p || decide (o = p)) := by
        intro p
        rw [dismissedOn_append, hw, ho]
        simp
      by_cases hany : S2.any (fun e => decide (e.playerId = o)) = true
      · have hmem := (any_line_iff S2 o).mp hany
        rw [if_pos hany]
        refine ⟨?_, ?_, ?_, ?_⟩
        · rw [updateLine_keys o (dismissLine T b) (fun e => rfl)]
          exact hnd
        · intro p
          rw [updateLine_keys o (dismissLine T b) (fun e => rfl), hkeys, hdis]
          constructor
          · rintro (h1 | h1)
            · exact Or.inl h1
            · right
              simp [h1]
          · rintro (h1 | h1)
            · exact Or.inl h1
            · simp only [Bool.or_eq_true, decide_eq_true_eq] at h1
              rcases h1 with h1 | h1
              · exact Or.inr h1
              · rw [← h1]
                exact (hkeys o).mp hmem
        · intro e1 he1
          obtain ⟨e, he, rfl⟩ := (mem_updateLine _ _ _ _).mp he1
          obtain ⟨hsc, hout⟩ := hlines e he
          by_cases hp : e.playerId = o
          · rw [if_pos hp]
            refine ⟨hsc, ?_⟩
            show true = dismissedOn (l ++ [b]) e.playerId
            rw [hdis, hp]
            simp
          · rw [if_neg hp]
            refine ⟨hsc, ?_⟩
            rw [hdis, hout]
            have : decide (o = e.playerId) = false := by
              simp only [decide_eq_false_iff_not]
              exact fun hx => hp hx.symm
            rw [this, Bool.or_false]
        · rw [updateLine_runs_same o (dismissLine T b) (fun e => rfl), hsum]
      · have hmem : o ∉ S2.map (fun e => e.playerId) := fun hx => hany ((any_line_iff S2 o).mpr hx)
        rw [if_neg hany]
        have hos : o ≠ b.striker := by
          intro hx
          apply hmem
          rw [hx]
          exact (hkeys _).mpr (Or.inl ⟨b, by simp, rfl⟩)
        rw [if_pos hos]
        have hnever : ¬ ∃ b1 ∈ l ++ [b], b1.striker = o := fun hx => hmem ((hkeys o).mpr (Or.inl hx))
        refine ⟨?_, ?_, ?_, ?_⟩
        · rw [List.map_append, List.nodup_append]
          refine ⟨hnd, by simp, ?_⟩
          intro a ha hb
          simp only [List.map_cons, List.map_nil, List.mem_singleton] at hb
          rw [hb] at ha
          exact hmem ha
        · intro p
          rw [List.map_append, List.mem_append, hkeys, hdis]
          simp only [List.map_cons, List.map_nil, List.mem_singleton, Bool.or_eq_true,
            decide_eq_true_eq]
          have hid : (dismissLine T b (newBattingLine o)).playerId = o := rfl
          rw [hid]
          constructor
          · rintro ((h1 | h1) | h1)
            · exact Or.inl h1
            · exact Or.inr (Or.inl h1)
            · exact Or.inr (Or.inr h1.symm)
          · rintro (h1 | h1 | h1)
            · exact Or.inl (Or.inl h1)
            · exact Or.inl (Or.inr h1)
            · exact Or.inr h1.symm
        · intro e he
          rw [List.mem_append] at he
          rcases he with he | he
          · obtain ⟨hsc, hout⟩ := hlines e he
            refine ⟨hsc, ?_⟩
            have hp : o ≠ e.playerId := by
              intro hx
              apply hmem
              rw [hx]
              exact List.mem_map_of_mem _ he
            rw [hdis, hout]
            have : decide (o = e.playerId) = false := by
              simp only [decide_eq_false_iff_not]
              exact hp
            rw [this, Bool.or_false]
          · simp only [List.mem_singleton] at he
            subst he
            refine ⟨scores_new (l ++ [b]) o _ hnever rfl rfl rfl rfl rfl, ?_⟩
            show true = dismissedOn (l ++ [b]) o
            rw [hdis]
            simp
        · rw [List.map_append, List.sum_append, hsum]
          simp [dismissLine, newBattingLine]

/-- The scorecard that the loop of `calculateBattingStats` builds is the one
of the ledger. -/
theorem scorecard_fold (T : Int) (balls : List Ball) :
    Scorecard balls (balls.foldl (battingStep T) []) := by
  induction balls using List.reverseRecOn with
  | nil =>
    refine ⟨by simp, ?_, by simp, by simp⟩
    intro p
    simp [dismissedOn]
  | append_singleton l b ih =>
    rw [List.foldl_append]
    exact scorecard_step T l _ b ih

/-- The loop of `calculateBattingStats`, which skips the balls whose striker
does not resolve, is the loop of `battingStep` over the populated balls that
are not skipped. -/
theorem battingFold_scored (users : ObjectId → Bool) (T : Int) (balls : List Ball)
    (S : List BattingLine) :
    balls.foldl
        (fun stats ball =>
          if users ball.striker then battingStep T stats (populateBall users ball) else stats) S =
      ((scoredBalls users balls).map (populateBall users)).foldl (battingStep T) S := by
  induction balls generalizing S with
  | nil => rfl
  | cons b l ih =>
    unfold scoredBalls at ih ⊢
    by_cases hb : users b.striker = true
    · simp only [List.foldl_cons, hb, if_true, List.filter_cons_of_pos, List.map_cons]
      exact ih _
    · simp only [List.foldl_cons, hb, if_false, List.filter_cons_of_neg, Bool.false_eq_true,
        not_false_eq_true]
      exact ih _

/-- The balls a player faced on the populated ledger are the populated balls
the player faced among those that are not skipped. -/
theorem ballsFaced_populated (users : ObjectId → Bool) (balls : List Ball) (p : ObjectId) :
    ballsFaced ((scoredBalls users balls).map (populateBall users)) p =
      (ballsFaced (scoredBalls users balls) p).map (populateBall users) := by
  unfold ballsFaced
  rw [List.filter_map]
  rfl

/-- A player who resolves faced, among the balls that are not skipped, the
balls the player faced on the whole ledger. -/
theorem ballsFaced_scored (users : ObjectId → Bool) (balls : List Ball) (p : ObjectId)
    (hp : users p = true) : ballsFaced (scoredBalls users balls) p = ballsFaced balls p := by
  unfold ballsFaced scoredBalls
  rw [List.filter_filter]
  apply List.filter_congr
  intro b _
  by_cases hs : b.striker = p
  · simp [hs, hp]
  · simp [hs]

/-- The dismissals on the populated ledger. -/
theorem dismissedOn_populated (users : ObjectId → Bool) (balls : List Ball) (p : ObjectId) :
    dismissedOn ((scoredBalls users balls).map (populateBall users)) p = true ↔
      ∃ b ∈ balls, users b.striker = true ∧ b.isWicket = true ∧ b.playerOut = some p ∧
        users p = true := by
  rw [dismissedOn_iff]
  unfold scoredBalls
  constructor
  · rintro ⟨b1, hb1, hw, ho⟩
    obtain ⟨b, hb, rfl⟩ := List.mem_map.mp hb1
    rw [List.mem_filter] at hb
    refine ⟨b, hb.1, hb.2, hw, ?_⟩
    have ho1 : b.playerOut.bind (fun q => if users q then some q else none) = some p := ho
    cases hq : b.playerOut with
    | none => rw [hq] at ho1; simp at ho1
    | some q =>
      rw [hq] at ho1
      simp only [Option.some_bind] at ho1
      by_cases hu : users q = true
      · rw [if_pos hu] at ho1
        cases ho1
        exact ⟨rfl, hu⟩
      · rw [if_neg hu] at ho1
        cases ho1
  · rintro ⟨b, hb, hs, hw, ho, hu⟩
    refine ⟨populateBall users b, List.mem_map.mpr ⟨b, List.mem_filter.mpr ⟨hb, hs⟩, rfl⟩, hw, ?_⟩
    show b.playerOut.bind (fun q => if users q then some q else none) = some p
    rw [ho]
    simp [hu]

/-- The strikers of the populated ledger. -/
theorem striker_populated (users : ObjectId → Bool) (balls : List Ball) (p : ObjectId) :
    (∃ b ∈ (scoredBalls users balls).map (populateBall users), b.striker = p) ↔
      ∃ b ∈ balls, users b.striker = true ∧ b.striker = p := by
  unfold scoredBalls
  constructor
  · rintro ⟨b1, hb1, hs⟩
    obtain ⟨b, hb, rfl⟩ := List.mem_map.mp hb1
    rw [List.mem_filter] at hb
    exact ⟨b, hb.1, hb.2, hs⟩
  · rintro ⟨b, hb, hu, hs⟩
    exact ⟨populateBall users b, List.mem_map.mpr ⟨b, List.mem_filter.mpr ⟨hb, hu⟩, rfl⟩, hs⟩

/-- Claim C25 fails as stated: the regular single of `strayOutRequest`, which
names player 101 as `playerOut` on a ball that is no wicket, is accepted by
`addBall` and stored with that `playerOut`; with every user resolving, the
scorecard of the innings has the one line of the striker, player 100, and no
line for player 101. -/
theorem stray_player_out_has_no_line :
    (addBall sampleEnv (some freshMatch) [] strayOutRequest).toOption.isSome = true ∧
      strayOutState.1.firstInnings.map
          (fun i => i.balls.map (fun b => (b.striker, b.isWicket, b.playerOut))) =
        some [(100, false, some 101)] ∧
      (calculateBattingStats (fun _ => true) strayOutState.1.firstInnings).map
          (fun e => e.playerId) = [100] ∧
      101 ∉ (calculateBattingStats (fun _ => true) strayOutState.1.firstInnings).map
          (fun e => e.playerId) := by
  have h : (calculateBattingStats (fun _ => true) strayOutState.1.firstInnings).map
      (fun e => e.playerId) = [100] := by
    with_unfolding_all rfl
  refine ⟨by with_unfolding_all rfl, by with_unfolding_all rfl, h, ?_⟩
  rw [h]
  decide

/-- Claim C25 as amended: for every ledger (the empty one gives the empty
scorecard) and whichever users resolve, `calculateBattingStats` returns
exactly one line per distinct player who is the striker of a ball whose
striker resolves or the resolving `playerOut` of a wicket ball whose striker
resolves; in a line, `runs` is the sum of the runs of the balls the player
faced as striker, `balls` the number of those balls that are not wides,
`fours` and `sixes` the numbers of those balls with runs 4 and 6, and `isOut`
is true exactly when the player is named as `playerOut` on a wicket ball
whose striker resolves; the runs of the lines add up to the runs of the balls
whose striker resolves, which are the runs of the ledger when every striker
resolves. -/
theorem batting_scorecard_per_player (users : ObjectId → Bool) (inn : Innings) :
    ((calculateBattingStats users (some inn)).map (fun e => e.playerId)).Nodup ∧
      (∀ p, p ∈ (calculateBattingStats users (some inn)).map (fun e => e.playerId) ↔
        (∃ b ∈ inn.balls, users b.striker = true ∧ b.striker = p) ∨
          (∃ b ∈ inn.balls, users b.striker = true ∧ b.isWicket = true ∧
            b.playerOut = some p ∧ users p = true)) ∧
      (∀ e ∈ calculateBattingStats users (some inn),
        e.runs = ((ballsFaced inn.balls e.playerId).map (fun b => b.runs)).sum ∧
        e.balls =
          (((ballsFaced inn.balls e.playerId).filter (fun b => b.ballType ≠ .wide)).length : Int) ∧
        e.fours = (((ballsFaced inn.balls e.playerId).filter (fun b => b.runs = 4)).length : Int) ∧
        e.sixes = (((ballsFaced inn.balls e.playerId).filter (fun b => b.runs = 6)).length : Int) ∧
        (e.isOut = true ↔
          ∃ b ∈ inn.balls, users b.striker = true ∧ b.isWicket = true ∧
            b.playerOut = some e.playerId)) ∧
      ((calculateBattingStats users (some inn)).map (fun e => e.runs)).sum =
        ((scoredBalls users inn.balls).map (fun b => b.runs)).sum ∧
      ((∀ b ∈ inn.balls, users b.striker = true) →
        ((calculateBattingStats users (some inn)).map (fun e => e.runs)).sum =
          (inn.balls.map (fun b => b.runs)).sum) := by
  obtain ⟨hnd, hkeys, hlines, hsum⟩ :=
    scorecard_fold inn.totalRuns ((scoredBalls users inn.balls).map (populateBall users))
  rw [← battingFold_scored] at hnd hkeys hlines hsum
  unfold calculateBattingStats
  simp only
  generalize inn.balls.foldl
    (fun stats ball =>
      if users ball.striker then battingStep inn.totalRuns stats (populateBall users ball)
      else stats) [] = S at hnd hkeys hlines hsum ⊢
  have hk : (S.map (fun e : BattingLine =>
      { e with strikeRate := if e.balls > 0 then (e.runs : ℚ) / (e.balls : ℚ) * 100 else 0 })).map
        (fun e => e.playerId) = S.map (fun e => e.playerId) := by
    rw [List.map_map]
    rfl
  have hr : (S.map (fun e : BattingLine =>
      { e with strikeRate := if e.balls > 0 then (e.runs : ℚ) / (e.balls : ℚ) * 100 else 0 })).map
        (fun e => e.runs) = S.map (fun e => e.runs) := by
    rw [List.map_map]
    rfl
  have hruns : (((scoredBalls users inn.balls).map (populateBall users)).map (fun b => b.runs)) =
      (scoredBalls users inn.balls).map (fun b => b.runs) := by
    rw [List.map_map]
    rfl
  rw [hruns] at hsum
  have hres : ∀ e ∈ S, users e.playerId = true := by
    intro e he
    have hmem : e.playerId ∈ S.map (fun e => e.playerId) := List.mem_map_of_mem _ he
    rcases (hkeys e.playerId).mp hmem with h1 | h1
    · obtain ⟨b, _, hu, hs⟩ := (striker_populated users inn.balls e.playerId).mp h1
      rw [← hs]
      exact hu
    · exact ((dismissedOn_populated users inn.balls e.playerId).mp h1).choose_spec.2.2.2.2
  refine ⟨by rw [hk]; exact hnd, ?_, ?_, by rw [hr]; exact hsum, ?_⟩
  · intro p
    rw [hk, hkeys, striker_populated, dismissedOn_populated]
  · intro e1 he1
    obtain ⟨e, he, rfl⟩ := List.mem_map.mp he1
    obtain ⟨⟨h1, h2, h3, h4⟩, hout⟩ := hlines e he
    have hu := hres e he
    rw [ballsFaced_populated, ballsFaced_scored users inn.balls e.playerId hu] at h1 h2 h3 h4
    refine ⟨?_, ?_, ?_, ?_, ?_⟩
    · show e.runs = _
      rw [h1, List.map_map]
      rfl
    · show e.balls = _
      rw [h2, List.filter_map, List.length_map]
      rfl
    · show e.fours = _
      rw [h3, List.filter_map, List.length_map]
      rfl
    · show e.sixes = _
      rw [h4, List.filter_map, List.length_map]
      rfl
    · show e.isOut = true ↔ _
      rw [hout, dismissedOn_populated]
      constructor
      · rintro ⟨b, hb, hs, hw, ho, _⟩
        exact ⟨b, hb, hs, hw, ho⟩
      · rintro ⟨b, hb, hs, hw, ho⟩
        exact ⟨b, hb, hs, hw, ho, hu⟩
  · intro hall
    rw [hr, hsum]
    unfold scoredBalls
    rw [List.filter_eq_self.mpr hall]

/-- Witness of `batting_scorecard_per_player`: the ledger of
`singleThenWicketInnings` is a single and a wicket of player 100; with every
user resolving its scorecard is the one line of player 100, out, whose run is
the run of the ledger; when player 100 does not resolve both balls are
skipped and the scorecard is empty. -/
theorem batting_scorecard_per_player_witness :
    singleThenWicketInnings.balls.map (fun b => (b.striker, b.runs, b.isWicket, b.playerOut)) =
        [(100, 1, false, none), (100, 0, true, some 100)] ∧
      (calculateBattingStats (fun _ => true) (some singleThenWicketInnings)).map
          (fun e => (e.playerId, e.runs, e.balls, e.isOut)) = [(100, 1, 2, true)] ∧
      calculateBattingStats (fun p => p != 100) (some singleThenWicketInnings) = [] ∧
      ((calculateBattingStats (fun _ => true) (some singleThenWicketInnings)).map
          (fun e => e.runs)).sum =
        (singleThenWicketInnings.balls.map (fun b => b.runs)).sum :=
  ⟨by with_unfolding_all rfl, by with_unfolding_all rfl, by with_unfolding_all rfl,
    (batting_scorecard_per_player (fun _ => true) singleThenWicketInnings).2.2.2.2
      (fun _ _ => rfl)⟩

/-! ## Claims on the final over and on the bowler's record -/

/-- The final-over condition compares the overs with themselves. -/
theorem finalOverCondition_same (maxOvers o : ℚ) : finalOverCondition maxOvers o o = false := by
  simp [finalOverCondition]

/-- No `addBall` request broadcasts `FINAL_OVER`. -/
theorem addBallEvents_no_final_over (env : Env) (found : Option Match) (store : StatsStore)
    (req : BallRequest) : MatchEvent.finalOver ∉ addBallEvents env found store req := by
  unfold addBallEvents
  split
  · rename_i m1 store1 c hadd hc
    obtain ⟨c0, m, inn, ballType, wicketType, t, s1, hc0, hf, hinn, _, ht, hm1, _, _⟩ :=
      addBall_ok env found store req m1 store1 hadd
    rw [hc] at hc0
    cases hc0
    have hinn1 : m1.innings c.key = some
        (addBallInnings (some t) inn (makeBall env req c ballType wicketType) req.isWicket) := by
      rw [hm1]
      exact innings_setInnings _ _ _
    rw [hinn1]
    have hflag : finalOverFlag env.tournament
        (addBallInnings (some t) inn (makeBall env req c ballType wicketType) req.isWicket) =
        false := by
      rw [ht]
      simp only [finalOverFlag, addBallInnings]
      exact finalOverCondition_same _ _
    simp only [hflag]
    split_ifs <;> first | contradiction | simp
  · simp

/-- Claim C26, the divergence: in a two-over match the sixth regular single
takes the first innings from 0.5 to 1.0 overs, so that the floor of the overs
becomes 1 = `maxOvers - 1` where it was 0; the ball is accepted and the
events broadcast are `BALL_ADDED` and `OVER_COMPLETE`, without `FINAL_OVER`;
and no `addBall` request at all sets the flag or broadcasts `FINAL_OVER`. -/
theorem final_over_never_announced :
    fiveSinglesState.1.firstInnings.map (fun i => (i.balls.length, ⌊i.overs⌋)) = some (5, 0) ∧
      (storedState fiveSinglesState (addBall twoOverEnv (some fiveSinglesState.1)
          fiveSinglesState.2 (regularSingle 6))).1.firstInnings.map
            (fun i => (i.balls.length, ⌊i.overs⌋, finalOverFlag twoOverEnv.tournament i)) =
        some (6, 1, false) ∧
      addBallEvents twoOverEnv (some fiveSinglesState.1) fiveSinglesState.2 (regularSingle 6) =
        [MatchEvent.ballAdded, MatchEvent.overComplete] ∧
      ∀ env found store req, MatchEvent.finalOver ∉ addBallEvents env found store req :=
  ⟨by with_unfolding_all rfl, by with_unfolding_all rfl, by with_unfolding_all rfl,
    addBallEvents_no_final_over⟩

/-- Claim C27, the divergence: after six regular singles of one bowler,
accepted through `addBall`, the innings stands at 1.0 overs and the bowler's
career record at 0.6 overs (six increments of 0.1, no carry at the sixth
ball); and the bowler's record created by a delivery sent without `ballType`
has 0 overs, while the ledger stores that delivery as regular. -/
theorem bowler_overs_do_not_carry :
    sixSinglesState.1.firstInnings.map (fun i => (i.balls.length, i.overs)) = some (6, 1) ∧
      (careerBowling sixSinglesState.2 200 11 .white).map (fun b => b.overs) = some (6 / 10) ∧
      (storedState (freshMatch, []) (addBall sampleEnv (some freshMatch) []
          singleRequest)).1.firstInnings.map (fun i => i.balls.map (fun b => b.ballType)) =
        some [BallType.regular] ∧
      (careerBowling (storedState (freshMatch, []) (addBall sampleEnv (some freshMatch) []
          singleRequest)).2 200 11 .white).map (fun b => b.overs) = some 0 := by
  refine ⟨by with_unfolding_all rfl, by with_unfolding_all rfl, by with_unfolding_all rfl,
    by with_unfolding_all rfl⟩

/-- Claim C28, the divergence: after two wides of one bowler, both accepted,
the bowler's record has 0 overs and 2 runs and its stored economy is the
infinity that the division 2 / 0 gives; and the record created by a wicket
ball that costs one run has 1 wicket and 1 run with the average 0, not
1 / 1. -/
theorem economy_divides_by_zero_overs :
    twoWidesState.1.firstInnings.map (fun i => i.balls.length) = some 2 ∧
      (careerBowling twoWidesState.2 200 11 .white).map
          (fun b => (b.overs, b.runs, b.economy)) = some (0, 2, JsNumber.posInf) ∧
      (careerBowling (storedState (freshMatch, []) (addBall sampleEnv (some freshMatch) []
          runOutRequest)).2 200 11 .white).map (fun b => (b.wickets, b.runs, b.average)) =
        some (1, 1, JsNumber.finite 0) := by
  refine ⟨by with_unfolding_all rfl, by with_unfolding_all rfl, by with_unfolding_all rfl⟩

/-- Claim C29, the divergence: the match is scored by one regular single
through `addBall`, which leaves the striker's career record at 1 run off 1
ball; once the first innings is declared, the request that moves the match to
`completed` is accepted and stores the striker's career record with 2 runs
off 2 balls. -/
theorem completion_recounts_ledger :
    storedState (freshMatch, []) (addBall sampleEnv (some freshMatch) [] regularSingleRequest) =
        (matchAfterRegularSingle, statsAfterRegularSingle) ∧
      (careerBatting statsAfterRegularSingle 100 10 .white).map (fun b => (b.runs, b.balls)) =
        some (1, 1) ∧
      declaredSingleMatch.firstInnings.map (fun i => (i.isComplete, i.balls.length)) =
        some (true, 1) ∧
      (updateMatchStatusStats sampleEnv (some declaredSingleMatch) statsAfterRegularSingle
          completeRequest).toOption.map
        (fun r => (r.1.doc.status, (careerBatting r.2 100 10 .white).map
          (fun b => (b.runs, b.balls)))) =
        some (MatchStatus.completed, some (2, 2)) := by
  refine ⟨by with_unfolding_all rfl, by with_unfolding_all rfl, by with_unfolding_all rfl,
    by with_unfolding_all rfl⟩

/-! ## Claims on the completion of an innings after an overs change -/

/-- Claim C30 fails as stated: in a two-over match whose overs have been
changed to 1 after five singles, the sixth single is accepted and leaves the
innings at 1.0 overs and not complete; and in the same match reduced after
seven singles (the innings closed by the reduction at 1.1 overs), the undo of
the seventh single is accepted and stores the innings at 1.0 overs and not
complete. -/
theorem overs_change_ignored_by_ball_handlers :
    reducedFiveMatch.currentOversPerInnings = some 1 ∧
      (storedState (reducedFiveMatch, fiveSinglesState.2) (addBall twoOverEnv
          (some reducedFiveMatch) fiveSinglesState.2 (regularSingle 6))).1.firstInnings.map
        (fun i => (i.balls.length, i.overs, i.isComplete)) = some (6, 1, false) ∧
      reducedSevenMatch.currentOversPerInnings = some 1 ∧
      reducedSevenMatch.firstInnings.map
        (fun i => (i.balls.length, i.overs, i.isComplete, i.oversReductionInfo.isReduced)) =
        some (7, 11 / 10, true, true) ∧
      (storedState (reducedSevenMatch, sevenSinglesState.2) (undoBall twoOverEnv
          (some reducedSevenMatch) sevenSinglesState.2 (some "firstInnings"))).1.firstInnings.map
        (fun i => (i.balls.length, i.overs, i.isComplete)) = some (6, 1, false) := by
  refine ⟨by with_unfolding_all rfl, by with_unfolding_all rfl, by with_unfolding_all rfl,
    by with_unfolding_all rfl, by with_unfolding_all rfl⟩

/-- Claim C30 as amended: `addBall` and `undoBall` evaluate the completion of
an innings against the `oversPerInnings` of the tournament, whatever the
match's `currentOversPerInnings` is.  An accepted `addBall` stores the overs
of the ledger and marks the innings complete when these reach the
tournament's `oversPerInnings` or the wickets reach 10, and leaves
`isComplete` as it was otherwise; an accepted `undoBall` stores the overs of
the ledger and stores `isComplete = true` exactly when these are at least the
tournament's `oversPerInnings` or the wickets are at least 10, also on an
innings that was completed by declaration or by a reduction of the overs. -/
theorem completion_uses_tournament_overs (env : Env) (m : Match) (store : StatsStore)
    (k : InningsKey) (inn : Innings) (hinn : m.innings k = some inn) :
    (∀ req m1 store1, addBall env (some m) store req = .ok (m1, store1) →
      req.innings.bind parseInningsKey = some k →
      ∃ inn1 t, m1.innings k = some inn1 ∧ env.tournament = some t ∧
        inn1.overs = currentOvers (legalDeliveries inn1.balls) ∧
        inn1.isComplete =
          (if inn1.overs ≥ t.oversPerInnings ∨ inn1.wickets ≥ 10 then true else inn.isComplete)) ∧
    (∀ innings m1 store1, undoBall env (some m) store innings = .ok (m1, store1) →
      innings.bind parseInningsKey = some k →
      ∃ inn1 t, m1.innings k = some inn1 ∧ env.tournament = some t ∧
        inn1.overs = currentOvers (legalDeliveries inn1.balls) ∧
        inn1.isComplete =
          (if inn1.overs ≥ t.oversPerInnings ∨ inn1.wickets ≥ 10 then true else false)) := by
  constructor
  · intro req m1 store1 h hk
    obtain ⟨c, m0, inn0, ballType, wicketType, t, s1, hc, hf, hinn0, _, ht, hm1, _, _⟩ :=
      addBall_ok env (some m) store req m1 store1 h
    cases hf
    have hkey := checkBallRequest_key req c hc
    rw [hk] at hkey
    cases hkey
    rw [hinn] at hinn0
    cases hinn0
    refine ⟨_, t, by rw [hm1]; exact innings_setInnings _ _ _, ht, rfl, rfl⟩
  · intro innings m1 store1 h hk
    obtain ⟨k0, m0, inn0, last, t, s1, hk0, hf, hinn0, _, ht, hm1, _, _⟩ :=
      undoBall_ok env (some m) store innings m1 store1 h
    cases hf
    rw [hk] at hk0
    cases hk0
    rw [hinn] at hinn0
    cases hinn0
    refine ⟨_, t, by rw [hm1]; exact innings_setInnings _ _ _, ht, rfl, rfl⟩

/-- Witness of `completion_uses_tournament_overs`: the sixth single on the
match reduced to one over is accepted in the two-over tournament; the stored
innings has the overs of its ledger. -/
theorem completion_uses_tournament_overs_witness :
    ∃ inn1 t, (storedState (reducedFiveMatch, fiveSinglesState.2) (addBall twoOverEnv
        (some reducedFiveMatch) fiveSinglesState.2 (regularSingle 6))).1.innings .firstInnings =
          some inn1 ∧
      twoOverEnv.tournament = some t ∧ t.oversPerInnings = 2 ∧
      inn1.overs = currentOvers (legalDeliveries inn1.balls) := by
  obtain ⟨inn1, t, h1, h2, h3, _⟩ :=
    (completion_uses_tournament_overs twoOverEnv reducedFiveMatch fiveSinglesState.2
      .firstInnings (reducedFiveMatch.firstInnings.getD {}) (by with_unfolding_all rfl)).1
      (regularSingle 6)
      (storedState (reducedFiveMatch, fiveSinglesState.2) (addBall twoOverEnv
        (some reducedFiveMatch) fiveSinglesState.2 (regularSingle 6))).1
      (storedState (reducedFiveMatch, fiveSinglesState.2) (addBall twoOverEnv
        (some reducedFiveMatch) fiveSinglesState.2 (regularSingle 6))).2
      (by with_unfolding_all rfl) rfl
  refine ⟨inn1, t, h1, h2, ?_, h3⟩
  have : twoOverEnv.tournament = some twoOverTournament := rfl
  rw [this] at h2
  cases h2
  rfl

end Zinga
